import Mathlib

/-!
# waylib: the output render window

A shallow embedding of `src/server/qtquick/woutputrenderwindow.cpp`; the
texture wrapper of `src/server/kernel/wtexture.cpp` and the size limits of
`src/server/qtquick/wxwaylandsurfaceitem.cpp` follow it.

* Qt objects are records, pointers are `Option`s, object identity is a `Nat`.
* `qreal` / `float` values are rationals.  Every comparison made by the code
  is exact on floats as well, and the projection facts proved below only use
  quotients of a number by itself.
* A failed `Q_ASSERT` or a null dereference ends the call with an `Abort`.
* Calls into the scene graph and the output backend are recorded, in program
  order, as a list of `Call`s.  What the backend answers (render target,
  context bind, commit) is an input, the `Backend` record.
* In `doRender` the scene graph and the backend are closed: a recorded call
  does not call back into the window while a render cycle is running.  The
  cycle in which `rc()->render()` emits `sceneChanged`, and so calls
  `update()`, is `doRenderWithScene`, after the sample data.
-/

namespace Waylib

/-- How a call ends abnormally: a failed `Q_ASSERT`, or a null dereference. -/
inductive Abort where
  | assertion
  | nullPointer
deriving DecidableEq, Repr

/-- Four by four matrices, the values of `QMatrix4x4`. -/
abbrev Mat4 := Matrix (Fin 4) (Fin 4) ℚ

/-- `QSize`. -/
structure QSize where
  width : Int
  height : Int
deriving DecidableEq, Repr

/-- `QSizeF`. -/
structure QSizeF where
  width : ℚ
  height : ℚ
deriving DecidableEq, Repr

/-- `QRect`, given by its top-left corner and its size. -/
structure QRect where
  x : Int
  y : Int
  width : Int
  height : Int
deriving DecidableEq, Repr

/-- `QRect(QPoint(0, 0), size)`. -/
def QRect.atOrigin (s : QSize) : QRect := ⟨0, 0, s.width, s.height⟩

/-- `QRhi`: the only property read is `isYUpInNDC()`. -/
structure QRhi where
  isYUpInNDC : Bool
deriving DecidableEq, Repr

/-- `QQuickRenderTarget`: `isNull()` and `mirrorVertically()`. -/
structure QQuickRenderTarget where
  isNull : Bool
  mirrorVertically : Bool
deriving DecidableEq, Repr

/-- `WOutput` (`woutput.h`): the properties the render window reads. -/
structure WOutput where
  id : Nat
  scale : ℚ
  size : QSize
  isEnabled : Bool
deriving DecidableEq, Repr

/-- `WOutputViewport`, a scene item: its identity, the output it shows, and
the item properties `doRender` reads. -/
structure WOutputViewport where
  id : Nat
  output : Option WOutput
  isVisible : Bool
  devicePixelRatio : ℚ
  size : QSizeF
  itemNodeMatrix : Mat4
  parentItemToWindowTransform : Mat4

/-- `OutputHelper`: the viewport it serves (`m_output`), the two flags of
`WOutputHelper`, and whether `OutputHelper::init` has made its connections. -/
structure OutputHelper where
  m_output : WOutputViewport
  renderable : Bool
  contentIsDirty : Bool
  connected : Bool

/-- `RenderContextProxy`: the five members `renderNextFrame` hands over. -/
structure RenderContextProxy where
  dpr : ℚ
  deviceRect : QRect
  viewportRect : QRect
  projectionMatrix : Mat4
  projectionMatrixWithNativeNDC : Mat4

/-- Entries of the posted-event queue of the window: a `doRenderEventType`
event, or a queued invocation of `scheduleRender`. -/
inductive PostedEvent where
  | doRender
  | scheduleRender
deriving DecidableEq, Repr

/-- The calls `doRender` makes, in program order.  `render` carries what
`RenderContextProxy::renderNextFrame` passes to the renderer. -/
inductive Call where
  | polishItems
  | acquireRenderTarget (helper : Nat)
  | makeCurrent (helper : Nat)
  | setRenderTarget (helper : Nat)
  | beginFrame
  | sync
  | render (helper : Nat) (frame : RenderContextProxy)
  | endFrame
  | commit (helper : Nat) (ok : Bool)
  | resetState (helper : Nat)
  | doneCurrent (helper : Nat)
  | frameDone (helper : Nat)

/-- What the output backend answers during one render cycle, per viewport:
`acquireRenderTarget(...).second`, `makeCurrent(...)`, `commit()`. -/
structure Backend where
  acquireRenderTarget : Nat → QQuickRenderTarget
  makeCurrent : Nat → Bool
  commit : Nat → Bool

/-- `WOutputRenderWindowPrivate`, with the members of `QQuickWindowPrivate`
and `QWindowPrivate` the file uses.  `platformWindow` holds the device pixel
ratio of the `QWlrootsRenderWindow`, once created. -/
structure WOutputRenderWindowPrivate where
  compositor : Bool
  outputs : List OutputHelper
  renderContextProxy : Option RenderContextProxy
  platformWindow : Option ℚ
  customRenderTarget : QQuickRenderTarget
  rhi : Option QRhi
  postedEvents : List PostedEvent

/-! ## Qt matrices -/

/-- `QMatrix4x4::ortho`: multiplies by the orthographic projection, and
leaves the matrix alone when the volume is empty. -/
def QMatrix4x4.ortho (m : Mat4) (left right bottom top nearPlane farPlane : ℚ) : Mat4 :=
  if left = right ∨ bottom = top ∨ nearPlane = farPlane then m
  else
    m * !![2 / (right - left), 0, 0, -(left + right) / (right - left);
           0, 2 / (top - bottom), 0, -(top + bottom) / (top - bottom);
           0, 0, -2 / (farPlane - nearPlane), -(nearPlane + farPlane) / (farPlane - nearPlane);
           0, 0, 0, 1]

/-- `QMatrix4x4::inverted`: the inverse, or the identity when there is none. -/
def QMatrix4x4.inverted (m : Mat4) : Mat4 :=
  if m.det = 0 then 1 else (m.det)⁻¹ • m.adjugate

/-- `QMatrix4x4::map` on a point of the plane `z = 0`: the image of
`(x, y, 0, 1)`, divided by `w` unless `w` is one. -/
def QMatrix4x4.map (m : Mat4) (x y : ℚ) : ℚ × ℚ :=
  let v := m.mulVec ![x, y, 0, 1]
  if v 3 = 1 then (v 0, v 1) else (v 0 / v 3, v 1 / v 3)

/-! ## Output helpers -/

/-- The viewport identity of a helper. -/
def OutputHelper.id (h : OutputHelper) : Nat := h.m_output.id

/-- `new OutputHelper(output, this)`: not connected before `init`; the flags
of a new `WOutputHelper` (woutputhelper.cpp is not among the sources) start
cleared, until the backend reports a frame or damage. -/
def OutputHelper.create (output : WOutputViewport) : OutputHelper :=
  { m_output := output, renderable := false, contentIsDirty := false, connected := false }

/-- Modelled from the spec: `WOutputHelper::resetState` (woutputhelper.cpp is
not among the sources) "is called only after a confirmed commit, clearing
pending-damage bookkeeping": it clears the dirty bit. -/
def OutputHelper.resetState (h : OutputHelper) : OutputHelper :=
  { h with contentIsDirty := false }

/-- Modelled from the spec: `WOutputHelper::update` (woutputhelper.cpp is not
among the sources) "marks ... content dirty"; the call site says
`make contents to dirty`. -/
def OutputHelper.update (h : OutputHelper) : OutputHelper :=
  { h with contentIsDirty := true }

/-- `OutputHelper::init`: connects `requestRender`, `damaged`, `scaleChanged`. -/
def OutputHelper.init (h : OutputHelper) : OutputHelper :=
  { h with connected := true }

/-! ## The render window -/

/-- `isInitialized()`: the proxy pointer is set. -/
def WOutputRenderWindowPrivate.isInitialized (d : WOutputRenderWindowPrivate) : Bool :=
  d.renderContextProxy.isSome

/-- `q_func()->devicePixelRatio()`: the ratio of the platform window (one
without a platform window). -/
def WOutputRenderWindowPrivate.devicePixelRatio (d : WOutputRenderWindowPrivate) : ℚ :=
  d.platformWindow.getD 1

/-- `setSceneDevicePixelRatio`: stores the ratio in the platform window,
which has to exist. -/
def WOutputRenderWindowPrivate.setSceneDevicePixelRatio (d : WOutputRenderWindowPrivate)
    (ratio : ℚ) : Except Abort WOutputRenderWindowPrivate :=
  match d.platformWindow with
  | none => .error .nullPointer
  | some _ => .ok { d with platformWindow := some ratio }

/-- The loop of `updateSceneDPR`: the running maximum, started by the caller
at `0.0`; reading the scale of a viewport without output is a null
dereference. -/
def maxDPRLoop : List OutputHelper → ℚ → Except Abort ℚ
  | [], maxDPR => .ok maxDPR
  | o :: os, maxDPR =>
    match o.m_output.output with
    | none => .error .nullPointer
    | some out => maxDPRLoop os (if out.scale > maxDPR then out.scale else maxDPR)

/-- `WOutputRenderWindowPrivate::updateSceneDPR`. -/
def WOutputRenderWindowPrivate.updateSceneDPR (d : WOutputRenderWindowPrivate) :
    Except Abort WOutputRenderWindowPrivate :=
  if d.outputs.isEmpty then .ok d
  else
    match maxDPRLoop d.outputs 0 with
    | .error e => .error e
    | .ok maxDPR => d.setSceneDevicePixelRatio maxDPR

/-- `flipY` in `doRender`: Y-down clip space, toggled by a non-null custom
render target that mirrors vertically. -/
def flipY (rhi : Option QRhi) (customRenderTarget : QQuickRenderTarget) : Bool :=
  let flipY := match rhi with
    | some r => !r.isYUpInNDC
    | none => false
  if !customRenderTarget.isNull && customRenderTarget.mirrorVertically then !flipY else flipY

/-- `viewportMatrix` in `doRender`: the inverted item node matrix times the
inverted item-to-window transform of the parent. -/
def viewportMatrix (v : WOutputViewport) : Mat4 :=
  QMatrix4x4.inverted v.itemNodeMatrix * QMatrix4x4.inverted v.parentItemToWindowTransform

/-- `matrix * viewportMatrix` for `projectionMatrix`: the rectangle is
`QRectF(QPointF(0, 0), size)`, the matrix starts as the identity. -/
def displayProjection (flip : Bool) (v : WOutputViewport) : Mat4 :=
  QMatrix4x4.ortho 1 0 (0 + v.size.width)
      (if flip then 0 else 0 + v.size.height)
      (if flip then 0 + v.size.height else 0) 1 (-1)
    * viewportMatrix v

/-- `matrix * viewportMatrix` for `projectionMatrixWithNativeNDC`: when
`flipY` holds the matrix is reset and the unflipped projection applied,
otherwise the matrix of `projectionMatrix` is used again. -/
def nativeProjection (flip : Bool) (v : WOutputViewport) : Mat4 :=
  (if flip then
      QMatrix4x4.ortho 1 0 (0 + v.size.width) (0 + v.size.height) 0 1 (-1)
    else
      QMatrix4x4.ortho 1 0 (0 + v.size.width)
        (if flip then 0 else 0 + v.size.height)
        (if flip then 0 + v.size.height else 0) 1 (-1))
    * viewportMatrix v

/-- The five assignments `doRender` makes to the members of the proxy, for
the viewport `v` showing the output `out`. -/
def RenderContextProxy.assign (proxy : RenderContextProxy) (flip : Bool) (v : WOutputViewport)
    (out : WOutput) : RenderContextProxy :=
  { proxy with
    dpr := v.devicePixelRatio
    deviceRect := QRect.atOrigin out.size
    viewportRect := QRect.atOrigin out.size
    projectionMatrix := displayProjection flip v
    projectionMatrixWithNativeNDC := nativeProjection flip v }

/-- `RenderContextProxy::renderNextFrame`, reached from `rc()->render()`: the
renderer of helper `helper` is handed the members of the proxy. -/
def RenderContextProxy.renderNextFrame (proxy : RenderContextProxy) (helper : Nat) : Call :=
  .render helper proxy

/-- What one iteration of the loop of `doRender` carries over to the next:
the local `needPolishItems` and the two members the loop writes. -/
structure RenderPass where
  needPolishItems : Bool
  customRenderTarget : QQuickRenderTarget
  renderContextProxy : Option RenderContextProxy

/-- One iteration of the loop of `doRender`, for `helper`: the state carried
on, the helper afterwards, and the calls made. -/
def doRenderStep (env : Backend) (rhi : Option QRhi) (windowDpr : ℚ) (st : RenderPass)
    (helper : OutputHelper) : Except Abort (RenderPass × OutputHelper × List Call) :=
  if !helper.renderable || !helper.m_output.isVisible then .ok (st, helper, [])
  else
    let polish : List Call := if st.needPolishItems then [.polishItems] else []
    let st := { st with needPolishItems := false }
    if !helper.contentIsDirty then .ok (st, helper, polish)
    else
      let rt := env.acquireRenderTarget helper.id
      if rt.isNull then .ok (st, helper, polish ++ [.acquireRenderTarget helper.id])
      else if !env.makeCurrent helper.id then
        .ok (st, helper, polish ++ [.acquireRenderTarget helper.id, .makeCurrent helper.id])
      else
        let st := { st with customRenderTarget := rt }
        let flip := flipY rhi st.customRenderTarget
        match helper.m_output.output with
        | none => .error .nullPointer
        | some out =>
          if !(out.scale ≤ windowDpr) then .error .assertion
          else
            match st.renderContextProxy with
            | none => .error .nullPointer
            | some proxy =>
              let proxy := proxy.assign flip helper.m_output out
              let st := { st with renderContextProxy := some proxy }
              let ok := env.commit helper.id
              .ok (st, if ok then helper.resetState else helper,
                polish ++ [.acquireRenderTarget helper.id, .makeCurrent helper.id,
                  .setRenderTarget helper.id, .beginFrame, .sync,
                  proxy.renderNextFrame helper.id, .endFrame, .commit helper.id ok]
                  ++ (if ok then [.resetState helper.id] else [])
                  ++ [.doneCurrent helper.id, .frameDone helper.id])

/-- The loop `for (OutputHelper *helper : outputs)` of `doRender`. -/
def doRenderLoop (env : Backend) (rhi : Option QRhi) (windowDpr : ℚ) :
    List OutputHelper → RenderPass → Except Abort (RenderPass × List OutputHelper × List Call)
  | [], st => .ok (st, [], [])
  | helper :: rest, st =>
    match doRenderStep env rhi windowDpr st helper with
    | .error e => .error e
    | .ok (st1, helper1, calls1) =>
      match doRenderLoop env rhi windowDpr rest st1 with
      | .error e => .error e
      | .ok (st2, rest2, calls2) => .ok (st2, helper1 :: rest2, calls1 ++ calls2)

/-- `WOutputRenderWindowPrivate::doRender`: the window afterwards and the
calls made, in order. -/
def WOutputRenderWindowPrivate.doRender (d : WOutputRenderWindowPrivate) (env : Backend) :
    Except Abort (WOutputRenderWindowPrivate × List Call) :=
  match doRenderLoop env d.rhi d.devicePixelRatio d.outputs
      ⟨true, d.customRenderTarget, d.renderContextProxy⟩ with
  | .error e => .error e
  | .ok (st, outputs, calls) =>
    .ok ({ d with outputs := outputs, customRenderTarget := st.customRenderTarget,
                  renderContextProxy := st.renderContextProxy }, calls)

/-- `WOutputRenderWindow::render`. -/
def WOutputRenderWindowPrivate.render (d : WOutputRenderWindowPrivate) (env : Backend) :
    Except Abort (WOutputRenderWindowPrivate × List Call) :=
  d.doRender env

/-- `scheduleDoRender`: nothing before initialization, otherwise one more
`doRenderEventType` event is posted to the window. -/
def WOutputRenderWindowPrivate.scheduleDoRender (d : WOutputRenderWindowPrivate) :
    WOutputRenderWindowPrivate :=
  if !d.isInitialized then d
  else { d with postedEvents := d.postedEvents ++ [PostedEvent.doRender] }

/-- `WOutputRenderWindow::scheduleRender`. -/
def WOutputRenderWindowPrivate.scheduleRender (d : WOutputRenderWindowPrivate) :
    WOutputRenderWindowPrivate :=
  d.scheduleDoRender

/-- `WOutputRenderWindow::update`. -/
def WOutputRenderWindowPrivate.update (d : WOutputRenderWindowPrivate) :
    WOutputRenderWindowPrivate :=
  ({ d with outputs := d.outputs.map OutputHelper.update }).scheduleDoRender

/-- `WOutputRenderWindowPrivate::init(OutputHelper *)` for the helper of
viewport `output`: a queued invocation of `scheduleRender`, then
`helper->init()`. -/
def WOutputRenderWindowPrivate.initHelper (d : WOutputRenderWindowPrivate) (output : Nat) :
    WOutputRenderWindowPrivate :=
  { d with
    postedEvents := d.postedEvents ++ [PostedEvent.scheduleRender]
    outputs := d.outputs.map (fun h => if h.id = output then h.init else h) }

/-- What initialization obtains from outside: the members of the fresh proxy
(left unset by its constructor), the `QRhi` if one was created, and the ratio
of a newly created platform window. -/
structure InitEnv where
  proxy : RenderContextProxy
  rhi : Option QRhi
  platformDevicePixelRatio : ℚ

/-- `WOutputRenderWindowPrivate::init()`. -/
def WOutputRenderWindowPrivate.init (d : WOutputRenderWindowPrivate) (ienv : InitEnv) :
    Except Abort WOutputRenderWindowPrivate :=
  if !d.compositor then .error .assertion
  else
    let d := { d with
      rhi := ienv.rhi
      renderContextProxy := some ienv.proxy
      platformWindow := some (d.platformWindow.getD ienv.platformDevicePixelRatio) }
    let d := d.outputs.foldl (fun d h => d.initHelper h.id) d
    d.updateSceneDPR

/-- `WOutputRenderWindow::setCompositor`, up to the decision whether to
initialize at once (`initNow`, taken when the component is complete and the
compositor polished). -/
def WOutputRenderWindowPrivate.setCompositor (d : WOutputRenderWindowPrivate)
    (initNow : Option InitEnv) : Except Abort WOutputRenderWindowPrivate :=
  if d.compositor then .error .assertion
  else
    let d := { d with compositor := true }
    match initNow with
    | some ienv => d.init ienv
    | none => .ok d

/-- `WOutputRenderWindow::attach`. -/
def WOutputRenderWindowPrivate.attach (d : WOutputRenderWindowPrivate) (output : WOutputViewport) :
    Except Abort WOutputRenderWindowPrivate :=
  if d.outputs.any (fun h => h.m_output.id = output.id) then .error .assertion
  else if output.output.isNone then .error .assertion
  else
    let d := { d with outputs := d.outputs ++ [OutputHelper.create output] }
    if !d.isInitialized then .ok d
    else
      match d.updateSceneDPR with
      | .error e => .error e
      | .ok d => .ok (d.initHelper output.id).scheduleDoRender

/-- The loop of `detach`: the first helper of viewport `output` and the list
without it. -/
def removeHelper (output : Nat) : List OutputHelper → Option (OutputHelper × List OutputHelper)
  | [] => none
  | h :: hs =>
    if h.m_output.id = output then some (h, hs)
    else
      match removeHelper output hs with
      | none => none
      | some (found, rest) => some (found, h :: rest)

/-- `WOutputRenderWindow::detach`. -/
def WOutputRenderWindowPrivate.detach (d : WOutputRenderWindowPrivate) (output : WOutputViewport) :
    Except Abort WOutputRenderWindowPrivate :=
  match removeHelper output.id d.outputs with
  | none => .error .assertion
  | some (_, rest) => ({ d with outputs := rest }).updateSceneDPR

/-- The output `output` takes the scale `scale`, as seen through one helper. -/
def OutputHelper.setScale (output : Nat) (scale : ℚ) (h : OutputHelper) : OutputHelper :=
  { h with m_output := { h.m_output with
      output := h.m_output.output.map
        (fun o => if o.id = output then { o with scale := scale } else o) } }

/-- Whether the `scaleChanged` signal of output `output` reaches the slot
`OutputHelper::updateSceneDPR` of `h`. -/
def OutputHelper.receivesScaleChanged (output : Nat) (h : OutputHelper) : Bool :=
  h.connected && (h.m_output.output.any (fun o => o.id = output))

/-- One call of the slot `OutputHelper::updateSceneDPR` per receiver. -/
def runScaleChangedSlots : List OutputHelper → WOutputRenderWindowPrivate →
    Except Abort WOutputRenderWindowPrivate
  | [], d => .ok d
  | _ :: receivers, d =>
    match d.updateSceneDPR with
    | .error e => .error e
    | .ok d => runScaleChangedSlots receivers d

/-- The scale of output `output` becomes `scale` and `WOutput::scaleChanged`
is emitted. -/
def WOutputRenderWindowPrivate.scaleChanged (d : WOutputRenderWindowPrivate) (output : Nat)
    (scale : ℚ) : Except Abort WOutputRenderWindowPrivate :=
  let d := { d with outputs := d.outputs.map (OutputHelper.setScale output scale) }
  runScaleChangedSlots (d.outputs.filter (OutputHelper.receivesScaleChanged output)) d

/-- `WOutputRenderWindow::event` on a posted event: a `doRenderEventType`
event runs `doRender`, a queued invocation runs `scheduleRender`.  The second
component lists the calls of the render pass, if one ran. -/
def WOutputRenderWindowPrivate.event (d : WOutputRenderWindowPrivate) (env : Backend) :
    PostedEvent → Except Abort (WOutputRenderWindowPrivate × Option (List Call))
  | .doRender =>
    match d.doRender env with
    | .error e => .error e
    | .ok (d, calls) => .ok (d, some calls)
  | .scheduleRender => .ok (d.scheduleRender, none)

/-- Delivery of the events `events`, in posting order: the window afterwards
and the render passes that ran, each with its calls. -/
def deliverEvents (env : Backend) : List PostedEvent → WOutputRenderWindowPrivate →
    Except Abort (WOutputRenderWindowPrivate × List (List Call))
  | [], d => .ok (d, [])
  | e :: es, d =>
    match d.event env e with
    | .error x => .error x
    | .ok (d, pass) =>
      match deliverEvents env es d with
      | .error x => .error x
      | .ok (d, passes) => .ok (d, pass.toList ++ passes)

/-- One turn of the event loop: the events posted so far are taken off the
queue and delivered; events posted meanwhile wait for the next turn. -/
def WOutputRenderWindowPrivate.sendPostedEvents (d : WOutputRenderWindowPrivate) (env : Backend) :
    Except Abort (WOutputRenderWindowPrivate × List (List Call)) :=
  deliverEvents env d.postedEvents { d with postedEvents := [] }

/-! ## Reading the calls of a render cycle -/

/-- The helper whose render target is requested by the call. -/
def Call.acquired : Call → Option Nat
  | .acquireRenderTarget helper => some helper
  | _ => none

/-- The helper for which the scene is rendered by the call. -/
def Call.rendered : Call → Option Nat
  | .render helper _ => some helper
  | _ => none

/-- The helper whose buffer the call asks to commit. -/
def Call.committed : Call → Option Nat
  | .commit helper _ => some helper
  | _ => none

/-- The helper whose commit the call reports as successful. -/
def Call.commitSucceeded : Call → Option Nat
  | .commit helper true => some helper
  | _ => none

/-- The helper whose state the call resets. -/
def Call.reset : Call → Option Nat
  | .resetState helper => some helper
  | _ => none

/-- The helper whose viewport emits `frameDone`. -/
def Call.frameDoneOf : Call → Option Nat
  | .frameDone helper => some helper
  | _ => none

/-- The call is the polish pass. -/
def Call.isPolish : Call → Bool
  | .polishItems => true
  | _ => false

/-- The helper a call names, if it names one. -/
def Call.helperOf : Call → Option Nat
  | .acquireRenderTarget helper => some helper
  | .makeCurrent helper => some helper
  | .setRenderTarget helper => some helper
  | .render helper _ => some helper
  | .commit helper _ => some helper
  | .resetState helper => some helper
  | .doneCurrent helper => some helper
  | .frameDone helper => some helper
  | _ => none

/-- The frame parameters a `render` call passes on. -/
def Call.frame : Call → Option RenderContextProxy
  | .render _ frame => some frame
  | _ => none

/-! ## Predicates on helpers and windows -/

/-- The helper passes the first check of the loop: renderable and visible. -/
def OutputHelper.eligible (h : OutputHelper) : Bool :=
  h.renderable && h.m_output.isVisible

/-- The helper is renderable, visible and dirty: the loop goes on to request
a render target for it. -/
def OutputHelper.needsRender (h : OutputHelper) : Bool :=
  h.renderable && h.m_output.isVisible && h.contentIsDirty

/-- The backend hands out a render target for the helper and binds its
context. -/
def Backend.grants (env : Backend) (h : OutputHelper) : Bool :=
  !(env.acquireRenderTarget h.id).isNull && env.makeCurrent h.id

/-- The helper is not skipped: the scene is rendered for it and the commit of
its buffer requested. -/
def Backend.rendersFor (env : Backend) (h : OutputHelper) : Bool :=
  h.needsRender && env.grants h

/-- The helper has an output whose scale is at most `dpr`: the assertion in
`doRender` holds for it. -/
def OutputHelper.scaleWithin (dpr : ℚ) (h : OutputHelper) : Bool :=
  match h.m_output.output with
  | some out => decide (out.scale ≤ dpr)
  | none => false

/-- The window is initialized and the assertion in `doRender` holds for every
attached output. -/
def WOutputRenderWindowPrivate.RenderReady (d : WOutputRenderWindowPrivate) : Prop :=
  d.isInitialized = true ∧ ∀ h ∈ d.outputs, h.scaleWithin d.devicePixelRatio = true

instance WOutputRenderWindowPrivate.decidableRenderReady (d : WOutputRenderWindowPrivate) :
    Decidable d.RenderReady := by
  unfold WOutputRenderWindowPrivate.RenderReady; infer_instance

/-- The frame parameters of the viewport `v` showing the output `out`, from
their own attributes alone. -/
def frameParameters (flip : Bool) (v : WOutputViewport) (out : WOutput) : RenderContextProxy :=
  { dpr := v.devicePixelRatio
    deviceRect := QRect.atOrigin out.size
    viewportRect := QRect.atOrigin out.size
    projectionMatrix := displayProjection flip v
    projectionMatrixWithNativeNDC := nativeProjection flip v }

/-- The helper after one render cycle. -/
def Backend.settle (env : Backend) (h : OutputHelper) : OutputHelper :=
  if env.rendersFor h && env.commit h.id then h.resetState else h

/-- The calls one render cycle makes for a helper, the polish pass apart. -/
def helperCalls (env : Backend) (rhi : Option QRhi) (h : OutputHelper) : List Call :=
  if !h.needsRender then []
  else if (env.acquireRenderTarget h.id).isNull then [.acquireRenderTarget h.id]
  else if !env.makeCurrent h.id then [.acquireRenderTarget h.id, .makeCurrent h.id]
  else
    match h.m_output.output with
    | none => []
    | some out =>
      [.acquireRenderTarget h.id, .makeCurrent h.id, .setRenderTarget h.id, .beginFrame, .sync,
        .render h.id (frameParameters (flipY rhi (env.acquireRenderTarget h.id)) h.m_output out),
        .endFrame, .commit h.id (env.commit h.id)]
      ++ (if env.commit h.id then [.resetState h.id] else [])
      ++ [.doneCurrent h.id, .frameDone h.id]

/-- The polish pass, run when still needed and the helper is eligible. -/
def polishCalls (needPolishItems : Bool) (h : OutputHelper) : List Call :=
  if needPolishItems && h.eligible then [.polishItems] else []

/-- The calls of one render cycle over the helpers `hs`. -/
def cycleCalls (env : Backend) (rhi : Option QRhi) (hs : List OutputHelper) : List Call :=
  (if hs.any OutputHelper.eligible then [Call.polishItems] else [])
    ++ hs.flatMap (helperCalls env rhi)

/-! ## Sample data -/

/-- An untransformed viewport showing an output of the same identity. -/
def sampleViewport (id : Nat) (scale : ℚ) (size : QSize) : WOutputViewport :=
  { id := id
    output := some { id := id, scale := scale, size := size, isEnabled := true }
    isVisible := true
    devicePixelRatio := scale
    size := { width := size.width / scale, height := size.height / scale }
    itemNodeMatrix := 1
    parentItemToWindowTransform := 1 }

/-- A connected helper that is renderable and dirty. -/
def sampleHelper (id : Nat) (scale : ℚ) (size : QSize) : OutputHelper :=
  { m_output := sampleViewport id scale size
    renderable := true, contentIsDirty := true, connected := true }

/-- An initialized window without outputs, clip space Y-down. -/
def emptyWindow : WOutputRenderWindowPrivate :=
  { compositor := true
    outputs := []
    renderContextProxy := some
      { dpr := 1, deviceRect := ⟨0, 0, 0, 0⟩, viewportRect := ⟨0, 0, 0, 0⟩,
        projectionMatrix := 1, projectionMatrixWithNativeNDC := 1 }
    platformWindow := some 1
    customRenderTarget := { isNull := true, mirrorVertically := false }
    rhi := some { isYUpInNDC := false }
    postedEvents := [] }

/-- An initialized window with two outputs, of scales one and two. -/
def sampleWindow : WOutputRenderWindowPrivate :=
  { emptyWindow with
    outputs := [sampleHelper 1 1 ⟨1920, 1080⟩, sampleHelper 2 2 ⟨3840, 2160⟩]
    platformWindow := some 2 }

/-- A backend on which every step succeeds. -/
def grantingBackend : Backend :=
  { acquireRenderTarget := fun _ => { isNull := false, mirrorVertically := false }
    makeCurrent := fun _ => true
    commit := fun _ => true }

/-- A backend that has no render target for helper 1. -/
def acquireFailsBackend : Backend :=
  { grantingBackend with
    acquireRenderTarget := fun helper =>
      { isNull := decide (helper = 1), mirrorVertically := false } }

/-- A backend on which the commit of helper 2 fails. -/
def commitFailsBackend : Backend :=
  { grantingBackend with commit := fun helper => decide (helper ≠ 2) }

/-! ## The shared scale and the reachable windows -/

/-- The scales of the attached outputs, in list order. -/
def attachedScales (hs : List OutputHelper) : List ℚ :=
  hs.filterMap (fun h => h.m_output.output.map WOutput.scale)

/-- The scales of the attached outputs that are enabled. -/
def enabledScales (hs : List OutputHelper) : List ℚ :=
  hs.filterMap (fun h => (h.m_output.output.filter WOutput.isEnabled).map WOutput.scale)

/-- The greatest of zero and the scales of all attached outputs. -/
def sceneScale (hs : List OutputHelper) : ℚ :=
  (attachedScales hs).foldl max 0

/-- `WOutputRenderWindow::WOutputRenderWindow`: no compositor, no output, not
initialized, no platform window, a null render target. -/
def WOutputRenderWindowPrivate.construct : WOutputRenderWindowPrivate :=
  { compositor := false
    outputs := []
    renderContextProxy := none
    platformWindow := none
    customRenderTarget := { isNull := true, mirrorVertically := false }
    rhi := none
    postedEvents := [] }

/-- `QWindow::create`: the platform window comes into being, with the ratio
`ratio`, unless it exists. -/
def WOutputRenderWindowPrivate.create (d : WOutputRenderWindowPrivate) (ratio : ℚ) :
    WOutputRenderWindowPrivate :=
  { d with platformWindow := some (d.platformWindow.getD ratio) }

/-- Modelled from the spec: what the backend and the scene change about a
helper between two calls of the window ("renderable (backend readiness) and
dirty (pending content change)", visibility, geometry): anything but the
identity of the viewport, the connections of the helper, and the identity and
scale of the output, which changes through `scaleChanged`. -/
def OutputHelper.EnvStep (h h1 : OutputHelper) : Prop :=
  h1.m_output.id = h.m_output.id ∧ h1.connected = h.connected
    ∧ h1.m_output.output.map (fun o => (o.id, o.scale))
        = h.m_output.output.map (fun o => (o.id, o.scale))

/-- Two helpers serve the same viewport and show the same output at the same
scale. -/
def SameOutput (h h1 : OutputHelper) : Prop :=
  h1.m_output.id = h.m_output.id
    ∧ h1.m_output.output.map (fun o => (o.id, o.scale))
        = h.m_output.output.map (fun o => (o.id, o.scale))

/-- The windows a program can reach from the constructor through the calls
of `WOutputRenderWindow`, the delivery of posted events, scale changes and
changes made by the backend and the scene. -/
inductive Reachable : WOutputRenderWindowPrivate → Prop where
  | construct : Reachable WOutputRenderWindowPrivate.construct
  | create (d : WOutputRenderWindowPrivate) (ratio : ℚ) :
      Reachable d → Reachable (d.create ratio)
  | setCompositor (d d1 : WOutputRenderWindowPrivate) (initNow : Option InitEnv) :
      Reachable d → d.setCompositor initNow = .ok d1 → Reachable d1
  | init (d d1 : WOutputRenderWindowPrivate) (ienv : InitEnv) :
      Reachable d → d.init ienv = .ok d1 → Reachable d1
  | attach (d d1 : WOutputRenderWindowPrivate) (output : WOutputViewport) :
      Reachable d → d.attach output = .ok d1 → Reachable d1
  | detach (d d1 : WOutputRenderWindowPrivate) (output : WOutputViewport) :
      Reachable d → d.detach output = .ok d1 → Reachable d1
  | scaleChanged (d d1 : WOutputRenderWindowPrivate) (output : Nat) (scale : ℚ) :
      Reachable d → d.scaleChanged output scale = .ok d1 → Reachable d1
  | update (d : WOutputRenderWindowPrivate) : Reachable d → Reachable d.update
  | scheduleRender (d : WOutputRenderWindowPrivate) : Reachable d → Reachable d.scheduleRender
  | render (d d1 : WOutputRenderWindowPrivate) (env : Backend) (calls : List Call) :
      Reachable d → d.render env = .ok (d1, calls) → Reachable d1
  | sendPostedEvents (d d1 : WOutputRenderWindowPrivate) (env : Backend)
      (passes : List (List Call)) :
      Reachable d → d.sendPostedEvents env = .ok (d1, passes) → Reachable d1
  | environment (d : WOutputRenderWindowPrivate) (outputs : List OutputHelper) :
      Reachable d → List.Forall₂ OutputHelper.EnvStep d.outputs outputs →
      Reachable { d with outputs := outputs }

/-- What holds of every reachable window: each helper has an output, the
viewports are pairwise distinct, and once the window is initialized it has a
platform window, every helper is connected, and the ratio of the platform
window is the scene scale of the attached outputs, if there are any. -/
structure WOutputRenderWindowPrivate.Coherent (d : WOutputRenderWindowPrivate) : Prop where
  hasOutput : ∀ h ∈ d.outputs, h.m_output.output.isSome = true
  distinct : (d.outputs.map OutputHelper.id).Nodup
  platform : d.isInitialized = true → d.platformWindow.isSome = true
  connected : d.isInitialized = true → ∀ h ∈ d.outputs, h.connected = true
  ratio : d.isInitialized = true → d.outputs ≠ [] →
    d.platformWindow = some (sceneScale d.outputs)

/-- The ratio `r` is the greatest of zero and the scales of all attached
outputs, enabled or not: no attached output has a greater scale, and `r` is
the scale of an attached output as soon as one of them has a scale that is
not negative. -/
def IsGreatestAttachedScale (hs : List OutputHelper) (r : ℚ) : Prop :=
  r = sceneScale hs
    ∧ (∀ s ∈ attachedScales hs, s ≤ r)
    ∧ ((∃ s ∈ attachedScales hs, 0 ≤ s) → r ∈ attachedScales hs)

/-- What initialization obtains for the sample windows. -/
def sampleInitEnv : InitEnv :=
  { proxy :=
      { dpr := 1, deviceRect := ⟨0, 0, 0, 0⟩, viewportRect := ⟨0, 0, 0, 0⟩,
        projectionMatrix := 1, projectionMatrixWithNativeNDC := 1 }
    rhi := some { isYUpInNDC := false }
    platformDevicePixelRatio := 1 }

/-- A viewport whose output, of scale two, is disabled. -/
def disabledViewport : WOutputViewport :=
  { sampleViewport 2 2 ⟨3840, 2160⟩ with
    output := some { id := 2, scale := 2, size := ⟨3840, 2160⟩, isEnabled := false } }

/-- A request for a render: a call of `update()` or of `scheduleRender()`. -/
inductive RenderRequest where
  | update
  | scheduleRender
deriving DecidableEq, Repr

/-- The window after one request. -/
def WOutputRenderWindowPrivate.request (d : WOutputRenderWindowPrivate) :
    RenderRequest → WOutputRenderWindowPrivate
  | .update => d.update
  | .scheduleRender => d.scheduleRender

/-- The window after the requests `reqs`, made in that order. -/
def WOutputRenderWindowPrivate.requests (d : WOutputRenderWindowPrivate)
    (reqs : List RenderRequest) : WOutputRenderWindowPrivate :=
  reqs.foldl WOutputRenderWindowPrivate.request d

/-- Modelled from the spec: the backend reports every attached output ready
for a frame ("renderable (backend readiness)"; woutputhelper.cpp, which sets
the flag, is not among the sources). -/
def WOutputRenderWindowPrivate.outputsReady (d : WOutputRenderWindowPrivate) :
    WOutputRenderWindowPrivate :=
  { d with outputs := d.outputs.map (fun h => { h with renderable := true }) }

/-! ## The two orthographic forms -/

/-- The clip space of the backend is Y-down: there is a `QRhi` and it is not
Y-up in normalized device coordinates. -/
def backendYDown (rhi : Option QRhi) : Bool :=
  match rhi with
  | some r => !r.isYUpInNDC
  | none => false

/-- The vertically flipped orthographic form, `ortho(0, w, 0, h, 1, -1)`. -/
def flippedOrtho (v : WOutputViewport) : Mat4 :=
  QMatrix4x4.ortho 1 0 v.size.width 0 v.size.height 1 (-1)

/-- The unflipped orthographic form, `ortho(0, w, h, 0, 1, -1)`. -/
def unflippedOrtho (v : WOutputViewport) : Mat4 :=
  QMatrix4x4.ortho 1 0 v.size.width v.size.height 0 1 (-1)

/-! ## Scene changes and sequences of attach and detach -/

/-- The slot the connections made in `init()` give to
`QQuickRenderControl::sceneChanged` and `renderRequested`: `update()`. -/
def WOutputRenderWindowPrivate.sceneChanged (d : WOutputRenderWindowPrivate) :
    WOutputRenderWindowPrivate :=
  d.update

/-- A call of `attach` or of `detach`. -/
inductive WindowOp where
  | attach (output : WOutputViewport)
  | detach (output : WOutputViewport)

/-- The window after one call of `attach` or `detach`. -/
def WOutputRenderWindowPrivate.apply (d : WOutputRenderWindowPrivate) :
    WindowOp → Except Abort WOutputRenderWindowPrivate
  | .attach output => d.attach output
  | .detach output => d.detach output

/-- The window after the calls `ops`, made in that order, up to the first
call that aborts. -/
def WOutputRenderWindowPrivate.applyOps :
    List WindowOp → WOutputRenderWindowPrivate → Except Abort WOutputRenderWindowPrivate
  | [], d => .ok d
  | op :: ops, d =>
    match d.apply op with
    | .error e => .error e
    | .ok d1 => WOutputRenderWindowPrivate.applyOps ops d1

/-- The viewports attached after the calls `ops`, in the order of their
attachment: `attach` puts the viewport at the end, `detach` takes out the
viewport of that identity and keeps the others in their order. -/
def attachedAfter : List WindowOp → List WOutputViewport → List WOutputViewport
  | [], vs => vs
  | .attach output :: ops, vs => attachedAfter ops (vs ++ [output])
  | .detach output :: ops, vs =>
    attachedAfter ops (vs.eraseP (fun v => decide (v.id = output.id)))

/-- The calls `ops` are valid from the attached viewports `vs`: each
`attach` is of a viewport that is not attached and has an output, each
`detach` is of a viewport that is attached. -/
def validOps : List WindowOp → List WOutputViewport → Bool
  | [], _ => true
  | .attach output :: ops, vs =>
    decide (output.id ∉ vs.map WOutputViewport.id) && output.output.isSome
      && validOps ops (vs ++ [output])
  | .detach output :: ops, vs =>
    decide (output.id ∈ vs.map WOutputViewport.id)
      && validOps ops (vs.eraseP (fun v => decide (v.id = output.id)))

/-- The sample window with other contents in its proxy. -/
def staleProxyWindow : WOutputRenderWindowPrivate :=
  { sampleWindow with
    renderContextProxy := some
      { dpr := 7, deviceRect := ⟨1, 1, 1, 1⟩, viewportRect := ⟨2, 2, 2, 2⟩,
        projectionMatrix := 0, projectionMatrixWithNativeNDC := 0 } }

/-- A backend that cannot bind the context of helper 1. -/
def bindFailsBackend : Backend :=
  { grantingBackend with makeCurrent := fun helper => decide (helper ≠ 1) }

/-! ## The texture wrapper

A shallow embedding of `src/server/kernel/wtexture.cpp`.

* A `QWTexture` with its `wlr_texture` is one record: the size, and what the
  renderer that made the buffer holds for it.
* The attribute readers of wlroots assert the kind of the buffer they are
  given; a reader handed a buffer of another kind ends the call with
  `Abort.assertion`.
* A `QQuickWindow` is its identity; the window given to `getSGTexture` is
  taken to have its `QRhi`.
* `QSGPlainTexture` is the record of what its setters store.
-/

/-- `WTexture::Type`. -/
inductive WTexture.TextureType where
  | Unknow
  | Image
  | GLTexture
  | VKTexture
deriving DecidableEq, Repr

/-- `wlr_gles2_texture_attribs`. -/
structure wlr_gles2_texture_attribs where
  target : Nat
  tex : Nat
  has_alpha : Bool
deriving DecidableEq, Repr

/-- `wlr_vk_image_attribs`. -/
structure wlr_vk_image_attribs where
  image : Nat
  layout : Nat
  format : Nat
deriving DecidableEq, Repr

/-- What the renderer that made a `wlr_texture` holds for it. -/
inductive WlrTextureImpl where
  | gles2 (attribs : wlr_gles2_texture_attribs)
  | pixman (image : Nat)
  | vk (attribs : wlr_vk_image_attribs) (has_alpha : Bool)
  | other
deriving DecidableEq, Repr

/-- `QWTexture`, with the `wlr_texture` it wraps: `width` and `height` are
`uint32_t`. -/
structure QWTexture where
  width : Nat
  height : Nat
  impl : WlrTextureImpl
deriving DecidableEq, Repr

/-- `wlr_texture_is_gles2`. -/
def wlr_texture_is_gles2 (t : QWTexture) : Bool :=
  match t.impl with
  | .gles2 _ => true
  | _ => false

/-- `wlr_texture_is_pixman`. -/
def wlr_texture_is_pixman (t : QWTexture) : Bool :=
  match t.impl with
  | .pixman _ => true
  | _ => false

/-- `wlr_texture_is_vk`. -/
def wlr_texture_is_vk (t : QWTexture) : Bool :=
  match t.impl with
  | .vk _ _ => true
  | _ => false

/-- `wlr_gles2_texture_get_attribs`. -/
def wlr_gles2_texture_get_attribs (t : QWTexture) : Except Abort wlr_gles2_texture_attribs :=
  match t.impl with
  | .gles2 attribs => .ok attribs
  | _ => .error Abort.assertion

/-- `wlr_vk_texture_get_image_attribs`. -/
def wlr_vk_texture_get_image_attribs (t : QWTexture) : Except Abort wlr_vk_image_attribs :=
  match t.impl with
  | .vk attribs _ => .ok attribs
  | _ => .error Abort.assertion

/-- `wlr_vk_texture_has_alpha`. -/
def wlr_vk_texture_has_alpha (t : QWTexture) : Except Abort Bool :=
  match t.impl with
  | .vk _ has_alpha => .ok has_alpha
  | _ => .error Abort.assertion

/-- `wlr_pixman_texture_get_image`. -/
def wlr_pixman_texture_get_image (t : QWTexture) : Except Abort Nat :=
  match t.impl with
  | .pixman image => .ok image
  | _ => .error Abort.assertion

/-- The conversion of a `uint32_t` to `int`. -/
def uint32ToInt (n : Nat) : Int :=
  if n % 2 ^ 32 < 2 ^ 31 then ((n % 2 ^ 32 : Nat) : Int) else ((n % 2 ^ 32 : Nat) : Int) - 2 ^ 32

/-- `QSize(handle->handle()->width, handle->handle()->height)`. -/
def QWTexture.size (t : QWTexture) : QSize :=
  ⟨uint32ToInt t.width, uint32ToInt t.height⟩

/-- `GL_TEXTURE_EXTERNAL_OES`. -/
def GL_TEXTURE_EXTERNAL_OES : Nat := 0x8D65

/-- `QImage`: its pixel data, `size()` and `hasAlphaChannel()`. -/
structure QImage where
  data : Nat
  size : QSize
  hasAlphaChannel : Bool
deriving DecidableEq, Repr

/-- The `QRhiTexture` that `setTextureFromNativeTexture` makes from a native
object. -/
structure QRhiTexture where
  nativeObject : Nat
  nativeLayout : Nat
  nativeFormat : Nat
  pixelSize : QSize
  externalOES : Bool
deriving DecidableEq, Repr

/-- `QSGPlainTexture`. -/
structure QSGPlainTexture where
  texture : Option QRhiTexture
  image : Option QImage
  textureSize : QSize
  hasAlphaChannel : Bool
  ownsTexture : Bool
deriving DecidableEq, Repr

/-- `new QSGPlainTexture()`. -/
def QSGPlainTexture.new : QSGPlainTexture :=
  { texture := none, image := none, textureSize := ⟨-1, -1⟩, hasAlphaChannel := false,
    ownsTexture := true }

/-- `QSGPlainTexture::setOwnsTexture`. -/
def QSGPlainTexture.setOwnsTexture (t : QSGPlainTexture) (owns : Bool) : QSGPlainTexture :=
  { t with ownsTexture := owns }

/-- `QSGPlainTexture::setHasAlphaChannel`. -/
def QSGPlainTexture.setHasAlphaChannel (t : QSGPlainTexture) (alpha : Bool) : QSGPlainTexture :=
  { t with hasAlphaChannel := alpha }

/-- `QSGPlainTexture::setTextureSize`. -/
def QSGPlainTexture.setTextureSize (t : QSGPlainTexture) (size : QSize) : QSGPlainTexture :=
  { t with textureSize := size }

/-- `QSGPlainTexture::setTextureFromNativeTexture`: the texture made from the
native object takes the place of the one held, and of the image. -/
def QSGPlainTexture.setTextureFromNativeTexture (t : QSGPlainTexture)
    (nativeObjectHandle nativeLayoutOrState nativeFormat : Nat) (size : QSize)
    (externalOES : Bool) : QSGPlainTexture :=
  { t with
    texture := some
      { nativeObject := nativeObjectHandle, nativeLayout := nativeLayoutOrState,
        nativeFormat := nativeFormat, pixelSize := size, externalOES := externalOES }
    image := none }

/-- `QSGPlainTexture::setImage`: the image is kept, with its size and its
alpha flag. -/
def QSGPlainTexture.setImage (t : QSGPlainTexture) (image : QImage) : QSGPlainTexture :=
  { t with image := some image, textureSize := image.size,
           hasAlphaChannel := image.hasAlphaChannel }

/-- The member functions `onWlrTextureChanged` can point to. -/
inductive Routine where
  | updateGLTexture
  | updateVKTexture
  | updateImage
deriving DecidableEq, Repr

/-- What the texture code is built with: whether `ENABLE_VULKAN_RENDER` is
defined, and `WTools::fromPixmanImage`, which is not part of these sources. -/
structure TextureBuild where
  vulkanRender : Bool
  fromPixmanImage : Nat → QImage

/-- `WTexturePrivate`. -/
structure WTexturePrivate where
  handle : Option QWTexture
  type : WTexture.TextureType
  texture : Option QSGPlainTexture
  onWlrTextureChanged : Option Routine
  window : Option Nat
deriving DecidableEq, Repr

/-- `WTexturePrivate::updateGLTexture`. -/
def WTexturePrivate.updateGLTexture (d : WTexturePrivate) : Except Abort WTexturePrivate :=
  match d.window with
  | none => .ok d
  | some _ =>
    match d.handle with
    | none => .error Abort.nullPointer
    | some handle =>
      match wlr_gles2_texture_get_attribs handle with
      | .error e => .error e
      | .ok attribs =>
        let flags := decide (attribs.target = GL_TEXTURE_EXTERNAL_OES)
        match d.texture with
        | none => .error Abort.nullPointer
        | some texture =>
          .ok { d with
                texture := some
                  ((((texture.setTextureFromNativeTexture attribs.tex 0 0 handle.size
                        flags).setHasAlphaChannel attribs.has_alpha).setTextureSize
                      handle.size).setOwnsTexture false) }

/-- `WTexturePrivate::updateVKTexture`. -/
def WTexturePrivate.updateVKTexture (d : WTexturePrivate) : Except Abort WTexturePrivate :=
  match d.window with
  | none => .ok d
  | some _ =>
    match d.handle with
    | none => .error Abort.nullPointer
    | some handle =>
      match wlr_vk_texture_get_image_attribs handle with
      | .error e => .error e
      | .ok attribs =>
        match d.texture with
        | none => .error Abort.nullPointer
        | some texture =>
          match wlr_vk_texture_has_alpha handle with
          | .error e => .error e
          | .ok alpha =>
            .ok { d with
                  texture := some
                    (((texture.setTextureFromNativeTexture attribs.image attribs.layout
                          attribs.format handle.size false).setHasAlphaChannel
                        alpha).setTextureSize handle.size) }

/-- `WTexturePrivate::updateImage`. -/
def WTexturePrivate.updateImage (build : TextureBuild) (d : WTexturePrivate) :
    Except Abort WTexturePrivate :=
  match d.handle with
  | none => .error Abort.nullPointer
  | some handle =>
    match wlr_pixman_texture_get_image handle with
    | .error e => .error e
    | .ok image =>
      match d.texture with
      | none => .error Abort.nullPointer
      | some texture =>
        .ok { d with texture := some (texture.setImage (build.fromPixmanImage image)) }

/-- `WTexturePrivate::init`. -/
def WTexturePrivate.init (build : TextureBuild) (d : WTexturePrivate) (handle : QWTexture) :
    WTexturePrivate :=
  let d1 := { d with texture := some (QSGPlainTexture.new.setOwnsTexture false) }
  if wlr_texture_is_gles2 handle then
    { d1 with type := .GLTexture, onWlrTextureChanged := some .updateGLTexture }
  else if wlr_texture_is_pixman handle then
    { d1 with type := .Image, onWlrTextureChanged := some .updateImage }
  else if build.vulkanRender && wlr_texture_is_vk handle then
    { d1 with type := .VKTexture, onWlrTextureChanged := some .updateVKTexture }
  else
    { d1 with type := .Unknow }

/-- The constructor of `WTexturePrivate`. The member `type` has no
initializer: `indeterminate` is what it holds until `init` writes it. -/
def WTexturePrivate.construct (build : TextureBuild) (indeterminate : WTexture.TextureType)
    (handle : Option QWTexture) : WTexturePrivate :=
  let d : WTexturePrivate :=
    { handle := handle, type := indeterminate, texture := none, onWlrTextureChanged := none,
      window := none }
  match handle with
  | some h => d.init build h
  | none => d

/-- The call `(d->*(d->onWlrTextureChanged))()`. -/
def WTexturePrivate.call (build : TextureBuild) (d : WTexturePrivate) :
    Routine → Except Abort WTexturePrivate
  | .updateGLTexture => d.updateGLTexture
  | .updateVKTexture => d.updateVKTexture
  | .updateImage => d.updateImage build

/-- `WTexture::setHandle`. -/
def WTexture.setHandle (build : TextureBuild) (d : WTexturePrivate) :
    Option QWTexture → Except Abort WTexturePrivate
  | none => .ok { d with handle := none }
  | some new_handle =>
    let d1 := if d.handle.isNone then d.init build new_handle else d
    let d2 := { d1 with handle := some new_handle }
    match d2.onWlrTextureChanged with
    | some routine => d2.call build routine
    | none => .ok d2

/-- `WTexture::type`. -/
def WTexture.type (d : WTexturePrivate) : WTexture.TextureType := d.type

/-- `WTexture::getSGTexture`: the wrapper after the call; what the call
returns is its `texture`. -/
def WTexture.getSGTexture (build : TextureBuild) (d : WTexturePrivate) (window : Option Nat) :
    Except Abort WTexturePrivate :=
  let oldWindow := d.window
  let d1 := { d with window := window }
  if d1.texture.isNone ∨ window ≠ oldWindow then
    match d1.onWlrTextureChanged with
    | some routine => d1.call build routine
    | none => .ok d1
  else
    .ok d1

/-- The wrapper after the calls of `setHandle` with `handles`, made in that
order, up to the first call that aborts. -/
def WTexture.setHandles (build : TextureBuild) :
    List (Option QWTexture) → WTexturePrivate → Except Abort WTexturePrivate
  | [], d => .ok d
  | handle :: handles, d =>
    match WTexture.setHandle build d handle with
    | .error e => .error e
    | .ok d1 => WTexture.setHandles build handles d1

/-- The routine selected, if any, can read the buffer: the buffer is of the
kind the routine asks wlroots about. -/
def WTexturePrivate.reads (d : WTexturePrivate) (handle : QWTexture) : Bool :=
  match d.onWlrTextureChanged with
  | none => true
  | some .updateGLTexture => wlr_texture_is_gles2 handle
  | some .updateVKTexture => wlr_texture_is_vk handle
  | some .updateImage => wlr_texture_is_pixman handle

/-- A wrapper with a routine has its `QSGPlainTexture`: `init` makes both. -/
def WTexturePrivate.Initialized (d : WTexturePrivate) : Prop :=
  d.onWlrTextureChanged.isSome = true → d.texture.isSome = true

/-- A build with Vulkan; a pixman image converts to an image of 32 by 32
pixels with alpha. -/
def sampleBuild : TextureBuild :=
  { vulkanRender := true
    fromPixmanImage := fun image => { data := image, size := ⟨32, 32⟩, hasAlphaChannel := true } }

/-- A GL buffer of 64 by 48 pixels with alpha, to be sampled as external. -/
def sampleGLBuffer : QWTexture :=
  { width := 64, height := 48,
    impl := .gles2 { target := GL_TEXTURE_EXTERNAL_OES, tex := 7, has_alpha := true } }

/-- A second GL buffer, of 128 by 96 pixels, without alpha. -/
def otherGLBuffer : QWTexture :=
  { width := 128, height := 96, impl := .gles2 { target := 3553, tex := 9, has_alpha := false } }

/-- A pixman buffer of 32 by 32 pixels. -/
def samplePixmanBuffer : QWTexture :=
  { width := 32, height := 32, impl := .pixman 5 }

/-- A Vulkan buffer of 16 by 16 pixels. -/
def sampleVKBuffer : QWTexture :=
  { width := 16, height := 16, impl := .vk { image := 11, layout := 5, format := 44 } true }

/-- A wrapper made without a buffer. -/
def emptyTexture : WTexturePrivate :=
  WTexturePrivate.construct sampleBuild .Unknow none

/-! ## The XWayland surface item

A shallow embedding of `WXWaylandSurfaceItem::onSurfaceCommit` in
`src/server/qtquick/wxwaylandsurfaceitem.cpp`. -/

/-- `INT_MAX`, for a 32 bit `int`. -/
def INT_MAX : Int := 2 ^ 31 - 1

/-- `QSize::isValid`. -/
def QSize.isValid (s : QSize) : Bool := decide (0 ≤ s.width) && decide (0 ≤ s.height)

/-- The signals `onSurfaceCommit` emits. -/
inductive SizeSignal where
  | minimumSizeChanged
  | maximumSizeChanged
deriving DecidableEq, Repr

/-- `WXWaylandSurfaceItemPrivate`: the members `onSurfaceCommit` reads and
writes. -/
structure WXWaylandSurfaceItemPrivate where
  minimumSize : QSize
  maximumSize : QSize
deriving DecidableEq, Repr

/-- `WXWaylandSurfaceItem::onSurfaceCommit`, after the call of the base class:
`surfaceMin` and `surfaceMax` are what `xwaylandSurface()->minSize()` and
`maxSize()` return. The result is the item and the signals emitted, in
order. -/
def WXWaylandSurfaceItem.onSurfaceCommit (d : WXWaylandSurfaceItemPrivate)
    (surfaceMin surfaceMax : QSize) : WXWaylandSurfaceItemPrivate × List SizeSignal :=
  let minSize := if !surfaceMin.isValid then (⟨0, 0⟩ : QSize) else surfaceMin
  let maxSize := if surfaceMax.isValid then (⟨INT_MAX, INT_MAX⟩ : QSize) else surfaceMax
  let (d1, s1) :=
    if d.minimumSize ≠ minSize then
      ({ d with minimumSize := minSize }, [SizeSignal.minimumSizeChanged])
    else (d, [])
  let (d2, s2) :=
    if d1.maximumSize ≠ maxSize then
      ({ d1 with maximumSize := maxSize }, [SizeSignal.maximumSizeChanged])
    else (d1, [])
  (d2, s1 ++ s2)

/-- `WXWaylandSurfaceItem::minimumSize`. -/
def WXWaylandSurfaceItem.minimumSize (d : WXWaylandSurfaceItemPrivate) : QSize := d.minimumSize

/-- `WXWaylandSurfaceItem::maximumSize`. -/
def WXWaylandSurfaceItem.maximumSize (d : WXWaylandSurfaceItemPrivate) : QSize := d.maximumSize

/-- What the size limits are to be after a commit, in the words of the
interface: each limit of the surface when it is valid, and the widest range
otherwise. -/
def normalisedLimits (surfaceMin surfaceMax : QSize) : QSize × QSize :=
  (if surfaceMin.isValid then surfaceMin else ⟨0, 0⟩,
   if surfaceMax.isValid then surfaceMax else ⟨INT_MAX, INT_MAX⟩)

/-- A wrapper holding the sample GL buffer, before any window has asked for
its texture: what `setHandle` makes of `emptyTexture`. -/
def boundTexture : WTexturePrivate :=
  { handle := some sampleGLBuffer, type := .GLTexture,
    texture := some (QSGPlainTexture.new.setOwnsTexture false),
    onWlrTextureChanged := some .updateGLTexture, window := none }

/-- The wrapper `boundTexture` after window 1 has asked for its texture. -/
def windowedTexture : WTexturePrivate :=
  { boundTexture with
    texture := some
      { texture := some
          { nativeObject := 7, nativeLayout := 0, nativeFormat := 0, pixelSize := ⟨64, 48⟩,
            externalOES := true }
        image := none, textureSize := ⟨64, 48⟩, hasAlphaChannel := true,
        ownsTexture := false }
    window := some 1 }

theorem assign_eq_frameParameters (proxy : RenderContextProxy) (flip : Bool)
    (v : WOutputViewport) (out : WOutput) :
    proxy.assign flip v out = frameParameters flip v out := rfl

theorem doRenderStep_ok (env : Backend) (rhi : Option QRhi) (dpr : ℚ) (st : RenderPass)
    (h : OutputHelper) (hp : st.renderContextProxy.isSome = true)
    (hs : h.scaleWithin dpr = true) :
    ∃ st1, doRenderStep env rhi dpr st h
        = .ok (st1, env.settle h, polishCalls st.needPolishItems h ++ helperCalls env rhi h)
      ∧ st1.renderContextProxy.isSome = true
      ∧ st1.needPolishItems = (st.needPolishItems && !h.eligible) := by
  obtain ⟨np, crt, proxy⟩ := st
  obtain ⟨⟨vid, vout, vis, vdpr, vsize, m1, m2⟩, r, dty, c⟩ := h
  obtain ⟨p, hp⟩ := Option.isSome_iff_exists.mp hp
  simp only at hp
  subst hp
  cases vout with
  | none => simp [OutputHelper.scaleWithin] at hs
  | some out =>
    simp only [OutputHelper.scaleWithin, decide_eq_true_eq] at hs
    unfold doRenderStep Backend.settle helperCalls polishCalls Backend.rendersFor Backend.grants
      OutputHelper.needsRender OutputHelper.eligible
    cases r <;> cases vis <;> cases dty <;> cases np <;>
      cases hA : (env.acquireRenderTarget vid).isNull <;> cases hM : env.makeCurrent vid <;>
      cases hC : env.commit vid <;>
      simp [hs, hA, hM, hC, OutputHelper.id, assign_eq_frameParameters,
        RenderContextProxy.renderNextFrame]


theorem helperCalls_of_not_eligible (env : Backend) (rhi : Option QRhi) (h : OutputHelper)
    (he : h.eligible = false) : helperCalls env rhi h = [] := by
  unfold OutputHelper.eligible at he
  simp [helperCalls, OutputHelper.needsRender, he]

theorem doRenderLoop_ok (env : Backend) (rhi : Option QRhi) (dpr : ℚ) :
    ∀ (hs : List OutputHelper) (st : RenderPass),
      st.renderContextProxy.isSome = true → (∀ h ∈ hs, h.scaleWithin dpr = true) →
      ∃ st1, doRenderLoop env rhi dpr hs st
          = .ok (st1, hs.map env.settle,
              (if st.needPolishItems && hs.any OutputHelper.eligible then [Call.polishItems] else [])
                ++ hs.flatMap (helperCalls env rhi))
        ∧ st1.renderContextProxy.isSome = true := by
  intro hs
  induction hs with
  | nil => intro st hp _; exact ⟨st, by simp [doRenderLoop], hp⟩
  | cons h rest ih =>
    intro st hp hall
    obtain ⟨st1, e1, hp1, hn1⟩ := doRenderStep_ok env rhi dpr st h hp (hall h (by simp))
    obtain ⟨st2, e2, hp2⟩ := ih st1 hp1 (fun x hx => hall x (by simp [hx]))
    refine ⟨st2, ?_, hp2⟩
    simp only [doRenderLoop, e1, e2, hn1]
    cases he : h.eligible
    · simp [polishCalls, he, helperCalls_of_not_eligible env rhi h he]
    · cases st.needPolishItems <;> simp [polishCalls, he]

theorem doRender_ok (d : WOutputRenderWindowPrivate) (env : Backend) (hv : d.RenderReady) :
    ∃ d1, d.doRender env = .ok (d1, cycleCalls env d.rhi d.outputs)
      ∧ d1.outputs = d.outputs.map env.settle
      ∧ d1.isInitialized = true
      ∧ d1.platformWindow = d.platformWindow
      ∧ d1.rhi = d.rhi
      ∧ d1.compositor = d.compositor
      ∧ d1.postedEvents = d.postedEvents := by
  obtain ⟨hi, hall⟩ := hv
  obtain ⟨st1, e1, hp1⟩ := doRenderLoop_ok env d.rhi d.devicePixelRatio d.outputs
    ⟨true, d.customRenderTarget, d.renderContextProxy⟩ hi hall
  refine ⟨{ d with outputs := d.outputs.map env.settle,
                    customRenderTarget := st1.customRenderTarget,
                    renderContextProxy := st1.renderContextProxy }, ?_, rfl, ?_, rfl, rfl, rfl, rfl⟩
  · simp [WOutputRenderWindowPrivate.doRender, e1, cycleCalls]
  · simpa [WOutputRenderWindowPrivate.isInitialized] using hp1

/-! ## Reading the calls of a cycle -/

theorem filterMap_flatMap_ids (f : Call → Option Nat) (g : OutputHelper → List Call)
    (p : OutputHelper → Bool) (hs : List OutputHelper)
    (hg : ∀ h ∈ hs, (g h).filterMap f = if p h then [h.id] else []) :
    (hs.flatMap g).filterMap f = (hs.filter p).map OutputHelper.id := by
  induction hs with
  | nil => rfl
  | cons h rest ih =>
    have h1 := hg h (by simp)
    have h2 := ih (fun x hx => hg x (by simp [hx]))
    rw [List.flatMap_cons, List.filterMap_append, h1, h2]
    cases hp : p h <;> simp [List.filter_cons, hp]

theorem cycleCalls_filterMap (env : Backend) (rhi : Option QRhi) (f : Call → Option Nat)
    (p : OutputHelper → Bool) (hs : List OutputHelper) (hf : f Call.polishItems = none)
    (hg : ∀ h ∈ hs, (helperCalls env rhi h).filterMap f = if p h then [h.id] else []) :
    (cycleCalls env rhi hs).filterMap f = (hs.filter p).map OutputHelper.id := by
  unfold cycleCalls
  rw [List.filterMap_append, filterMap_flatMap_ids f _ p hs hg]
  split <;> simp [hf]

theorem helperCalls_cases (env : Backend) (rhi : Option QRhi) (h : OutputHelper) (dpr : ℚ)
    (hs : h.scaleWithin dpr = true) :
    (h.needsRender = false ∧ helperCalls env rhi h = [])
    ∨ (h.needsRender = true ∧ env.grants h = false
        ∧ (helperCalls env rhi h = [.acquireRenderTarget h.id]
          ∨ helperCalls env rhi h = [.acquireRenderTarget h.id, .makeCurrent h.id]))
    ∨ (h.needsRender = true ∧ env.grants h = true ∧ ∃ frame,
        helperCalls env rhi h =
          [.acquireRenderTarget h.id, .makeCurrent h.id, .setRenderTarget h.id, .beginFrame,
            .sync, .render h.id frame, .endFrame, .commit h.id (env.commit h.id)]
          ++ (if env.commit h.id then [.resetState h.id] else [])
          ++ [.doneCurrent h.id, .frameDone h.id]) := by
  unfold OutputHelper.scaleWithin at hs
  cases hout : h.m_output.output with
  | none => simp [hout] at hs
  | some out =>
    unfold helperCalls Backend.grants
    cases h.needsRender <;> cases (env.acquireRenderTarget h.id).isNull <;>
      cases env.makeCurrent h.id <;> simp [hout]

theorem helperCalls_acquired (env : Backend) (rhi : Option QRhi) (h : OutputHelper) (dpr : ℚ)
    (hs : h.scaleWithin dpr = true) :
    (helperCalls env rhi h).filterMap Call.acquired = if h.needsRender then [h.id] else [] := by
  rcases helperCalls_cases env rhi h dpr hs with ⟨a, e⟩ | ⟨a, _, e | e⟩ | ⟨a, _, fr, e⟩ <;>
    rw [e, a] <;> cases env.commit h.id <;> simp [Call.acquired, List.filterMap_cons]

theorem helperCalls_rendered (env : Backend) (rhi : Option QRhi) (h : OutputHelper) (dpr : ℚ)
    (hs : h.scaleWithin dpr = true) :
    (helperCalls env rhi h).filterMap Call.rendered = if env.rendersFor h then [h.id] else [] := by
  unfold Backend.rendersFor
  rcases helperCalls_cases env rhi h dpr hs with ⟨a, e⟩ | ⟨a, b, e | e⟩ | ⟨a, b, fr, e⟩ <;>
    rw [e, a] <;> cases env.commit h.id <;> simp [Call.rendered, List.filterMap_cons, *]

theorem helperCalls_committed (env : Backend) (rhi : Option QRhi) (h : OutputHelper) (dpr : ℚ)
    (hs : h.scaleWithin dpr = true) :
    (helperCalls env rhi h).filterMap Call.committed = if env.rendersFor h then [h.id] else [] := by
  unfold Backend.rendersFor
  rcases helperCalls_cases env rhi h dpr hs with ⟨a, e⟩ | ⟨a, b, e | e⟩ | ⟨a, b, fr, e⟩ <;>
    rw [e, a] <;> cases env.commit h.id <;> simp [Call.committed, List.filterMap_cons, *]

theorem helperCalls_frameDoneOf (env : Backend) (rhi : Option QRhi) (h : OutputHelper) (dpr : ℚ)
    (hs : h.scaleWithin dpr = true) :
    (helperCalls env rhi h).filterMap Call.frameDoneOf
      = if env.rendersFor h then [h.id] else [] := by
  unfold Backend.rendersFor
  rcases helperCalls_cases env rhi h dpr hs with ⟨a, e⟩ | ⟨a, b, e | e⟩ | ⟨a, b, fr, e⟩ <;>
    rw [e, a] <;> cases env.commit h.id <;> simp [Call.frameDoneOf, List.filterMap_cons, *]

theorem helperCalls_reset (env : Backend) (rhi : Option QRhi) (h : OutputHelper) (dpr : ℚ)
    (hs : h.scaleWithin dpr = true) :
    (helperCalls env rhi h).filterMap Call.reset
      = if env.rendersFor h && env.commit h.id then [h.id] else [] := by
  unfold Backend.rendersFor
  rcases helperCalls_cases env rhi h dpr hs with ⟨a, e⟩ | ⟨a, b, e | e⟩ | ⟨a, b, fr, e⟩ <;>
    rw [e, a] <;> cases env.commit h.id <;> simp [Call.reset, List.filterMap_cons, *]

theorem helperCalls_commitSucceeded (env : Backend) (rhi : Option QRhi) (h : OutputHelper)
    (dpr : ℚ) (hs : h.scaleWithin dpr = true) :
    (helperCalls env rhi h).filterMap Call.commitSucceeded
      = if env.rendersFor h && env.commit h.id then [h.id] else [] := by
  unfold Backend.rendersFor
  rcases helperCalls_cases env rhi h dpr hs with ⟨a, e⟩ | ⟨a, b, e | e⟩ | ⟨a, b, fr, e⟩ <;>
    rw [e, a] <;> cases env.commit h.id <;>
    simp [Call.commitSucceeded, List.filterMap_cons, *]

theorem settle_of_not_rendersFor (env : Backend) (h : OutputHelper)
    (hn : env.rendersFor h = false) : env.settle h = h := by
  simp [Backend.settle, hn]

theorem settle_of_commit_failed (env : Backend) (h : OutputHelper)
    (hn : env.commit h.id = false) : env.settle h = h := by
  simp [Backend.settle, hn]

theorem settle_of_commit_ok (env : Backend) (h : OutputHelper)
    (hr : env.rendersFor h = true) (hc : env.commit h.id = true) :
    env.settle h = h.resetState := by
  simp [Backend.settle, hr, hc]

/-! ## The render cycle: which outputs are served -/

/-! ## The render cycle when the scene calls back -/

theorem settle_scaleWithin (env : Backend) (dpr : ℚ) (h : OutputHelper) :
    (env.settle h).scaleWithin dpr = h.scaleWithin dpr := by
  unfold Backend.settle
  split <;> rfl

theorem settle_id (env : Backend) (h : OutputHelper) : (env.settle h).id = h.id := by
  unfold Backend.settle
  split <;> rfl

theorem settle_eligible (env : Backend) (h : OutputHelper) :
    (env.settle h).eligible = h.eligible := by
  unfold Backend.settle
  split <;> rfl

theorem doRender_renderReady (env : Backend) (d d1 : WOutputRenderWindowPrivate)
    (hv : d.RenderReady)
    (ho : d1.outputs = d.outputs.map env.settle) (hi : d1.isInitialized = true)
    (hw : d1.platformWindow = d.platformWindow) : d1.RenderReady := by
  refine ⟨hi, ?_⟩
  intro h hh
  rw [ho, List.mem_map] at hh
  obtain ⟨h0, hm, rfl⟩ := hh
  rw [settle_scaleWithin, WOutputRenderWindowPrivate.devicePixelRatio, hw]
  exact hv.2 h0 hm

/-- C2: in a render cycle the state of an output is reset, and its dirty bit
thereby cleared, if and only if the commit of its buffer succeeded.  When the
commit fails the output is left as it was, still dirty, renderable and
visible, and the next cycle attempts render and commit on it again: it
requests its render target, and renders and commits once the backend hands
out the target and binds the context. -/
theorem doRender_resets_iff_commit_succeeded (d : WOutputRenderWindowPrivate) (env : Backend)
    (hv : d.RenderReady) :
    ∃ d1 calls, d.doRender env = .ok (d1, calls)
      ∧ calls.filterMap Call.reset = calls.filterMap Call.commitSucceeded
      ∧ List.Forall₂
          (fun h h1 =>
            ((h.contentIsDirty = true ∧ h1.contentIsDirty = false)
              ↔ (env.rendersFor h = true ∧ env.commit h.id = true))
            ∧ (env.rendersFor h = true → env.commit h.id = false →
                h1 = h ∧ h1.contentIsDirty = true))
          d.outputs d1.outputs
      ∧ ∀ env2 : Backend, ∃ d2 calls2, d1.doRender env2 = .ok (d2, calls2)
          ∧ ∀ h ∈ d.outputs, env.rendersFor h = true → env.commit h.id = false →
              h ∈ d1.outputs ∧ h.needsRender = true
              ∧ h.id ∈ calls2.filterMap Call.acquired
              ∧ (env2.grants h = true →
                  h.id ∈ calls2.filterMap Call.rendered
                  ∧ h.id ∈ calls2.filterMap Call.committed) := by
  obtain ⟨d1, e, ho, hi, hw, -⟩ := doRender_ok d env hv
  have hv1 : d1.RenderReady := doRender_renderReady env d d1 hv ho hi hw
  refine ⟨d1, _, e, ?_, ?_, ?_⟩
  · rw [cycleCalls_filterMap env d.rhi Call.reset _ _ rfl
        (fun h hh => helperCalls_reset env d.rhi h _ (hv.2 h hh)),
      cycleCalls_filterMap env d.rhi Call.commitSucceeded _ _ rfl
        (fun h hh => helperCalls_commitSucceeded env d.rhi h _ (hv.2 h hh))]
  · rw [ho, List.forall₂_map_right_iff, List.forall₂_same]
    intro h _
    constructor
    · unfold Backend.settle
      cases hr : env.rendersFor h <;> cases hc : env.commit h.id <;>
        simp [OutputHelper.resetState]
      simp only [Backend.rendersFor, OutputHelper.needsRender, Bool.and_eq_true] at hr
      exact hr.1.2
    · intro hr hc
      rw [settle_of_commit_failed env h hc]
      simp only [Backend.rendersFor, OutputHelper.needsRender, Bool.and_eq_true] at hr
      exact ⟨rfl, hr.1.2⟩
  · intro env2
    obtain ⟨d2, e2, -⟩ := doRender_ok d1 env2 hv1
    refine ⟨d2, _, e2, ?_⟩
    intro h hh hr hc
    have hmem : h ∈ d1.outputs := by
      rw [ho, List.mem_map]
      exact ⟨h, hh, settle_of_commit_failed env h hc⟩
    have hn : h.needsRender = true := by
      simp only [Backend.rendersFor, Bool.and_eq_true] at hr
      exact hr.1
    refine ⟨hmem, hn, ?_, ?_⟩
    · rw [cycleCalls_filterMap env2 d1.rhi Call.acquired _ _ rfl
        (fun x hx => helperCalls_acquired env2 d1.rhi x _ (hv1.2 x hx))]
      exact List.mem_map.mpr ⟨h, List.mem_filter.mpr ⟨hmem, hn⟩, rfl⟩
    · intro hg
      have hr2 : env2.rendersFor h = true := by simp [Backend.rendersFor, hn, hg]
      rw [cycleCalls_filterMap env2 d1.rhi Call.rendered _ _ rfl
          (fun x hx => helperCalls_rendered env2 d1.rhi x _ (hv1.2 x hx)),
        cycleCalls_filterMap env2 d1.rhi Call.committed _ _ rfl
          (fun x hx => helperCalls_committed env2 d1.rhi x _ (hv1.2 x hx))]
      exact ⟨List.mem_map.mpr ⟨h, List.mem_filter.mpr ⟨hmem, hr2⟩, rfl⟩,
        List.mem_map.mpr ⟨h, List.mem_filter.mpr ⟨hmem, hr2⟩, rfl⟩⟩

/-- C2, witnessed on the sample window with a backend whose commit fails for
the second output. -/
theorem doRender_resets_iff_commit_succeeded_witness :
    sampleWindow.RenderReady
      ∧ ∃ d1 calls, sampleWindow.doRender commitFailsBackend = .ok (d1, calls)
        ∧ calls.filterMap Call.reset = calls.filterMap Call.commitSucceeded :=
  ⟨by decide,
    (doRender_resets_iff_commit_succeeded sampleWindow commitFailsBackend (by decide)).imp
      (fun _ h => h.imp (fun _ h => ⟨h.1, h.2.1⟩))⟩

/-! ## Failures stay with their output -/

theorem helperCalls_helperOf (env : Backend) (rhi : Option QRhi) (h : OutputHelper) (dpr : ℚ)
    (hs : h.scaleWithin dpr = true) :
    ∀ c ∈ helperCalls env rhi h,
      c.isPolish = false ∧ (c.helperOf = none ∨ c.helperOf = some h.id) := by
  rcases helperCalls_cases env rhi h dpr hs with ⟨_, e⟩ | ⟨_, _, e | e⟩ | ⟨_, _, fr, e⟩ <;>
    rw [e] <;> cases env.commit h.id <;> simp [Call.isPolish, Call.helperOf]

theorem helperCalls_filter_other (env : Backend) (rhi : Option QRhi) (h : OutputHelper)
    (dpr : ℚ) (hs : h.scaleWithin dpr = true) (other : Nat) (hne : h.id ≠ other) :
    (helperCalls env rhi h).filter (fun c => !c.isPolish && !(c.helperOf == some other))
      = helperCalls env rhi h := by
  rw [List.filter_eq_self]
  intro c hc
  obtain ⟨hp, ho | ho⟩ := helperCalls_helperOf env rhi h dpr hs c hc
  · simp [hp, ho]
  · simp [hp, ho, hne]

theorem helperCalls_filter_polish (env : Backend) (rhi : Option QRhi) (h : OutputHelper)
    (dpr : ℚ) (hs : h.scaleWithin dpr = true) :
    (helperCalls env rhi h).filter (fun c => !c.isPolish) = helperCalls env rhi h := by
  rw [List.filter_eq_self]
  intro c hc
  simp [(helperCalls_helperOf env rhi h dpr hs c hc).1]

theorem helperCalls_filter_own (env : Backend) (rhi : Option QRhi) (h : OutputHelper)
    (dpr : ℚ) (hs : h.scaleWithin dpr = true) (hg : env.grants h = false) :
    (helperCalls env rhi h).filter (fun c => !c.isPolish && !(c.helperOf == some h.id))
      = [] := by
  rcases helperCalls_cases env rhi h dpr hs with ⟨_, e⟩ | ⟨_, _, e | e⟩ | ⟨_, g, _⟩
  · rw [e]; rfl
  · rw [e]; simp [Call.helperOf]
  · rw [e]; simp [Call.helperOf]
  · rw [hg] at g; cases g

theorem flatMap_helperCalls_filter_other (env : Backend) (rhi : Option QRhi) (dpr : ℚ)
    (other : Nat) (hs : List OutputHelper) (hw : ∀ h ∈ hs, h.scaleWithin dpr = true)
    (hne : ∀ h ∈ hs, h.id ≠ other) :
    (hs.flatMap (helperCalls env rhi)).filter
        (fun c => !c.isPolish && !(c.helperOf == some other))
      = hs.flatMap (helperCalls env rhi) := by
  induction hs with
  | nil => rfl
  | cons h rest ih =>
    rw [List.flatMap_cons, List.filter_append,
      helperCalls_filter_other env rhi h dpr (hw h (by simp)) other (hne h (by simp)),
      ih (fun x hx => hw x (by simp [hx])) (fun x hx => hne x (by simp [hx]))]

theorem flatMap_helperCalls_filter_polish (env : Backend) (rhi : Option QRhi) (dpr : ℚ)
    (hs : List OutputHelper) (hw : ∀ h ∈ hs, h.scaleWithin dpr = true) :
    (hs.flatMap (helperCalls env rhi)).filter (fun c => !c.isPolish)
      = hs.flatMap (helperCalls env rhi) := by
  induction hs with
  | nil => rfl
  | cons h rest ih =>
    rw [List.flatMap_cons, List.filter_append,
      helperCalls_filter_polish env rhi h dpr (hw h (by simp)),
      ih (fun x hx => hw x (by simp [hx]))]

theorem cycleCalls_filter_polish (env : Backend) (rhi : Option QRhi) (dpr : ℚ)
    (hs : List OutputHelper) (hw : ∀ h ∈ hs, h.scaleWithin dpr = true) :
    (cycleCalls env rhi hs).filter (fun c => !c.isPolish)
      = hs.flatMap (helperCalls env rhi) := by
  unfold cycleCalls
  rw [List.filter_append, flatMap_helperCalls_filter_polish env rhi dpr hs hw]
  split <;> simp [Call.isPolish]

theorem cycleCalls_filter_without (env : Backend) (rhi : Option QRhi) (dpr : ℚ)
    (pre post : List OutputHelper) (f : OutputHelper)
    (hw : ∀ h ∈ pre ++ f :: post, h.scaleWithin dpr = true)
    (hne : ∀ h ∈ pre ++ post, h.id ≠ f.id) (hg : env.grants f = false) :
    (cycleCalls env rhi (pre ++ f :: post)).filter
        (fun c => !c.isPolish && !(c.helperOf == some f.id))
      = (pre ++ post).flatMap (helperCalls env rhi) := by
  unfold cycleCalls
  rw [List.filter_append, List.flatMap_append, List.flatMap_cons, List.filter_append,
    List.filter_append,
    flatMap_helperCalls_filter_other env rhi dpr f.id pre
      (fun x hx => hw x (by simp [hx])) (fun x hx => hne x (by simp [hx])),
    flatMap_helperCalls_filter_other env rhi dpr f.id post
      (fun x hx => hw x (by simp [hx])) (fun x hx => hne x (by simp [hx])),
    helperCalls_filter_own env rhi f dpr (hw f (by simp)) hg, List.flatMap_append]
  split <;> simp [Call.isPolish]

theorem not_mem_map_id_filter (p : OutputHelper → Bool) (pre post : List OutputHelper)
    (f : OutputHelper) (hne : ∀ h ∈ pre ++ post, h.id ≠ f.id) (hp : p f = false) :
    f.id ∉ ((pre ++ f :: post).filter p).map OutputHelper.id := by
  intro hmem
  obtain ⟨x, hx, hxid⟩ := List.mem_map.mp hmem
  obtain ⟨hx1, hx2⟩ := List.mem_filter.mp hx
  rcases List.mem_append.mp hx1 with hpre | hrest
  · exact hne x (by simp [hpre]) hxid
  · rcases List.mem_cons.mp hrest with rfl | hpost
    · rw [hp] at hx2; cases hx2
    · exact hne x (by simp [hpost]) hxid

/-- C5: when the backend has no render target for an output `f`, or cannot
bind its context, the cycle renders no scene for `f`, requests no commit,
resets no state and emits no `frameDone` for it, and leaves `f` as it was,
dirty bit included.  Every other output ends in the state it would have ended
in had `f` not been attached, and the calls made for the other outputs are,
in order, those of the cycle without `f` (the polish pass, which belongs to
the cycle and not to an output, is left out of the comparison). -/
theorem doRender_contains_failure (d : WOutputRenderWindowPrivate) (env : Backend)
    (pre post : List OutputHelper) (f : OutputHelper) (hv : d.RenderReady)
    (hd : d.outputs = pre ++ f :: post) (hfail : env.grants f = false)
    (hid : ∀ h ∈ pre ++ post, h.id ≠ f.id) :
    ∃ d1 calls1 d2 calls2 pre1 post1,
      d.doRender env = .ok (d1, calls1)
      ∧ ({ d with outputs := pre ++ post }).doRender env = .ok (d2, calls2)
      ∧ d1.outputs = pre1 ++ f :: post1
      ∧ d2.outputs = pre1 ++ post1
      ∧ pre1.length = pre.length
      ∧ f.id ∉ calls1.filterMap Call.rendered
      ∧ f.id ∉ calls1.filterMap Call.committed
      ∧ f.id ∉ calls1.filterMap Call.reset
      ∧ f.id ∉ calls1.filterMap Call.frameDoneOf
      ∧ calls1.filter (fun c => !c.isPolish && !(c.helperOf == some f.id))
          = calls2.filter (fun c => !c.isPolish) := by
  have hall : ∀ h ∈ pre ++ f :: post, h.scaleWithin d.devicePixelRatio = true := by
    intro h hh; exact hv.2 h (by rw [hd]; exact hh)
  have hv2 : ({ d with outputs := pre ++ post } : WOutputRenderWindowPrivate).RenderReady := by
    refine ⟨hv.1, ?_⟩
    intro h hh
    refine hall h ?_
    rcases List.mem_append.mp hh with hp | hp
    · simp [hp]
    · simp [hp]
  have hnr : env.rendersFor f = false := by simp [Backend.rendersFor, hfail]
  have hnc : (env.rendersFor f && env.commit f.id) = false := by simp [hnr]
  obtain ⟨d1, e1, ho1, -⟩ := doRender_ok d env hv
  obtain ⟨d2, e2, ho2, -⟩ := doRender_ok _ env hv2
  rw [hd] at e1 ho1
  refine ⟨d1, _, d2, _, pre.map env.settle, post.map env.settle, e1, e2, ?_, ?_, ?_,
    ?_, ?_, ?_, ?_, ?_⟩
  · rw [ho1, List.map_append, List.map_cons, settle_of_not_rendersFor env f hnr]
  · rw [ho2, List.map_append]
  · simp
  · rw [cycleCalls_filterMap env d.rhi Call.rendered _ _ rfl
      (fun h hh => helperCalls_rendered env d.rhi h _ (hall h hh))]
    exact not_mem_map_id_filter _ pre post f hid hnr
  · rw [cycleCalls_filterMap env d.rhi Call.committed _ _ rfl
      (fun h hh => helperCalls_committed env d.rhi h _ (hall h hh))]
    exact not_mem_map_id_filter _ pre post f hid hnr
  · rw [cycleCalls_filterMap env d.rhi Call.reset
      (fun h => env.rendersFor h && env.commit h.id) _ rfl
      (fun h hh => helperCalls_reset env d.rhi h _ (hall h hh))]
    exact not_mem_map_id_filter _ pre post f hid hnc
  · rw [cycleCalls_filterMap env d.rhi Call.frameDoneOf _ _ rfl
      (fun h hh => helperCalls_frameDoneOf env d.rhi h _ (hall h hh))]
    exact not_mem_map_id_filter _ pre post f hid hnr
  · rw [cycleCalls_filter_without env d.rhi _ pre post f hall hid hfail]
    exact (cycleCalls_filter_polish env d.rhi _ (pre ++ post) hv2.2).symm

/-- C5, witnessed on the sample window: the backend has no render target for
the first output, the second is rendered and committed. -/
theorem doRender_contains_failure_witness :
    sampleWindow.RenderReady
      ∧ acquireFailsBackend.grants (sampleHelper 1 1 ⟨1920, 1080⟩) = false
      ∧ ∃ d1 calls1, sampleWindow.doRender acquireFailsBackend = .ok (d1, calls1)
        ∧ (sampleHelper 1 1 ⟨1920, 1080⟩).id ∉ calls1.filterMap Call.committed :=
  ⟨by decide, by decide,
    (doRender_contains_failure sampleWindow acquireFailsBackend []
      [sampleHelper 2 2 ⟨3840, 2160⟩] (sampleHelper 1 1 ⟨1920, 1080⟩) (by decide) rfl
      (by decide) (by decide)).imp
      (fun _ h => h.imp (fun _ h => by
        obtain ⟨_, _, _, _, h1, _, _, _, _, _, h7, _⟩ := h
        exact ⟨h1, h7⟩))⟩

/-! ## The shared scale -/

theorem maxDPRLoop_ok : ∀ (hs : List OutputHelper) (m : ℚ),
    (∀ h ∈ hs, h.m_output.output.isSome = true) →
    maxDPRLoop hs m = .ok ((attachedScales hs).foldl max m) := by
  intro hs
  induction hs with
  | nil => intro m _; rfl
  | cons h rest ih =>
    intro m hall
    obtain ⟨out, hout⟩ := Option.isSome_iff_exists.mp (hall h (by simp))
    have hmax : (if out.scale > m then out.scale else m) = max m out.scale := by
      rcases le_or_lt out.scale m with hle | hlt
      · rw [if_neg (not_lt.mpr hle), max_eq_left hle]
      · rw [if_pos hlt, max_eq_right hlt.le]
    simp only [maxDPRLoop, hout, hmax, attachedScales, List.filterMap_cons, Option.map_some',
      List.foldl_cons]
    exact ih _ (fun x hx => hall x (by simp [hx]))

theorem updateSceneDPR_nil (d : WOutputRenderWindowPrivate) (he : d.outputs = []) :
    d.updateSceneDPR = .ok d := by
  simp [WOutputRenderWindowPrivate.updateSceneDPR, he]

theorem updateSceneDPR_ok (d : WOutputRenderWindowPrivate) (hne : d.outputs ≠ [])
    (hp : d.platformWindow.isSome = true)
    (ho : ∀ h ∈ d.outputs, h.m_output.output.isSome = true) :
    d.updateSceneDPR = .ok { d with platformWindow := some (sceneScale d.outputs) } := by
  obtain ⟨r, hr⟩ := Option.isSome_iff_exists.mp hp
  have hemp : d.outputs.isEmpty = false := by
    cases hd : d.outputs with
    | nil => exact absurd hd hne
    | cons _ _ => rfl
  simp [WOutputRenderWindowPrivate.updateSceneDPR, hemp, maxDPRLoop_ok d.outputs 0 ho,
    WOutputRenderWindowPrivate.setSceneDevicePixelRatio, hr, sceneScale]

theorem updateSceneDPR_inv (d d1 : WOutputRenderWindowPrivate)
    (h : d.updateSceneDPR = .ok d1) :
    d1.outputs = d.outputs ∧ d1.renderContextProxy = d.renderContextProxy
      ∧ d1.compositor = d.compositor ∧ d1.postedEvents = d.postedEvents
      ∧ d1.rhi = d.rhi ∧ d1.customRenderTarget = d.customRenderTarget
      ∧ (d1.platformWindow.isSome = d.platformWindow.isSome)
      ∧ (d.outputs ≠ [] → (∀ h ∈ d.outputs, h.m_output.output.isSome = true) →
          d1.platformWindow = some (sceneScale d.outputs)) := by
  unfold WOutputRenderWindowPrivate.updateSceneDPR at h
  split at h
  · rename_i he
    cases h
    refine ⟨rfl, rfl, rfl, rfl, rfl, rfl, rfl, ?_⟩
    intro hne
    cases hd : d.outputs with
    | nil => exact absurd hd hne
    | cons _ _ => rw [hd] at he; cases he
  · split at h
    · cases h
    · rename_i m hm
      unfold WOutputRenderWindowPrivate.setSceneDevicePixelRatio at h
      split at h
      · cases h
      · rename_i r hr
        cases h
        refine ⟨rfl, rfl, rfl, rfl, rfl, rfl, by simp [hr], ?_⟩
        intro _ ho
        rw [maxDPRLoop_ok d.outputs 0 ho] at hm
        cases hm
        rfl

theorem sceneScale_ge (hs : List OutputHelper) (h : OutputHelper) (out : WOutput)
    (hh : h ∈ hs) (ho : h.m_output.output = some out) : out.scale ≤ sceneScale hs := by
  have key : ∀ (l : List ℚ) (m : ℚ), m ≤ l.foldl max m ∧ ∀ x ∈ l, x ≤ l.foldl max m := by
    intro l
    induction l with
    | nil => intro m; exact ⟨le_refl _, fun x hx => by cases hx⟩
    | cons a rest ih =>
      intro m
      obtain ⟨h1, h2⟩ := ih (max m a)
      refine ⟨le_trans (le_max_left m a) h1, ?_⟩
      intro x hx
      rcases List.mem_cons.mp hx with rfl | hx
      · exact le_trans (le_max_right m x) h1
      · exact h2 x hx
  refine (key (attachedScales hs) 0).2 _ ?_
  unfold attachedScales
  rw [List.mem_filterMap]
  exact ⟨h, hh, by simp [ho]⟩

theorem foldl_max_mem (l : List ℚ) (m : ℚ) : l.foldl max m = m ∨ l.foldl max m ∈ l := by
  induction l generalizing m with
  | nil => exact Or.inl rfl
  | cons a rest ih =>
    rw [List.foldl_cons]
    rcases ih (max m a) with h | h
    · rcases max_choice m a with hm | hm
      · left; rw [h, hm]
      · right; rw [h, hm]; simp
    · right; simp [h]

theorem sceneScale_mem (hs : List OutputHelper) :
    sceneScale hs = 0 ∨ sceneScale hs ∈ attachedScales hs :=
  foldl_max_mem (attachedScales hs) 0

/-! ## Coherence of the reachable windows -/

theorem SameOutput.scale_eq {h h1 : OutputHelper} (hs : SameOutput h h1) :
    h1.m_output.output.map WOutput.scale = h.m_output.output.map WOutput.scale := by
  have := congrArg (Option.map Prod.snd) hs.2
  simpa [Option.map_map, Function.comp_def] using this

theorem SameOutput.isSome_eq {h h1 : OutputHelper} (hs : SameOutput h h1) :
    h1.m_output.output.isSome = h.m_output.output.isSome := by
  have := congrArg Option.isSome hs.2
  simpa using this

theorem forall₂_sameOutput_ids {hs hs1 : List OutputHelper}
    (hrel : List.Forall₂ SameOutput hs hs1) :
    hs1.map OutputHelper.id = hs.map OutputHelper.id := by
  induction hrel with
  | nil => rfl
  | cons hab _ ih => simp only [List.map_cons, ih, OutputHelper.id, hab.1]

theorem forall₂_sameOutput_scales {hs hs1 : List OutputHelper}
    (hrel : List.Forall₂ SameOutput hs hs1) : attachedScales hs1 = attachedScales hs := by
  induction hrel with
  | nil => rfl
  | cons hab _ ih =>
    unfold attachedScales at ih ⊢
    simp only [List.filterMap_cons, hab.scale_eq, ih]

theorem forall₂_sameOutput_hasOutput {hs hs1 : List OutputHelper}
    (hrel : List.Forall₂ SameOutput hs hs1)
    (ho : ∀ h ∈ hs, h.m_output.output.isSome = true) :
    ∀ h ∈ hs1, h.m_output.output.isSome = true := by
  induction hrel with
  | nil => intro h hh; cases hh
  | cons hab _ ih =>
    intro h hh
    rcases List.mem_cons.mp hh with rfl | hh
    · rw [hab.isSome_eq]; exact ho _ (by simp)
    · exact ih (fun x hx => ho x (by simp [hx])) h hh

theorem forall₂_connected {hs hs1 : List OutputHelper}
    (hrel : List.Forall₂ (fun h h1 : OutputHelper => h1.connected = h.connected) hs hs1)
    (hc : ∀ h ∈ hs, h.connected = true) : ∀ h ∈ hs1, h.connected = true := by
  induction hrel with
  | nil => intro h hh; cases hh
  | cons hab _ ih =>
    intro h hh
    rcases List.mem_cons.mp hh with rfl | hh
    · rw [hab]; exact hc _ (by simp)
    · exact ih (fun x hx => hc x (by simp [hx])) h hh

theorem forall₂_ne_nil {α β : Type} {R : α → β → Prop} {l : List α} {l1 : List β}
    (hrel : List.Forall₂ R l l1) (h : l1 ≠ []) : l ≠ [] := by
  cases hrel with
  | nil => exact absurd rfl h
  | cons _ _ => simp

/-- Coherence carries over to a window whose helpers serve the same viewports
and outputs and are connected as before. -/
theorem WOutputRenderWindowPrivate.Coherent.of_sameOutputs {d d1 : WOutputRenderWindowPrivate} (hc : d.Coherent)
    (hrel : List.Forall₂ (fun h h1 => SameOutput h h1 ∧ h1.connected = h.connected)
      d.outputs d1.outputs)
    (hi : d1.isInitialized = d.isInitialized)
    (hp : d1.platformWindow = d.platformWindow) : d1.Coherent := by
  have hrel1 : List.Forall₂ SameOutput d.outputs d1.outputs := hrel.imp (fun _ _ h => h.1)
  have hrel2 : List.Forall₂ (fun h h1 : OutputHelper => h1.connected = h.connected)
      d.outputs d1.outputs := hrel.imp (fun _ _ h => h.2)
  refine ⟨forall₂_sameOutput_hasOutput hrel1 hc.hasOutput, ?_, ?_, ?_, ?_⟩
  · rw [forall₂_sameOutput_ids hrel1]; exact hc.distinct
  · intro h; rw [hp]; exact hc.platform (hi ▸ h)
  · intro h; exact forall₂_connected hrel2 (hc.connected (hi ▸ h))
  · intro h hne
    rw [hp, hc.ratio (hi ▸ h) (forall₂_ne_nil hrel1 hne)]
    simp only [sceneScale, forall₂_sameOutput_scales hrel1]

theorem forall₂_map_of_forall {R : OutputHelper → OutputHelper → Prop}
    (f : OutputHelper → OutputHelper) (hs : List OutputHelper) (h : ∀ x, R x (f x)) :
    List.Forall₂ R hs (hs.map f) := by
  rw [List.forall₂_map_right_iff, List.forall₂_same]
  intro x _; exact h x

theorem WOutputRenderWindowPrivate.Coherent.construct : WOutputRenderWindowPrivate.construct.Coherent :=
  ⟨fun _ h => (by cases h), List.nodup_nil, fun h => (by cases h), fun h => (by cases h),
    fun h => (by cases h)⟩

theorem WOutputRenderWindowPrivate.Coherent.create {d : WOutputRenderWindowPrivate} (hc : d.Coherent) (ratio : ℚ) :
    (d.create ratio).Coherent := by
  refine ⟨hc.hasOutput, hc.distinct, fun _ => rfl, hc.connected, ?_⟩
  intro hi hne
  have := hc.ratio hi hne
  simp only [WOutputRenderWindowPrivate.create] at this ⊢
  rw [this]; rfl

theorem WOutputRenderWindowPrivate.Coherent.scheduleDoRender {d : WOutputRenderWindowPrivate} (hc : d.Coherent) :
    d.scheduleDoRender.Coherent := by
  unfold WOutputRenderWindowPrivate.scheduleDoRender
  split
  · exact hc
  · exact ⟨hc.hasOutput, hc.distinct, hc.platform, hc.connected, hc.ratio⟩

theorem WOutputRenderWindowPrivate.Coherent.update {d : WOutputRenderWindowPrivate} (hc : d.Coherent) :
    d.update.Coherent := by
  refine WOutputRenderWindowPrivate.Coherent.scheduleDoRender ?_
  refine WOutputRenderWindowPrivate.Coherent.of_sameOutputs hc ?_ rfl rfl
  exact forall₂_map_of_forall _ _ (fun x => ⟨⟨rfl, rfl⟩, rfl⟩)

theorem WOutputRenderWindowPrivate.Coherent.environment {d : WOutputRenderWindowPrivate} (hc : d.Coherent)
    (outputs : List OutputHelper) (hrel : List.Forall₂ OutputHelper.EnvStep d.outputs outputs) :
    ({ d with outputs := outputs } : WOutputRenderWindowPrivate).Coherent :=
  WOutputRenderWindowPrivate.Coherent.of_sameOutputs hc (hrel.imp (fun _ _ h => ⟨⟨h.1, h.2.2⟩, h.2.1⟩)) rfl rfl

theorem doRenderStep_inv (env : Backend) (rhi : Option QRhi) (dpr : ℚ) (st st1 : RenderPass)
    (h h1 : OutputHelper) (calls : List Call)
    (e : doRenderStep env rhi dpr st h = .ok (st1, h1, calls)) :
    (h1 = h ∨ h1 = h.resetState)
      ∧ st1.renderContextProxy.isSome = st.renderContextProxy.isSome := by
  obtain ⟨np, crt, proxy⟩ := st
  obtain ⟨⟨vid, vout, vis, vdpr, vsize, m1, m2⟩, r, dty, c⟩ := h
  unfold doRenderStep at e
  rcases vout with _ | out
  · cases r <;> cases vis <;> cases dty <;>
      cases hA : (env.acquireRenderTarget vid).isNull <;>
      cases hM : env.makeCurrent vid <;>
      simp [hA, hM, OutputHelper.id] at e <;>
      (obtain ⟨rfl, rfl, rfl⟩ := e; exact ⟨Or.inl rfl, rfl⟩)
  · by_cases hs : out.scale ≤ dpr <;> rcases proxy with _ | p <;>
      cases r <;> cases vis <;> cases dty <;>
      cases hA : (env.acquireRenderTarget vid).isNull <;>
      cases hM : env.makeCurrent vid <;> cases hC : env.commit vid <;>
      simp [hA, hM, hC, hs, OutputHelper.id] at e <;>
      first
      | (obtain ⟨rfl, rfl, rfl⟩ := e; exact ⟨Or.inl rfl, rfl⟩)
      | (obtain ⟨rfl, rfl, rfl⟩ := e; exact ⟨Or.inr rfl, rfl⟩)

theorem doRenderLoop_inv (env : Backend) (rhi : Option QRhi) (dpr : ℚ) :
    ∀ (hs hs1 : List OutputHelper) (st st1 : RenderPass) (calls : List Call),
      doRenderLoop env rhi dpr hs st = .ok (st1, hs1, calls) →
      List.Forall₂ (fun h h1 => h1 = h ∨ h1 = h.resetState) hs hs1
        ∧ st1.renderContextProxy.isSome = st.renderContextProxy.isSome := by
  intro hs
  induction hs with
  | nil =>
    intro hs1 st st1 calls e
    simp only [doRenderLoop] at e
    cases e
    exact ⟨List.Forall₂.nil, rfl⟩
  | cons h rest ih =>
    intro hs1 st st1 calls e
    cases e1 : doRenderStep env rhi dpr st h with
    | error x => simp [doRenderLoop, e1] at e
    | ok r1 =>
      obtain ⟨sta, ha, ca⟩ := r1
      cases e2 : doRenderLoop env rhi dpr rest sta with
      | error x => simp [doRenderLoop, e1, e2] at e
      | ok r2 =>
        obtain ⟨stb, rb, cb⟩ := r2
        simp only [doRenderLoop, e1, e2, Except.ok.injEq, Prod.mk.injEq] at e
        obtain ⟨rfl, rfl, rfl⟩ := e
        obtain ⟨q1, p1⟩ := doRenderStep_inv env rhi dpr st sta h ha ca e1
        obtain ⟨q2, p2⟩ := ih rb sta stb cb e2
        exact ⟨List.Forall₂.cons q1 q2, p2.trans p1⟩

theorem WOutputRenderWindowPrivate.Coherent.doRender {d d1 : WOutputRenderWindowPrivate} (hc : d.Coherent)
    (env : Backend) (calls : List Call) (e : d.doRender env = .ok (d1, calls)) :
    d1.Coherent ∧ d1.postedEvents = d.postedEvents
      ∧ d1.isInitialized = d.isInitialized := by
  unfold WOutputRenderWindowPrivate.doRender at e
  cases e1 : doRenderLoop env d.rhi d.devicePixelRatio d.outputs
      ⟨true, d.customRenderTarget, d.renderContextProxy⟩ with
  | error x => simp [e1] at e
  | ok r1 =>
    obtain ⟨st, outs, cs⟩ := r1
    simp only [e1, Except.ok.injEq, Prod.mk.injEq] at e
    obtain ⟨rfl, rfl⟩ := e
    obtain ⟨r, p⟩ := doRenderLoop_inv env _ _ _ _ _ _ _ e1
    refine ⟨WOutputRenderWindowPrivate.Coherent.of_sameOutputs hc (r.imp ?_) p rfl, rfl, p⟩
    intro a b hab
    rcases hab with rfl | rfl
    · exact ⟨⟨rfl, rfl⟩, rfl⟩
    · exact ⟨⟨rfl, rfl⟩, rfl⟩

theorem WOutputRenderWindowPrivate.Coherent.event {d d1 : WOutputRenderWindowPrivate} (hc : d.Coherent)
    (env : Backend) (ev : PostedEvent) (pass : Option (List Call))
    (e : d.event env ev = .ok (d1, pass)) :
    d1.Coherent ∧ d1.isInitialized = d.isInitialized := by
  cases ev with
  | doRender =>
    cases e1 : d.doRender env with
    | error x => simp [WOutputRenderWindowPrivate.event, e1] at e
    | ok r1 =>
      obtain ⟨d2, calls⟩ := r1
      simp only [WOutputRenderWindowPrivate.event, e1, Except.ok.injEq, Prod.mk.injEq] at e
      obtain ⟨rfl, -⟩ := e
      exact ⟨(hc.doRender env calls e1).1, (hc.doRender env calls e1).2.2⟩
  | scheduleRender =>
    simp only [WOutputRenderWindowPrivate.event, Except.ok.injEq, Prod.mk.injEq] at e
    obtain ⟨rfl, -⟩ := e
    refine ⟨hc.scheduleDoRender, ?_⟩
    unfold WOutputRenderWindowPrivate.scheduleRender WOutputRenderWindowPrivate.scheduleDoRender
    split <;> rfl

theorem WOutputRenderWindowPrivate.Coherent.deliverEvents (env : Backend) :
    ∀ (events : List PostedEvent) (d d1 : WOutputRenderWindowPrivate)
      (passes : List (List Call)), d.Coherent →
      deliverEvents env events d = .ok (d1, passes) →
      d1.Coherent ∧ d1.isInitialized = d.isInitialized := by
  intro events
  induction events with
  | nil =>
    intro d d1 passes hc e
    simp only [Waylib.deliverEvents] at e
    cases e
    exact ⟨hc, rfl⟩
  | cons ev rest ih =>
    intro d d1 passes hc e
    cases e1 : d.event env ev with
    | error x => simp [Waylib.deliverEvents, e1] at e
    | ok r1 =>
      obtain ⟨d2, pass⟩ := r1
      cases e2 : Waylib.deliverEvents env rest d2 with
      | error x => simp [Waylib.deliverEvents, e1, e2] at e
      | ok r2 =>
        obtain ⟨d3, ps⟩ := r2
        simp only [Waylib.deliverEvents, e1, e2, Except.ok.injEq, Prod.mk.injEq] at e
        obtain ⟨rfl, -⟩ := e
        obtain ⟨c2, i2⟩ := hc.event env ev pass e1
        obtain ⟨c3, i3⟩ := ih d2 _ ps c2 e2
        exact ⟨c3, i3.trans i2⟩

theorem WOutputRenderWindowPrivate.Coherent.sendPostedEvents {d d1 : WOutputRenderWindowPrivate} (hc : d.Coherent)
    (env : Backend) (passes : List (List Call))
    (e : d.sendPostedEvents env = .ok (d1, passes)) : d1.Coherent := by
  unfold WOutputRenderWindowPrivate.sendPostedEvents at e
  have h0 : ({ d with postedEvents := [] } : WOutputRenderWindowPrivate).Coherent :=
    ⟨hc.hasOutput, hc.distinct, hc.platform, hc.connected, hc.ratio⟩
  exact (WOutputRenderWindowPrivate.Coherent.deliverEvents env _ _ _ _ h0 e).1

theorem sameOutput_initIf (output : Nat) (x : OutputHelper) :
    SameOutput x (if x.id = output then x.init else x) := by
  split <;> exact ⟨rfl, rfl⟩

theorem sceneScale_map_of_sameOutput (f : OutputHelper → OutputHelper)
    (hf : ∀ x, SameOutput x (f x)) (hs : List OutputHelper) :
    sceneScale (hs.map f) = sceneScale hs := by
  unfold sceneScale
  rw [forall₂_sameOutput_scales (forall₂_map_of_forall f hs hf)]

theorem scheduleDoRender_fields (d : WOutputRenderWindowPrivate) :
    d.scheduleDoRender.outputs = d.outputs
      ∧ d.scheduleDoRender.platformWindow = d.platformWindow
      ∧ d.scheduleDoRender.isInitialized = d.isInitialized
      ∧ d.scheduleDoRender.compositor = d.compositor := by
  unfold WOutputRenderWindowPrivate.scheduleDoRender
  split <;> exact ⟨rfl, rfl, rfl, rfl⟩

theorem attach_cases (d d1 : WOutputRenderWindowPrivate) (output : WOutputViewport)
    (e : d.attach output = .ok d1) :
    d.outputs.any (fun h => h.m_output.id = output.id) = false
      ∧ output.output.isSome = true
      ∧ ((d.isInitialized = false
            ∧ d1 = { d with outputs := d.outputs ++ [OutputHelper.create output] })
        ∨ (d.isInitialized = true ∧ ∃ d2,
            ({ d with outputs := d.outputs ++ [OutputHelper.create output] }
              : WOutputRenderWindowPrivate).updateSceneDPR = .ok d2
            ∧ d1 = (d2.initHelper output.id).scheduleDoRender)) := by
  unfold WOutputRenderWindowPrivate.attach at e
  cases hany : d.outputs.any (fun h => decide (h.m_output.id = output.id)) with
  | true => simp [hany] at e
  | false =>
    cases hout : output.output with
    | none => simp [hany, hout] at e
    | some out =>
      refine ⟨rfl, rfl, ?_⟩
      cases hi : d.isInitialized with
      | false =>
        left
        have hi1 : ({ d with outputs := d.outputs ++ [OutputHelper.create output] }
            : WOutputRenderWindowPrivate).isInitialized = false := hi
        simp only [hany, hout, hi1] at e
        simp at e
        exact ⟨rfl, e.symm⟩
      | true =>
        right
        have hi1 : ({ d with outputs := d.outputs ++ [OutputHelper.create output] }
            : WOutputRenderWindowPrivate).isInitialized = true := hi
        simp only [hany, hout, hi1] at e
        simp at e
        cases e2 : ({ d with outputs := d.outputs ++ [OutputHelper.create output] }
            : WOutputRenderWindowPrivate).updateSceneDPR with
        | error x => simp [e2] at e
        | ok d2 =>
          simp only [e2, Except.ok.injEq] at e
          exact ⟨rfl, d2, rfl, e.symm⟩

theorem not_mem_ids_of_any_false (hs : List OutputHelper) (output : Nat)
    (h : hs.any (fun h => h.m_output.id = output) = false) :
    output ∉ hs.map OutputHelper.id := by
  intro hmem
  obtain ⟨x, hx, hxid⟩ := List.mem_map.mp hmem
  have := List.any_eq_false.mp h x hx
  simp [OutputHelper.id] at hxid
  simp [hxid] at this

theorem WOutputRenderWindowPrivate.Coherent.attach {d d1 : WOutputRenderWindowPrivate}
    (hc : d.Coherent) (output : WOutputViewport) (e : d.attach output = .ok d1) :
    d1.Coherent ∧ d1.isInitialized = d.isInitialized
      ∧ d1.outputs.map OutputHelper.id = d.outputs.map OutputHelper.id ++ [output.id]
      ∧ (d.isInitialized = true → d1.platformWindow = some (sceneScale d1.outputs)) := by
  obtain ⟨hany, hout, hcase⟩ := attach_cases d d1 output e
  have hfresh := not_mem_ids_of_any_false d.outputs output.id hany
  have hho : ∀ h ∈ d.outputs ++ [OutputHelper.create output],
      h.m_output.output.isSome = true := by
    intro h hh
    rcases List.mem_append.mp hh with hh | hh
    · exact hc.hasOutput h hh
    · rw [List.mem_singleton] at hh; rw [hh]; exact hout
  have hnd : ((d.outputs ++ [OutputHelper.create output]).map OutputHelper.id).Nodup := by
    rw [List.map_append, List.nodup_append]
    refine ⟨hc.distinct, by simp, ?_⟩
    intro a ha hb
    simp only [List.map_cons, List.map_nil, List.mem_singleton] at hb
    rw [hb] at ha
    exact hfresh ha
  rcases hcase with ⟨hi, rfl⟩ | ⟨hi, d2, e2, rfl⟩
  · refine ⟨⟨hho, hnd, ?_, ?_, ?_⟩, rfl, by simp [OutputHelper.id, OutputHelper.create], ?_⟩
    · intro h; exact absurd (show d.isInitialized = true from h) (by simp [hi])
    · intro h; exact absurd (show d.isInitialized = true from h) (by simp [hi])
    · intro h; exact absurd (show d.isInitialized = true from h) (by simp [hi])
    · intro h; rw [hi] at h; cases h
  · obtain ⟨ho, hp, -, -, -, -, hps, hr⟩ := updateSceneDPR_inv _ d2 e2
    have hr2 := hr (by simp) hho
    obtain ⟨so, sp, si, -⟩ := scheduleDoRender_fields (d2.initHelper output.id)
    have hinit : ((d2.initHelper output.id).scheduleDoRender).isInitialized = true := by
      rw [si]
      show d2.renderContextProxy.isSome = true
      rw [hp]; exact hi
    have houts : ((d2.initHelper output.id).scheduleDoRender).outputs
        = (d.outputs ++ [OutputHelper.create output]).map
            (fun h => if h.id = output.id then h.init else h) := by
      rw [so]
      show d2.outputs.map _ = _
      rw [ho]
    have hrel := forall₂_map_of_forall (R := SameOutput)
      (fun h => if h.id = output.id then h.init else h)
      (d.outputs ++ [OutputHelper.create output]) (sameOutput_initIf output.id)
    have hplat : ((d2.initHelper output.id).scheduleDoRender).platformWindow
        = some (sceneScale ((d2.initHelper output.id).scheduleDoRender).outputs) := by
      rw [sp, houts, sceneScale_map_of_sameOutput _ (sameOutput_initIf output.id)]
      exact hr2
    refine ⟨⟨?_, ?_, ?_, ?_, ?_⟩, hinit.trans hi.symm, ?_, fun _ => hplat⟩
    · rw [houts]; exact forall₂_sameOutput_hasOutput hrel hho
    · rw [houts, forall₂_sameOutput_ids hrel]; exact hnd
    · intro _; rw [hplat]; rfl
    · intro _ h hh
      rw [houts, List.mem_map] at hh
      obtain ⟨x, hx, rfl⟩ := hh
      rcases List.mem_append.mp hx with hx | hx
      · have := hc.connected hi x hx
        split
        · rfl
        · exact this
      · rw [List.mem_singleton] at hx
        rw [hx]
        simp [OutputHelper.id, OutputHelper.create, OutputHelper.init]
    · intro _ _; exact hplat
    · rw [houts, forall₂_sameOutput_ids hrel]
      simp [OutputHelper.id, OutputHelper.create]

theorem removeHelper_some (output : Nat) :
    ∀ (hs rest : List OutputHelper) (found : OutputHelper),
      removeHelper output hs = some (found, rest) →
      rest.Sublist hs ∧ found ∈ hs ∧ found.m_output.id = output := by
  intro hs
  induction hs with
  | nil => intro rest found e; simp [removeHelper] at e
  | cons h tl ih =>
    intro rest found e
    unfold removeHelper at e
    split at e
    · rename_i hid
      simp only [Option.some.injEq, Prod.mk.injEq] at e
      obtain ⟨rfl, rfl⟩ := e
      exact ⟨List.sublist_cons_self _ _, by simp, hid⟩
    · cases e1 : removeHelper output tl with
      | none => simp [e1] at e
      | some r =>
        obtain ⟨f1, r1⟩ := r
        simp only [e1, Option.some.injEq, Prod.mk.injEq] at e
        obtain ⟨rfl, rfl⟩ := e
        obtain ⟨s1, m1, i1⟩ := ih r1 f1 e1
        exact ⟨s1.cons₂ h, by simp [m1], i1⟩

theorem removeHelper_isSome (output : Nat) (hs : List OutputHelper) :
    (removeHelper output hs).isSome = hs.any (fun h => h.m_output.id = output) := by
  induction hs with
  | nil => rfl
  | cons h tl ih =>
    unfold removeHelper
    by_cases hid : h.m_output.id = output
    · simp [hid]
    · simp only [hid, if_false, List.any_cons, decide_False, Bool.false_or, ← ih]
      cases removeHelper output tl with
      | none => rfl
      | some r => rfl

theorem WOutputRenderWindowPrivate.Coherent.detach {d d1 : WOutputRenderWindowPrivate}
    (hc : d.Coherent) (output : WOutputViewport) (e : d.detach output = .ok d1) :
    d1.Coherent ∧ d1.isInitialized = d.isInitialized
      ∧ d1.outputs.Sublist d.outputs
      ∧ (d1.outputs ≠ [] → d1.platformWindow = some (sceneScale d1.outputs))
      ∧ (d1.outputs = [] → d1.platformWindow = d.platformWindow) := by
  unfold WOutputRenderWindowPrivate.detach at e
  cases e1 : removeHelper output.id d.outputs with
  | none => simp [e1] at e
  | some r =>
    obtain ⟨found, rest⟩ := r
    simp only [e1] at e
    obtain ⟨hsub, -, -⟩ := removeHelper_some output.id d.outputs rest found e1
    have hho : ∀ h ∈ rest, h.m_output.output.isSome = true :=
      fun h hh => hc.hasOutput h (hsub.subset hh)
    obtain ⟨ho, hp, -, -, -, -, hps, hr⟩ := updateSceneDPR_inv _ d1 e
    have ho1 : d1.outputs = rest := ho
    have hi : d1.isInitialized = d.isInitialized := by
      show d1.renderContextProxy.isSome = d.renderContextProxy.isSome
      rw [hp]
    have hratio : d1.outputs ≠ [] → d1.platformWindow = some (sceneScale d1.outputs) := by
      intro hne
      rw [ho1] at hne ⊢
      exact hr hne hho
    refine ⟨⟨?_, ?_, ?_, ?_, fun _ => hratio⟩, hi, ho1 ▸ hsub, hratio, ?_⟩
    · rw [ho1]; exact hho
    · rw [ho1]; exact hc.distinct.sublist (hsub.map _)
    · intro h
      rw [hps]
      exact hc.platform (hi ▸ h)
    · intro h x hx
      rw [ho1] at hx
      exact hc.connected (hi ▸ h) x (hsub.subset hx)
    · intro hnil
      rw [ho1] at hnil
      have := updateSceneDPR_nil ({ d with outputs := rest }) hnil
      rw [this] at e
      cases e
      rfl

theorem runScaleChangedSlots_inv :
    ∀ (receivers : List OutputHelper) (d d1 : WOutputRenderWindowPrivate),
      runScaleChangedSlots receivers d = .ok d1 →
      d1.outputs = d.outputs ∧ d1.renderContextProxy = d.renderContextProxy
        ∧ d1.platformWindow.isSome = d.platformWindow.isSome
        ∧ (receivers = [] → d1 = d)
        ∧ (receivers ≠ [] → d.outputs ≠ [] →
            (∀ h ∈ d.outputs, h.m_output.output.isSome = true) →
            d1.platformWindow = some (sceneScale d.outputs)) := by
  intro receivers
  induction receivers with
  | nil =>
    intro d d1 e
    simp only [runScaleChangedSlots, Except.ok.injEq] at e
    subst e
    exact ⟨rfl, rfl, rfl, fun _ => rfl, fun h => absurd rfl h⟩
  | cons r rest ih =>
    intro d d1 e
    cases e1 : d.updateSceneDPR with
    | error x => simp [runScaleChangedSlots, e1] at e
    | ok d2 =>
      simp only [runScaleChangedSlots, e1] at e
      obtain ⟨ho, hp, -, -, -, -, hps, hr⟩ := updateSceneDPR_inv d d2 e1
      obtain ⟨ho2, hp2, hps2, hnil, hcons⟩ := ih d2 d1 e
      refine ⟨ho2.trans ho, hp2.trans hp, hps2.trans hps, fun h => (by cases h), ?_⟩
      intro _ hne hho
      cases rest with
      | nil => rw [hnil rfl]; exact hr hne hho
      | cons r2 rest2 =>
        rw [← ho]
        exact hcons (by simp) (ho ▸ hne) (ho ▸ hho)

theorem sameOutput_setScale_of_not_shown (output : Nat) (scale : ℚ) (h : OutputHelper)
    (hn : h.m_output.output.any (fun o => decide (o.id = output)) = false) :
    h.setScale output scale = h := by
  obtain ⟨⟨vid, vout, vis, vdpr, vsize, m1, m2⟩, r, dty, c⟩ := h
  cases vout with
  | none => rfl
  | some o =>
    have : ¬ o.id = output := by simpa using hn
    simp [OutputHelper.setScale, this]

theorem setScale_fields (output : Nat) (scale : ℚ) (h : OutputHelper) :
    (h.setScale output scale).m_output.id = h.m_output.id
      ∧ (h.setScale output scale).connected = h.connected
      ∧ (h.setScale output scale).m_output.output.isSome = h.m_output.output.isSome
      ∧ (h.setScale output scale).m_output.output.any (fun o => decide (o.id = output))
          = h.m_output.output.any (fun o => decide (o.id = output)) := by
  obtain ⟨⟨vid, vout, vis, vdpr, vsize, m1, m2⟩, r, dty, c⟩ := h
  cases vout with
  | none => exact ⟨rfl, rfl, rfl, rfl⟩
  | some o =>
    refine ⟨rfl, rfl, rfl, ?_⟩
    by_cases ho : o.id = output <;> simp [OutputHelper.setScale, ho]

theorem WOutputRenderWindowPrivate.Coherent.scaleChanged {d d1 : WOutputRenderWindowPrivate}
    (hc : d.Coherent) (output : Nat) (scale : ℚ) (e : d.scaleChanged output scale = .ok d1) :
    d1.Coherent ∧ d1.isInitialized = d.isInitialized
      ∧ d1.outputs = d.outputs.map (OutputHelper.setScale output scale) := by
  unfold WOutputRenderWindowPrivate.scaleChanged at e
  simp only at e
  obtain ⟨ho, hp, hps, hnil, hcons⟩ := runScaleChangedSlots_inv _ _ d1 e
  have ho1 : d1.outputs = d.outputs.map (OutputHelper.setScale output scale) := ho
  have hi : d1.isInitialized = d.isInitialized := by
    show d1.renderContextProxy.isSome = d.renderContextProxy.isSome
    rw [hp]
  have hho : ∀ h ∈ d.outputs.map (OutputHelper.setScale output scale),
      h.m_output.output.isSome = true := by
    intro h hh
    obtain ⟨x, hx, rfl⟩ := List.mem_map.mp hh
    rw [(setScale_fields output scale x).2.2.1]
    exact hc.hasOutput x hx
  refine ⟨⟨?_, ?_, ?_, ?_, ?_⟩, hi, ho1⟩
  · rw [ho1]; exact hho
  · rw [ho1, List.map_map]
    have : (OutputHelper.id ∘ OutputHelper.setScale output scale) = OutputHelper.id := by
      funext x; exact (setScale_fields output scale x).1
    rw [this]; exact hc.distinct
  · intro h; rw [hps]; exact hc.platform (hi ▸ h)
  · intro h x hx
    rw [ho1] at hx
    obtain ⟨y, hy, rfl⟩ := List.mem_map.mp hx
    rw [(setScale_fields output scale y).2.1]
    exact hc.connected (hi ▸ h) y hy
  · intro h hne
    have hinit : d.isInitialized = true := hi ▸ h
    rw [ho1] at hne ⊢
    by_cases hrec : (d.outputs.map (OutputHelper.setScale output scale)).filter
        (OutputHelper.receivesScaleChanged output) = []
    · have hsame : d.outputs.map (OutputHelper.setScale output scale) = d.outputs := by
        conv_rhs => rw [← List.map_id d.outputs]
        apply List.map_congr_left
        intro x hx
        apply sameOutput_setScale_of_not_shown
        have hmem : x.setScale output scale
            ∈ d.outputs.map (OutputHelper.setScale output scale) :=
          List.mem_map.mpr ⟨x, hx, rfl⟩
        have hnot := (List.filter_eq_nil_iff.mp hrec) _ hmem
        have hconn := hc.connected hinit x hx
        obtain ⟨-, f2, -, f4⟩ := setScale_fields output scale x
        simp only [OutputHelper.receivesScaleChanged, f2, hconn, f4, Bool.true_and] at hnot
        simpa using hnot
      rw [hnil hrec, hsame]
      rw [hsame] at hne
      exact hc.ratio hinit hne
    · exact hcons hrec hne hho

theorem foldl_initHelper (l : List OutputHelper) :
    ∀ d : WOutputRenderWindowPrivate,
      (l.foldl (fun d h => d.initHelper h.id) d).outputs
          = d.outputs.map (fun x => if x.id ∈ l.map OutputHelper.id then x.init else x)
        ∧ (l.foldl (fun d h => d.initHelper h.id) d).renderContextProxy = d.renderContextProxy
        ∧ (l.foldl (fun d h => d.initHelper h.id) d).platformWindow = d.platformWindow := by
  induction l with
  | nil => intro d; simp
  | cons a rest ih =>
    intro d
    obtain ⟨h1, h2, h3⟩ := ih (d.initHelper a.id)
    rw [List.foldl_cons]
    refine ⟨?_, h2, h3⟩
    rw [h1]
    show (d.outputs.map _).map _ = _
    rw [List.map_map]
    apply List.map_congr_left
    intro x _
    by_cases hx : x.id = a.id
    · by_cases hr : x.id ∈ rest.map OutputHelper.id <;>
        simp [hx, hr, OutputHelper.init, OutputHelper.id] <;>
        simp [OutputHelper.id] at hx hr <;> simp [hx, hr]
    · by_cases hr : x.id ∈ rest.map OutputHelper.id <;>
        simp [hx, hr, OutputHelper.init, OutputHelper.id] <;>
        simp [OutputHelper.id] at hx hr <;> simp [hx, hr]

theorem sameOutput_initIfMem (l : List Nat) (x : OutputHelper) :
    SameOutput x (if x.id ∈ l then x.init else x) := by
  split <;> exact ⟨rfl, rfl⟩

theorem WOutputRenderWindowPrivate.Coherent.init {d d1 : WOutputRenderWindowPrivate}
    (hc : d.Coherent) (ienv : InitEnv) (e : d.init ienv = .ok d1) :
    d1.Coherent ∧ d1.isInitialized = true := by
  unfold WOutputRenderWindowPrivate.init at e
  cases hcomp : d.compositor with
  | false => simp [hcomp] at e
  | true =>
    simp only [hcomp, Bool.not_true, Bool.false_eq_true, if_false] at e
    obtain ⟨f1, f2, f3⟩ := foldl_initHelper d.outputs
      { d with compositor := true, rhi := ienv.rhi, renderContextProxy := some ienv.proxy,
               platformWindow := some (d.platformWindow.getD ienv.platformDevicePixelRatio) }
    obtain ⟨ho, hp, -, -, -, -, hps, hr⟩ := updateSceneDPR_inv _ d1 e
    rw [f1] at ho hr
    rw [f2] at hp
    rw [f3] at hps
    have hrel := forall₂_map_of_forall (R := SameOutput)
      (fun x => if x.id ∈ d.outputs.map OutputHelper.id then x.init else x) d.outputs
      (sameOutput_initIfMem _)
    have hi : d1.isInitialized = true := by
      show d1.renderContextProxy.isSome = true
      rw [hp]; rfl
    have hho := forall₂_sameOutput_hasOutput hrel hc.hasOutput
    refine ⟨⟨?_, ?_, ?_, ?_, ?_⟩, hi⟩
    · rw [ho]; exact hho
    · rw [ho, forall₂_sameOutput_ids hrel]; exact hc.distinct
    · intro _; rw [hps]; rfl
    · intro _ h hh
      rw [ho] at hh
      obtain ⟨x, hx, rfl⟩ := List.mem_map.mp hh
      have : x.id ∈ d.outputs.map OutputHelper.id := List.mem_map.mpr ⟨x, hx, rfl⟩
      simp [this, OutputHelper.init]
    · intro _ hne
      rw [ho] at hne ⊢
      exact hr hne hho

theorem WOutputRenderWindowPrivate.Coherent.setCompositor
    {d d1 : WOutputRenderWindowPrivate} (hc : d.Coherent) (initNow : Option InitEnv)
    (e : d.setCompositor initNow = .ok d1) : d1.Coherent := by
  unfold WOutputRenderWindowPrivate.setCompositor at e
  cases hcomp : d.compositor with
  | true => simp [hcomp] at e
  | false =>
    have h0 : ({ d with compositor := true } : WOutputRenderWindowPrivate).Coherent :=
      ⟨hc.hasOutput, hc.distinct, hc.platform, hc.connected, hc.ratio⟩
    cases initNow with
    | none =>
      simp only [hcomp, Bool.false_eq_true, if_false, Except.ok.injEq] at e
      subst e
      exact h0
    | some ienv =>
      simp only [hcomp, Bool.false_eq_true, if_false] at e
      exact (h0.init ienv e).1

/-- Every reachable window is coherent. -/
theorem Reachable.coherent {d : WOutputRenderWindowPrivate} (hr : Reachable d) :
    d.Coherent := by
  induction hr with
  | construct => exact WOutputRenderWindowPrivate.Coherent.construct
  | create d ratio _ ih => exact ih.create ratio
  | setCompositor d d1 initNow _ e ih => exact ih.setCompositor initNow e
  | init d d1 ienv _ e ih => exact (ih.init ienv e).1
  | attach d d1 output _ e ih => exact (ih.attach output e).1
  | detach d d1 output _ e ih => exact (ih.detach output e).1
  | scaleChanged d d1 output scale _ e ih => exact (ih.scaleChanged output scale e).1
  | update d _ ih => exact ih.update
  | scheduleRender d _ ih => exact ih.scheduleDoRender
  | render d d1 env calls _ e ih => exact (ih.doRender env calls e).1
  | sendPostedEvents d d1 env passes _ e ih => exact ih.sendPostedEvents env passes e
  | environment d outputs _ hrel ih => exact ih.environment outputs hrel

/-- On an initialized reachable window the assertion in `doRender` holds for
every attached output. -/
theorem Reachable.renderReady {d : WOutputRenderWindowPrivate} (hr : Reachable d)
    (hi : d.isInitialized = true) : d.RenderReady := by
  have hc := hr.coherent
  refine ⟨hi, ?_⟩
  intro h hh
  obtain ⟨out, hout⟩ := Option.isSome_iff_exists.mp (hc.hasOutput h hh)
  have hne : d.outputs ≠ [] := List.ne_nil_of_mem hh
  have hle := sceneScale_ge d.outputs h out hh hout
  simp [OutputHelper.scaleWithin, hout, WOutputRenderWindowPrivate.devicePixelRatio,
    hc.ratio hi hne, hle]

/-! ## Attach, detach and scale changes on an initialized window -/

theorem any_false_of_not_mem_ids (hs : List OutputHelper) (output : Nat)
    (h : output ∉ hs.map OutputHelper.id) :
    hs.any (fun h => h.m_output.id = output) = false := by
  rw [List.any_eq_false]
  intro x hx
  have : x.id ≠ output := fun hxid => h (List.mem_map.mpr ⟨x, hx, hxid⟩)
  simpa [OutputHelper.id] using this

theorem map_initIf_of_fresh (hs : List OutputHelper) (output : Nat)
    (h : output ∉ hs.map OutputHelper.id) :
    hs.map (fun x => if x.id = output then x.init else x) = hs := by
  conv_rhs => rw [← List.map_id hs]
  apply List.map_congr_left
  intro x hx
  have : x.id ≠ output := fun hxid => h (List.mem_map.mpr ⟨x, hx, hxid⟩)
  simp [this]

theorem attach_initialized (d : WOutputRenderWindowPrivate) (output : WOutputViewport)
    (hc : d.Coherent) (hi : d.isInitialized = true)
    (hfresh : output.id ∉ d.outputs.map OutputHelper.id)
    (hout : output.output.isSome = true) :
    d.attach output = .ok
      { d with
        outputs := d.outputs ++ [(OutputHelper.create output).init]
        platformWindow := some (sceneScale (d.outputs ++ [OutputHelper.create output]))
        postedEvents := d.postedEvents ++ [PostedEvent.scheduleRender, PostedEvent.doRender] } := by
  have hany := any_false_of_not_mem_ids d.outputs output.id hfresh
  have hnone : output.output.isNone = false := by
    cases ho : output.output with
    | none => rw [ho] at hout; cases hout
    | some _ => rfl
  have hi1 : ({ d with outputs := d.outputs ++ [OutputHelper.create output] }
      : WOutputRenderWindowPrivate).isInitialized = true := hi
  have hho : ∀ h ∈ d.outputs ++ [OutputHelper.create output],
      h.m_output.output.isSome = true := by
    intro h hh
    rcases List.mem_append.mp hh with hh | hh
    · exact hc.hasOutput h hh
    · rw [List.mem_singleton] at hh; rw [hh]; exact hout
  have hupd := updateSceneDPR_ok
    ({ d with outputs := d.outputs ++ [OutputHelper.create output] }) (by simp)
    (hc.platform hi) hho
  unfold WOutputRenderWindowPrivate.attach
  simp only [hany, hnone, hi1, hupd, Bool.false_eq_true, if_false, Bool.not_true]
  simp only [WOutputRenderWindowPrivate.initHelper, WOutputRenderWindowPrivate.scheduleDoRender,
    WOutputRenderWindowPrivate.isInitialized, List.map_append, map_initIf_of_fresh _ _ hfresh]
  have hp : d.renderContextProxy.isSome = true := hi
  simp [hp, OutputHelper.id, OutputHelper.create]

theorem attach_initialized_fields (d : WOutputRenderWindowPrivate)
    (output : WOutputViewport) (hc : d.Coherent) (hi : d.isInitialized = true)
    (hfresh : output.id ∉ d.outputs.map OutputHelper.id)
    (hout : output.output.isSome = true) :
    ∃ d1, d.attach output = .ok d1
      ∧ d1.outputs = d.outputs ++ [(OutputHelper.create output).init]
      ∧ d1.platformWindow = some (sceneScale (d.outputs ++ [OutputHelper.create output]))
      ∧ d1.isInitialized = true :=
  ⟨_, attach_initialized d output hc hi hfresh hout, rfl, rfl, hi⟩

theorem detach_succeeds (d : WOutputRenderWindowPrivate) (output : WOutputViewport)
    (hc : d.Coherent) (hi : d.isInitialized = true)
    (hmem : output.id ∈ d.outputs.map OutputHelper.id) :
    ∃ d1, d.detach output = .ok d1 := by
  have hany : d.outputs.any (fun h => h.m_output.id = output.id) = true := by
    obtain ⟨x, hx, hxid⟩ := List.mem_map.mp hmem
    rw [List.any_eq_true]
    exact ⟨x, hx, by simpa [OutputHelper.id] using hxid⟩
  have hsome := removeHelper_isSome output.id d.outputs
  rw [hany] at hsome
  obtain ⟨⟨found, rest⟩, e1⟩ := Option.isSome_iff_exists.mp hsome
  obtain ⟨hsub, -, -⟩ := removeHelper_some output.id d.outputs rest found e1
  unfold WOutputRenderWindowPrivate.detach
  simp only [e1]
  by_cases hnil : rest = []
  · exact ⟨_, updateSceneDPR_nil _ hnil⟩
  · exact ⟨_, updateSceneDPR_ok ({ d with outputs := rest }) hnil (hc.platform hi)
      (fun h hh => hc.hasOutput h (hsub.subset hh))⟩

theorem runScaleChangedSlots_succeeds :
    ∀ (receivers : List OutputHelper) (d : WOutputRenderWindowPrivate),
      d.platformWindow.isSome = true → (∀ h ∈ d.outputs, h.m_output.output.isSome = true) →
      ∃ d1, runScaleChangedSlots receivers d = .ok d1 := by
  intro receivers
  induction receivers with
  | nil => intro d _ _; exact ⟨d, rfl⟩
  | cons r rest ih =>
    intro d hp hho
    by_cases hnil : d.outputs = []
    · simp only [runScaleChangedSlots, updateSceneDPR_nil d hnil]
      exact ih d hp hho
    · simp only [runScaleChangedSlots, updateSceneDPR_ok d hnil hp hho]
      exact ih _ rfl hho

theorem scaleChanged_succeeds (d : WOutputRenderWindowPrivate) (output : Nat) (scale : ℚ)
    (hc : d.Coherent) (hi : d.isInitialized = true) :
    ∃ d1, d.scaleChanged output scale = .ok d1 := by
  unfold WOutputRenderWindowPrivate.scaleChanged
  refine runScaleChangedSlots_succeeds _ _ (hc.platform hi) ?_
  intro h hh
  obtain ⟨x, hx, rfl⟩ := List.mem_map.mp hh
  rw [(setScale_fields output scale x).2.2.1]
  exact hc.hasOutput x hx

theorem emptyWindow_reachable : Reachable emptyWindow :=
  Reachable.setCompositor WOutputRenderWindowPrivate.construct emptyWindow (some sampleInitEnv)
    Reachable.construct (by rfl)

theorem sceneScale_isGreatest (hs : List OutputHelper) :
    IsGreatestAttachedScale hs (sceneScale hs) := by
  have key : ∀ (l : List ℚ) (m : ℚ), m ≤ l.foldl max m ∧ ∀ x ∈ l, x ≤ l.foldl max m := by
    intro l
    induction l with
    | nil => intro m; exact ⟨le_refl _, fun x hx => (by cases hx)⟩
    | cons a rest ih =>
      intro m
      obtain ⟨h1, h2⟩ := ih (max m a)
      refine ⟨le_trans (le_max_left m a) h1, ?_⟩
      intro x hx
      rcases List.mem_cons.mp hx with rfl | hx
      · exact le_trans (le_max_right m x) h1
      · exact h2 x hx
  refine ⟨rfl, (key (attachedScales hs) 0).2, ?_⟩
  rintro ⟨s, hs1, hs2⟩
  rcases sceneScale_mem hs with h0 | hmem
  · have hle : s ≤ sceneScale hs := (key (attachedScales hs) 0).2 s hs1
    have : s = 0 := le_antisymm (h0 ▸ hle) hs2
    rw [h0, ← this]; exact hs1
  · exact hmem

theorem devicePixelRatio_of_platformWindow (d : WOutputRenderWindowPrivate) (r : ℚ)
    (h : d.platformWindow = some r) : d.devicePixelRatio = r := by
  simp [WOutputRenderWindowPrivate.devicePixelRatio, h]

/-- C4 as stated fails: on the initialized sample window, attaching an
enabled output of scale one and a disabled output of scale two sets the
shared ratio to two, while the greatest scale over the attached outputs that
are enabled is one. -/
theorem sceneDPR_counts_disabled_output :
    Reachable emptyWindow ∧ emptyWindow.isInitialized = true
      ∧ ∃ d1 d2, emptyWindow.attach (sampleViewport 1 1 ⟨1920, 1080⟩) = .ok d1
        ∧ d1.attach disabledViewport = .ok d2
        ∧ d2.devicePixelRatio = 2
        ∧ enabledScales d2.outputs = [1]
        ∧ d2.devicePixelRatio ∉ enabledScales d2.outputs := by
  refine ⟨emptyWindow_reachable, rfl, _, _, rfl, rfl, ?_, ?_, ?_⟩
  · decide
  · decide
  · decide

/-- C4, amended: on an initialized reachable window every attach, detach and
scale change that leaves at least one output attached sets the shared scene
ratio to the greatest of zero and the scales of all attached outputs, whether
enabled or not; the three calls succeed whenever their assertions hold.
Attaching outputs of scales 1, 3/2 and 2 gives 2, and detaching the output of
scale 2 then gives 3/2. -/
theorem sceneDPR_is_greatest_attached_scale (d : WOutputRenderWindowPrivate)
    (hr : Reachable d) (hi : d.isInitialized = true) :
    (∀ output d1, d.attach output = .ok d1 →
        IsGreatestAttachedScale d1.outputs d1.devicePixelRatio)
      ∧ (∀ output d1, d.detach output = .ok d1 → d1.outputs ≠ [] →
        IsGreatestAttachedScale d1.outputs d1.devicePixelRatio)
      ∧ (∀ output scale d1, d.scaleChanged output scale = .ok d1 → d1.outputs ≠ [] →
        IsGreatestAttachedScale d1.outputs d1.devicePixelRatio)
      ∧ (∀ output : WOutputViewport, output.id ∉ d.outputs.map OutputHelper.id →
        output.output.isSome = true → ∃ d1, d.attach output = .ok d1)
      ∧ (∀ output : WOutputViewport, output.id ∈ d.outputs.map OutputHelper.id →
        ∃ d1, d.detach output = .ok d1)
      ∧ (∀ output scale, ∃ d1, d.scaleChanged output scale = .ok d1)
      ∧ (∃ d1 d2 d3 d4, emptyWindow.attach (sampleViewport 1 1 ⟨1920, 1080⟩) = .ok d1
        ∧ d1.attach (sampleViewport 2 (3 / 2) ⟨1920, 1080⟩) = .ok d2
        ∧ d2.attach (sampleViewport 3 2 ⟨1920, 1080⟩) = .ok d3
        ∧ d3.devicePixelRatio = 2
        ∧ d3.detach (sampleViewport 3 2 ⟨1920, 1080⟩) = .ok d4
        ∧ d4.devicePixelRatio = 3 / 2) := by
  have hc := hr.coherent
  refine ⟨?_, ?_, ?_, ?_, ?_, ?_, ?_⟩
  · intro output d1 e
    rw [devicePixelRatio_of_platformWindow d1 _ ((hc.attach output e).2.2.2 hi)]
    exact sceneScale_isGreatest _
  · intro output d1 e hne
    rw [devicePixelRatio_of_platformWindow d1 _ ((hc.detach output e).2.2.2.1 hne)]
    exact sceneScale_isGreatest _
  · intro output scale d1 e hne
    obtain ⟨hc1, hi1, -⟩ := hc.scaleChanged output scale e
    rw [devicePixelRatio_of_platformWindow d1 _ (hc1.ratio (hi1.trans hi) hne)]
    exact sceneScale_isGreatest _
  · intro output hfresh hout
    exact ⟨_, attach_initialized d output hc hi hfresh hout⟩
  · intro output hmem
    exact detach_succeeds d output hc hi hmem
  · intro output scale
    exact scaleChanged_succeeds d output scale hc hi
  · refine ⟨_, _, _, _, rfl, rfl, rfl, ?_, rfl, ?_⟩
    · with_unfolding_all rfl
    · with_unfolding_all rfl

/-- C4, amended, witnessed on the initialized sample window. -/
theorem sceneDPR_is_greatest_attached_scale_witness :
    Reachable emptyWindow ∧ emptyWindow.isInitialized = true
      ∧ ∀ output d1, emptyWindow.attach output = .ok d1 →
        IsGreatestAttachedScale d1.outputs d1.devicePixelRatio :=
  ⟨emptyWindow_reachable, rfl,
    (sceneDPR_is_greatest_attached_scale emptyWindow emptyWindow_reachable rfl).1⟩

/-! ## Render requests -/

theorem scheduleDoRender_initialized (d : WOutputRenderWindowPrivate)
    (hi : d.isInitialized = true) :
    d.scheduleDoRender = { d with postedEvents := d.postedEvents ++ [PostedEvent.doRender] } := by
  simp [WOutputRenderWindowPrivate.scheduleDoRender, hi]

theorem request_initialized (d : WOutputRenderWindowPrivate) (req : RenderRequest)
    (hv : d.RenderReady) :
    (d.request req).RenderReady
      ∧ (d.request req).postedEvents = d.postedEvents ++ [PostedEvent.doRender] := by
  cases req with
  | update =>
    have hi : ({ d with outputs := d.outputs.map OutputHelper.update }
        : WOutputRenderWindowPrivate).isInitialized = true := hv.1
    simp only [WOutputRenderWindowPrivate.request, WOutputRenderWindowPrivate.update,
      scheduleDoRender_initialized _ hi]
    refine ⟨⟨hv.1, ?_⟩, trivial⟩
    intro h hh
    obtain ⟨x, hx, rfl⟩ := List.mem_map.mp hh
    exact hv.2 x hx
  | scheduleRender =>
    simp only [WOutputRenderWindowPrivate.request, WOutputRenderWindowPrivate.scheduleRender,
      scheduleDoRender_initialized _ hv.1]
    exact ⟨⟨hv.1, hv.2⟩, trivial⟩

theorem requests_initialized (reqs : List RenderRequest) :
    ∀ d : WOutputRenderWindowPrivate, d.RenderReady →
      (d.requests reqs).RenderReady
        ∧ (d.requests reqs).postedEvents
            = d.postedEvents ++ List.replicate reqs.length PostedEvent.doRender := by
  induction reqs with
  | nil => intro d hv; exact ⟨hv, by simp [WOutputRenderWindowPrivate.requests]⟩
  | cons r rest ih =>
    intro d hv
    obtain ⟨hv1, hp1⟩ := request_initialized d r hv
    obtain ⟨hv2, hp2⟩ := ih (d.request r) hv1
    refine ⟨hv2, ?_⟩
    show ((d.request r).requests rest).postedEvents = _
    rw [hp2, hp1, List.length_cons, List.replicate_succ, List.append_assoc]
    rfl

theorem deliverEvents_doRender (env : Backend) (k : Nat) :
    ∀ d : WOutputRenderWindowPrivate, d.RenderReady →
      ∃ d1 passes, deliverEvents env (List.replicate k PostedEvent.doRender) d = .ok (d1, passes)
        ∧ passes.length = k := by
  induction k with
  | zero => intro d _; exact ⟨d, [], rfl, rfl⟩
  | succ k ih =>
    intro d hv
    obtain ⟨d1, e, ho, hi, hw, -⟩ := doRender_ok d env hv
    obtain ⟨d2, passes, e2, hl⟩ := ih d1 (doRender_renderReady env d d1 hv ho hi hw)
    refine ⟨d2, cycleCalls env d.rhi d.outputs :: passes, ?_, by simp [hl]⟩
    simp [List.replicate_succ, deliverEvents, WOutputRenderWindowPrivate.event, e, e2]

/-- C3 as stated fails: two calls of `update()` on the initialized sample
window leave two `doRender` events pending, and the event loop then runs
`doRender` twice. -/
theorem update_twice_renders_twice :
    sampleWindow.isInitialized = true
      ∧ sampleWindow.postedEvents = []
      ∧ sampleWindow.update.update.postedEvents = [PostedEvent.doRender, PostedEvent.doRender]
      ∧ ∃ d1 pass1 pass2,
          sampleWindow.update.update.sendPostedEvents grantingBackend
            = .ok (d1, [pass1, pass2]) := by
  refine ⟨rfl, rfl, rfl, ?_⟩
  obtain ⟨d1, passes, e, hl⟩ := deliverEvents_doRender grantingBackend 2
    { sampleWindow.update.update with postedEvents := [] } (by decide)
  match passes, hl with
  | [pass1, pass2], _ => exact ⟨d1, pass1, pass2, e⟩

/-- C3, amended: render requests are not coalesced.  On a render-ready
window, `k` calls of `update()` or `scheduleRender()`, in any mix, post
exactly `k` `doRender` events behind those already pending, and when none was
pending the next turn of the event loop runs `doRender` exactly `k` times: a
request made while a render is pending posts one more. -/
theorem requests_post_one_render_each (d : WOutputRenderWindowPrivate) (env : Backend)
    (reqs : List RenderRequest) (hv : d.RenderReady) :
    (d.requests reqs).postedEvents
        = d.postedEvents ++ List.replicate reqs.length PostedEvent.doRender
      ∧ (d.postedEvents = [] →
          ∃ d1 passes, (d.requests reqs).sendPostedEvents env = .ok (d1, passes)
            ∧ passes.length = reqs.length) := by
  obtain ⟨hv1, hp1⟩ := requests_initialized reqs d hv
  refine ⟨hp1, ?_⟩
  intro hnil
  rw [hnil, List.nil_append] at hp1
  unfold WOutputRenderWindowPrivate.sendPostedEvents
  rw [hp1]
  exact deliverEvents_doRender env reqs.length
    { d.requests reqs with postedEvents := [] } ⟨hv1.1, hv1.2⟩

/-- C3, amended, witnessed: an update and a scheduled render on the sample
window. -/
theorem requests_post_one_render_each_witness :
    sampleWindow.RenderReady
      ∧ (sampleWindow.requests [RenderRequest.update, RenderRequest.scheduleRender]).postedEvents
          = [PostedEvent.doRender, PostedEvent.doRender] :=
  ⟨by decide,
    (requests_post_one_render_each sampleWindow grantingBackend
      [RenderRequest.update, RenderRequest.scheduleRender] (by decide)).1⟩

/-! ## The polish pass and the frame-done notification -/

/-- C6: a render cycle runs the polish pass once if some attached output is
renderable and visible, whatever the dirty bits, and not at all otherwise;
when it runs it is the first call of the cycle, before every sync and render
step, and without it the cycle makes no call at all. -/
theorem doRender_polishes_once (d : WOutputRenderWindowPrivate) (env : Backend)
    (hv : d.RenderReady) :
    ∃ d1 calls, d.doRender env = .ok (d1, calls)
      ∧ (calls.filter Call.isPolish).length
          = (if d.outputs.any OutputHelper.eligible then 1 else 0)
      ∧ (d.outputs.any OutputHelper.eligible = true →
          ∃ rest, calls = Call.polishItems :: rest ∧ ∀ c ∈ rest, c.isPolish = false)
      ∧ (d.outputs.any OutputHelper.eligible = false → calls = []) := by
  obtain ⟨d1, e, -⟩ := doRender_ok d env hv
  have hno : ∀ c ∈ d.outputs.flatMap (helperCalls env d.rhi), c.isPolish = false := by
    intro c hc
    obtain ⟨h, hh, hch⟩ := List.mem_flatMap.mp hc
    exact (helperCalls_helperOf env d.rhi h _ (hv.2 h hh) c hch).1
  have hnil : (d.outputs.flatMap (helperCalls env d.rhi)).filter Call.isPolish = [] := by
    rw [List.filter_eq_nil_iff]
    intro c hc
    simp [hno c hc]
  refine ⟨d1, _, e, ?_, ?_, ?_⟩
  · unfold cycleCalls
    rw [List.filter_append, hnil]
    split <;> simp [Call.isPolish]
  · intro hany
    refine ⟨d.outputs.flatMap (helperCalls env d.rhi), ?_, hno⟩
    simp [cycleCalls, hany]
  · intro hany
    have : d.outputs.flatMap (helperCalls env d.rhi) = [] := by
      rw [List.flatMap_eq_nil_iff]
      intro h hh
      exact helperCalls_of_not_eligible env d.rhi h
        (by simpa using List.any_eq_false.mp hany h hh)
    simp [cycleCalls, hany, this]

/-- C6, witnessed on the sample window. -/
theorem doRender_polishes_once_witness :
    sampleWindow.RenderReady
      ∧ ∃ d1 calls, sampleWindow.doRender grantingBackend = .ok (d1, calls)
        ∧ (calls.filter Call.isPolish).length = 1 :=
  ⟨by decide,
    (doRender_polishes_once sampleWindow grantingBackend (by decide)).imp
      (fun _ h => h.imp (fun _ h => ⟨h.1, h.2.1⟩))⟩

theorem mem_ids_filter_iff (p : OutputHelper → Bool) (hs : List OutputHelper)
    (hd : (hs.map OutputHelper.id).Nodup) (h : OutputHelper) (hh : h ∈ hs) :
    h.id ∈ (hs.filter p).map OutputHelper.id ↔ p h = true := by
  constructor
  · intro hmem
    obtain ⟨x, hx, hxid⟩ := List.mem_map.mp hmem
    obtain ⟨hx1, hx2⟩ := List.mem_filter.mp hx
    have : x = h := List.inj_on_of_nodup_map hd hx1 hh hxid
    rw [← this]; exact hx2
  · intro hp
    exact List.mem_map.mpr ⟨h, List.mem_filter.mpr ⟨hh, hp⟩, rfl⟩

/-- C7: in one render cycle `frameDone` is emitted once for each output for
which the scene was rendered and the commit requested, in list order (the
order of attachment), whether the commit succeeded or not, and for no output
that was skipped.  End to end: on an initialized window without outputs,
attach visible viewports `a` (scale 1) and `b` (scale 2); once the backend
has them ready and hands out their targets, `update()` and one cycle give two
renders, two commit requests, two `frameDone` and the shared ratio 2. -/
theorem doRender_frameDone_per_rendered_output :
    (∀ (d : WOutputRenderWindowPrivate) (env : Backend), d.RenderReady →
      ∃ d1 calls, d.doRender env = .ok (d1, calls)
        ∧ calls.filterMap Call.frameDoneOf = calls.filterMap Call.committed
        ∧ calls.filterMap Call.frameDoneOf = calls.filterMap Call.rendered
        ∧ calls.filterMap Call.frameDoneOf
            = (d.outputs.filter env.rendersFor).map OutputHelper.id
        ∧ ((d.outputs.map OutputHelper.id).Nodup →
            (calls.filterMap Call.frameDoneOf).Nodup
            ∧ ∀ h ∈ d.outputs,
                (h.id ∈ calls.filterMap Call.frameDoneOf ↔ env.rendersFor h = true)))
      ∧ (∀ (d0 : WOutputRenderWindowPrivate) (a b : WOutputViewport) (oa ob : WOutput)
          (env : Backend), Reachable d0 → d0.isInitialized = true → d0.outputs = [] →
          a.id ≠ b.id → a.output = some oa → b.output = some ob → oa.scale = 1 →
          ob.scale = 2 → a.isVisible = true → b.isVisible = true →
          (env.acquireRenderTarget a.id).isNull = false → env.makeCurrent a.id = true →
          (env.acquireRenderTarget b.id).isNull = false → env.makeCurrent b.id = true →
          ∃ d1 d2 d3 calls, d0.attach a = .ok d1 ∧ d1.attach b = .ok d2
            ∧ d2.outputsReady.update.doRender env = .ok (d3, calls)
            ∧ calls.filterMap Call.rendered = [a.id, b.id]
            ∧ calls.filterMap Call.committed = [a.id, b.id]
            ∧ calls.filterMap Call.frameDoneOf = [a.id, b.id]
            ∧ d3.devicePixelRatio = 2) := by
  constructor
  · intro d env hv
    obtain ⟨d1, e, -⟩ := doRender_ok d env hv
    have hf := cycleCalls_filterMap env d.rhi Call.frameDoneOf _ _ rfl
      (fun h hh => helperCalls_frameDoneOf env d.rhi h _ (hv.2 h hh))
    have hcm := cycleCalls_filterMap env d.rhi Call.committed _ _ rfl
      (fun h hh => helperCalls_committed env d.rhi h _ (hv.2 h hh))
    have hrn := cycleCalls_filterMap env d.rhi Call.rendered _ _ rfl
      (fun h hh => helperCalls_rendered env d.rhi h _ (hv.2 h hh))
    refine ⟨d1, _, e, by rw [hf, hcm], by rw [hf, hrn], hf, ?_⟩
    intro hd
    rw [hf]
    exact ⟨hd.sublist ((List.filter_sublist _).map _),
      fun h hh => mem_ids_filter_iff _ _ hd h hh⟩
  · intro d0 a b oa ob env hr hi hnil hab hoa hob hsa hsb hva hvb ha1 ha2 hb1 hb2
    have hc0 := hr.coherent
    obtain ⟨d1, e1, ho1, -, hi1⟩ := attach_initialized_fields d0 a hc0 hi (by simp [hnil])
      (by simp [hoa])
    have hr1 := Reachable.attach d0 d1 a hr e1
    obtain ⟨d2, e2, ho2, hw2, hi2⟩ := attach_initialized_fields d1 b hr1.coherent hi1
      (by simp [ho1, hnil, OutputHelper.id, OutputHelper.init, OutputHelper.create,
        Ne.symm hab])
      (by simp [hob])
    have hscale : sceneScale (d1.outputs ++ [OutputHelper.create b]) = 2 := by
      simp [sceneScale, attachedScales, ho1, hnil, OutputHelper.init, OutputHelper.create,
        hoa, hob, hsa, hsb]
    rw [hscale] at hw2
    rw [ho1, hnil, List.nil_append] at ho2
    have key : ∀ d2 : WOutputRenderWindowPrivate,
        d2.outputs = [(OutputHelper.create a).init, (OutputHelper.create b).init] →
        d2.platformWindow = some 2 → d2.renderContextProxy.isSome = true →
        ∃ d3 calls, d2.outputsReady.update.doRender env = .ok (d3, calls)
          ∧ calls.filterMap Call.rendered = [a.id, b.id]
          ∧ calls.filterMap Call.committed = [a.id, b.id]
          ∧ calls.filterMap Call.frameDoneOf = [a.id, b.id]
          ∧ d3.devicePixelRatio = 2 := by
      intro d2 ho hw2 hp2
      have hi2 : ({ d2 with outputs := (d2.outputs.map
          (fun h => { h with renderable := true })).map OutputHelper.update }
          : WOutputRenderWindowPrivate).isInitialized = true := hp2
      have hupd : d2.outputsReady.update
          = { d2 with
              outputs := (d2.outputs.map
                (fun h => { h with renderable := true })).map OutputHelper.update
              postedEvents := d2.postedEvents ++ [PostedEvent.doRender] } := by
        simp only [WOutputRenderWindowPrivate.update, WOutputRenderWindowPrivate.outputsReady,
          scheduleDoRender_initialized _ hi2]
      have hv : d2.outputsReady.update.RenderReady := by
        rw [hupd]
        refine ⟨hp2, ?_⟩
        simp [WOutputRenderWindowPrivate.devicePixelRatio, hw2, ho, OutputHelper.scaleWithin,
          OutputHelper.update, OutputHelper.init, OutputHelper.create, hoa, hob, hsa, hsb]
      have hfilter : (d2.outputsReady.update.outputs.filter env.rendersFor).map OutputHelper.id
          = [a.id, b.id] := by
        rw [hupd]
        simp [ho, OutputHelper.update, OutputHelper.init, OutputHelper.create,
          List.filter_cons, Backend.rendersFor, Backend.grants, OutputHelper.needsRender,
          OutputHelper.id, hva, hvb, ha1, ha2, hb1, hb2]
      obtain ⟨d3, e3, -, -, hw, -⟩ := doRender_ok d2.outputsReady.update env hv
      have hf := cycleCalls_filterMap env d2.outputsReady.update.rhi Call.frameDoneOf _ _ rfl
        (fun h hh => helperCalls_frameDoneOf env _ h _ (hv.2 h hh))
      have hcm := cycleCalls_filterMap env d2.outputsReady.update.rhi Call.committed _ _ rfl
        (fun h hh => helperCalls_committed env _ h _ (hv.2 h hh))
      have hrn := cycleCalls_filterMap env d2.outputsReady.update.rhi Call.rendered _ _ rfl
        (fun h hh => helperCalls_rendered env _ h _ (hv.2 h hh))
      refine ⟨d3, _, e3, hrn.trans hfilter, hcm.trans hfilter, hf.trans hfilter, ?_⟩
      rw [WOutputRenderWindowPrivate.devicePixelRatio, hw, hupd]
      simp [hw2]
    obtain ⟨d3, calls, h3⟩ := key d2 ho2 hw2 hi2
    exact ⟨d1, d2, d3, calls, e1, e2, h3⟩

/-- C7, witnessed: one cycle on the sample window, and the end-to-end run
from the empty sample window. -/
theorem doRender_frameDone_per_rendered_output_witness :
    sampleWindow.RenderReady
      ∧ (∃ d1 calls, sampleWindow.doRender grantingBackend = .ok (d1, calls)
          ∧ calls.filterMap Call.frameDoneOf = calls.filterMap Call.committed)
      ∧ (∃ d1 d2 d3 calls, emptyWindow.attach (sampleViewport 1 1 ⟨1920, 1080⟩) = .ok d1
          ∧ d1.attach (sampleViewport 2 2 ⟨3840, 2160⟩) = .ok d2
          ∧ d2.outputsReady.update.doRender grantingBackend = .ok (d3, calls)
          ∧ calls.filterMap Call.frameDoneOf = [1, 2]
          ∧ d3.devicePixelRatio = 2) :=
  ⟨by decide,
    (doRender_frameDone_per_rendered_output.1 sampleWindow grantingBackend (by decide)).imp
      (fun _ h => h.imp (fun _ h => ⟨h.1, h.2.1⟩)),
    (doRender_frameDone_per_rendered_output.2 emptyWindow (sampleViewport 1 1 ⟨1920, 1080⟩)
      (sampleViewport 2 2 ⟨3840, 2160⟩) ⟨1, 1, ⟨1920, 1080⟩, true⟩ ⟨2, 2, ⟨3840, 2160⟩, true⟩
      grantingBackend emptyWindow_reachable rfl rfl (by decide) rfl rfl rfl rfl rfl rfl rfl rfl
      rfl rfl).imp
      (fun _ h => h.imp (fun _ h => h.imp (fun _ h => h.imp (fun _ h =>
        ⟨h.1, h.2.1, h.2.2.1, h.2.2.2.2.2.1, h.2.2.2.2.2.2⟩))))⟩

/-! ## Projections -/

theorem flipY_eq_xor (rhi : Option QRhi) (rt : QQuickRenderTarget) :
    flipY rhi rt = xor (backendYDown rhi) (!rt.isNull && rt.mirrorVertically) := by
  obtain ⟨n, m⟩ := rt
  cases rhi with
  | none => cases n <;> cases m <;> rfl
  | some r => obtain ⟨y⟩ := r; cases y <;> cases n <;> cases m <;> rfl

theorem displayProjection_eq (flip : Bool) (v : WOutputViewport) :
    displayProjection flip v
      = (if flip then flippedOrtho v else unflippedOrtho v) * viewportMatrix v := by
  cases flip <;> simp [displayProjection, flippedOrtho, unflippedOrtho]

theorem nativeProjection_eq (flip : Bool) (v : WOutputViewport) :
    nativeProjection flip v = unflippedOrtho v * viewportMatrix v := by
  cases flip <;> simp [nativeProjection, unflippedOrtho]

theorem inverted_one : QMatrix4x4.inverted 1 = 1 := by
  simp [QMatrix4x4.inverted]

theorem map_ortho_origin (w b t : ℚ) (hw : w ≠ 0) (hbt : b ≠ t) :
    QMatrix4x4.map (QMatrix4x4.ortho 1 0 w b t 1 (-1)) 0 0 = (-1, -(t + b) / (t - b)) := by
  have h1 : ¬ ((0 : ℚ) = w ∨ b = t ∨ (1 : ℚ) = -1) := by
    rintro (h | h | h)
    · exact hw h.symm
    · exact hbt h
    · norm_num at h
  unfold QMatrix4x4.ortho QMatrix4x4.map
  rw [if_neg h1]
  simp [Matrix.mulVec, Matrix.dotProduct, Fin.sum_univ_four, Matrix.one_mul]
  field_simp

theorem map_flippedOrtho_origin (v : WOutputViewport) (hw : v.size.width ≠ 0)
    (hh : v.size.height ≠ 0) : QMatrix4x4.map (flippedOrtho v) 0 0 = (-1, -1) := by
  unfold flippedOrtho
  rw [map_ortho_origin _ _ _ hw (Ne.symm hh)]
  congr 1
  field_simp

theorem map_unflippedOrtho_origin (v : WOutputViewport) (hw : v.size.width ≠ 0)
    (hh : v.size.height ≠ 0) : QMatrix4x4.map (unflippedOrtho v) 0 0 = (-1, 1) := by
  unfold unflippedOrtho
  rw [map_ortho_origin _ _ _ hw hh]
  congr 1
  field_simp

theorem flipped_ne_unflipped (v : WOutputViewport) (hw : v.size.width ≠ 0)
    (hh : v.size.height ≠ 0) : flippedOrtho v ≠ unflippedOrtho v := by
  intro h
  have h1 := congrArg (fun m => QMatrix4x4.map m 0 0) h
  simp only [map_flippedOrtho_origin v hw hh, map_unflippedOrtho_origin v hw hh] at h1
  have h2 := congrArg Prod.snd h1
  norm_num at h2

theorem helperCalls_render (env : Backend) (rhi : Option QRhi) (h : OutputHelper) (dpr : ℚ)
    (hs : h.scaleWithin dpr = true) (id : Nat) (frame : RenderContextProxy)
    (hc : Call.render id frame ∈ helperCalls env rhi h) :
    ∃ out, h.m_output.output = some out ∧ h.id = id ∧ env.rendersFor h = true
      ∧ frame = frameParameters (flipY rhi (env.acquireRenderTarget h.id)) h.m_output out := by
  unfold OutputHelper.scaleWithin at hs
  cases hout : h.m_output.output with
  | none => simp [hout] at hs
  | some out =>
    refine ⟨out, rfl, ?_⟩
    unfold helperCalls at hc
    unfold Backend.rendersFor Backend.grants
    cases hn : h.needsRender <;> cases hA : (env.acquireRenderTarget h.id).isNull <;>
      cases hM : env.makeCurrent h.id <;> cases hC : env.commit h.id <;>
      simp [hn, hA, hM, hC, hout] at hc <;>
      exact ⟨hc.1.symm, by simp, hc.2⟩

theorem cycleCalls_render (env : Backend) (rhi : Option QRhi) (hs : List OutputHelper)
    (dpr : ℚ) (hw : ∀ h ∈ hs, h.scaleWithin dpr = true) (id : Nat)
    (frame : RenderContextProxy) (hc : Call.render id frame ∈ cycleCalls env rhi hs) :
    ∃ h ∈ hs, ∃ out, h.m_output.output = some out ∧ h.id = id ∧ env.rendersFor h = true
      ∧ frame = frameParameters (flipY rhi (env.acquireRenderTarget h.id)) h.m_output out := by
  unfold cycleCalls at hc
  rcases List.mem_append.mp hc with hp | hf
  · split at hp
    · simp at hp
    · cases hp
  · obtain ⟨h, hh, hch⟩ := List.mem_flatMap.mp hf
    exact ⟨h, hh, helperCalls_render env rhi h dpr (hw h hh) id frame hch⟩

/-- C8: the display projection is the vertically flipped orthographic form
exactly when (the clip space of the backend is Y-down) XOR (the render target
is set and asks for vertical mirroring), and the unflipped form otherwise,
each times the viewport matrix; the two forms differ whenever the viewport
has a width and a height, and toggling the mirror flag of the render target
switches the form.  In a render cycle every render call gets the projection
so selected from the mirror flag of the target acquired for its output. -/
theorem displayProjection_flipped_iff_xor :
    (∀ (rhi : Option QRhi) (rt : QQuickRenderTarget) (v : WOutputViewport),
      displayProjection (flipY rhi rt) v
        = (if xor (backendYDown rhi) (!rt.isNull && rt.mirrorVertically)
            then flippedOrtho v else unflippedOrtho v) * viewportMatrix v)
      ∧ (∀ (rhi : Option QRhi) (rt : QQuickRenderTarget), rt.isNull = false →
        flipY rhi { rt with mirrorVertically := !rt.mirrorVertically } = !flipY rhi rt)
      ∧ (∀ v : WOutputViewport, v.size.width ≠ 0 → v.size.height ≠ 0 →
        flippedOrtho v ≠ unflippedOrtho v)
      ∧ (∀ (d : WOutputRenderWindowPrivate) (env : Backend), d.RenderReady →
        ∃ d1 calls, d.doRender env = .ok (d1, calls)
          ∧ ∀ id frame, Call.render id frame ∈ calls →
            ∃ h ∈ d.outputs, h.id = id
              ∧ frame.projectionMatrix
                = (if xor (backendYDown d.rhi) (env.acquireRenderTarget id).mirrorVertically
                    then flippedOrtho h.m_output else unflippedOrtho h.m_output)
                  * viewportMatrix h.m_output) := by
  refine ⟨?_, ?_, flipped_ne_unflipped, ?_⟩
  · intro rhi rt v
    rw [displayProjection_eq, flipY_eq_xor]
  · intro rhi rt hn
    rw [flipY_eq_xor, flipY_eq_xor]
    simp only [hn]
    cases backendYDown rhi <;> cases rt.mirrorVertically <;> rfl
  · intro d env hv
    obtain ⟨d1, e, -⟩ := doRender_ok d env hv
    refine ⟨d1, _, e, ?_⟩
    intro id frame hc
    obtain ⟨h, hh, out, -, hid, hr, hf⟩ := cycleCalls_render env d.rhi d.outputs _ hv.2 id frame hc
    refine ⟨h, hh, hid, ?_⟩
    have hnn : (env.acquireRenderTarget h.id).isNull = false := by
      simp only [Backend.rendersFor, Backend.grants, Bool.and_eq_true, Bool.not_eq_true'] at hr
      exact hr.2.1
    rw [hf, ← hid]
    show displayProjection _ _ = _
    rw [displayProjection_eq, flipY_eq_xor, hnn]
    rfl

/-- C8, witnessed on the sample window and a viewport with a size. -/
theorem displayProjection_flipped_iff_xor_witness :
    sampleWindow.RenderReady
      ∧ flipY (some ⟨false⟩) ⟨false, true⟩ = !flipY (some ⟨false⟩) ⟨false, false⟩
      ∧ ∃ d1 calls, sampleWindow.doRender grantingBackend = .ok (d1, calls)
        ∧ ∀ id frame, Call.render id frame ∈ calls →
          ∃ h ∈ sampleWindow.outputs, h.id = id
            ∧ frame.projectionMatrix
              = (if xor (backendYDown sampleWindow.rhi)
                    (grantingBackend.acquireRenderTarget id).mirrorVertically
                  then flippedOrtho h.m_output else unflippedOrtho h.m_output)
                * viewportMatrix h.m_output :=
  ⟨by decide, displayProjection_flipped_iff_xor.2.1 (some ⟨false⟩) ⟨false, false⟩ rfl,
    displayProjection_flipped_iff_xor.2.2.2 sampleWindow grantingBackend (by decide)⟩

/-- C9: the native projection does not depend on the mirror flag nor on the
Y direction of the backend: for every viewport and in both branches of
`flipY` it is the unflipped orthographic matrix `ortho(0, w, h, 0, 1, -1)`
times the viewport matrix, the product of the inverted item matrix and the
inverted item-to-window transform of the parent; every render call of a cycle
is handed this matrix. -/
theorem nativeProjection_is_unflipped :
    (∀ (flip : Bool) (v : WOutputViewport),
      nativeProjection flip v
        = QMatrix4x4.ortho 1 0 v.size.width v.size.height 0 1 (-1)
          * (QMatrix4x4.inverted v.itemNodeMatrix
              * QMatrix4x4.inverted v.parentItemToWindowTransform))
      ∧ (∀ (rhi rhi1 : Option QRhi) (rt rt1 : QQuickRenderTarget) (v : WOutputViewport),
        nativeProjection (flipY rhi rt) v = nativeProjection (flipY rhi1 rt1) v)
      ∧ (∀ (d : WOutputRenderWindowPrivate) (env : Backend), d.RenderReady →
        ∃ d1 calls, d.doRender env = .ok (d1, calls)
          ∧ ∀ id frame, Call.render id frame ∈ calls →
            ∃ h ∈ d.outputs, h.id = id
              ∧ frame.projectionMatrixWithNativeNDC
                = unflippedOrtho h.m_output * viewportMatrix h.m_output) := by
  refine ⟨?_, ?_, ?_⟩
  · intro flip v
    rw [nativeProjection_eq]; rfl
  · intro rhi rhi1 rt rt1 v
    rw [nativeProjection_eq, nativeProjection_eq]
  · intro d env hv
    obtain ⟨d1, e, -⟩ := doRender_ok d env hv
    refine ⟨d1, _, e, ?_⟩
    intro id frame hc
    obtain ⟨h, hh, out, -, hid, -, hf⟩ := cycleCalls_render env d.rhi d.outputs _ hv.2 id frame hc
    refine ⟨h, hh, hid, ?_⟩
    rw [hf]
    show nativeProjection _ _ = _
    rw [nativeProjection_eq]

/-- C9, witnessed on the sample window. -/
theorem nativeProjection_is_unflipped_witness :
    sampleWindow.RenderReady
      ∧ ∃ d1 calls, sampleWindow.doRender grantingBackend = .ok (d1, calls)
        ∧ ∀ id frame, Call.render id frame ∈ calls →
          ∃ h ∈ sampleWindow.outputs, h.id = id
            ∧ frame.projectionMatrixWithNativeNDC
              = unflippedOrtho h.m_output * viewportMatrix h.m_output :=
  ⟨by decide, nativeProjection_is_unflipped.2.2 sampleWindow grantingBackend (by decide)⟩

/-- C10: for a viewport of width and height greater than zero, with identity
item and parent transforms and a render target that is set, the display
projection maps the scene origin to `(-1, 1)` when the unflipped form is
selected and to `(-1, -1)` when the flipped form is: without mirroring the
flipped form is selected exactly on a Y-down backend, and turning the mirror
flag on swaps the two images. -/
theorem displayProjection_maps_origin (rhi : Option QRhi) (rt : QQuickRenderTarget)
    (v : WOutputViewport) (hw : 0 < v.size.width) (hh : 0 < v.size.height)
    (hitem : v.itemNodeMatrix = 1) (hparent : v.parentItemToWindowTransform = 1)
    (hrt : rt.isNull = false) :
    QMatrix4x4.map (displayProjection (flipY rhi rt) v) 0 0
        = (-1, if flipY rhi rt then -1 else 1)
      ∧ (rt.mirrorVertically = false → flipY rhi rt = backendYDown rhi)
      ∧ QMatrix4x4.map
          (displayProjection (flipY rhi { rt with mirrorVertically := false }) v) 0 0
        = (-1, if backendYDown rhi then -1 else 1)
      ∧ QMatrix4x4.map
          (displayProjection (flipY rhi { rt with mirrorVertically := true }) v) 0 0
        = (-1, if backendYDown rhi then 1 else -1) := by
  have hvm : viewportMatrix v = 1 := by
    simp [viewportMatrix, hitem, hparent, inverted_one]
  have hmap : ∀ flip : Bool, QMatrix4x4.map (displayProjection flip v) 0 0
      = (-1, if flip then -1 else 1) := by
    intro flip
    rw [displayProjection_eq, hvm, Matrix.mul_one]
    cases flip
    · simpa using map_unflippedOrtho_origin v hw.ne' hh.ne'
    · simpa using map_flippedOrtho_origin v hw.ne' hh.ne'
  refine ⟨hmap _, ?_, ?_, ?_⟩
  · intro hm
    rw [flipY_eq_xor, hrt, hm]
    cases backendYDown rhi <;> rfl
  · rw [hmap, flipY_eq_xor]
    simp only [hrt]
    cases backendYDown rhi <;> rfl
  · rw [hmap, flipY_eq_xor]
    simp only [hrt]
    cases backendYDown rhi <;> rfl

/-- C10, witnessed on a viewport of 1920 by 1080 on a Y-down backend. -/
theorem displayProjection_maps_origin_witness :
    QMatrix4x4.map
        (displayProjection (flipY (some ⟨false⟩) ⟨false, false⟩)
          (sampleViewport 1 1 ⟨1920, 1080⟩)) 0 0
      = (-1, -1) :=
  (displayProjection_maps_origin (some ⟨false⟩) ⟨false, false⟩
    (sampleViewport 1 1 ⟨1920, 1080⟩) (by simp [sampleViewport]) (by simp [sampleViewport])
    rfl rfl rfl).1

/-! ## Updates are deferred -/

/-- C11: `update()` marks every attached output dirty and changes nothing
else about the helpers; beyond that it only posts one `doRender` event on an
initialized window (none before initialization): the members the render step
writes, the proxy and the render target, are untouched, so no part of the
cycle has run when the call returns.  A scene-change notification is this
call.  The cycle runs when the posted event is delivered, and then requests a
render target for every renderable and visible output. -/
theorem update_marks_dirty_and_defers :
    (∀ d : WOutputRenderWindowPrivate,
      (∀ h ∈ d.update.outputs, h.contentIsDirty = true)
        ∧ d.update.outputs = d.outputs.map (fun h => { h with contentIsDirty := true })
        ∧ d.update.postedEvents
            = d.postedEvents ++ (if d.isInitialized then [PostedEvent.doRender] else [])
        ∧ d.update.renderContextProxy = d.renderContextProxy
        ∧ d.update.customRenderTarget = d.customRenderTarget
        ∧ d.update.platformWindow = d.platformWindow
        ∧ d.update.rhi = d.rhi
        ∧ d.update.compositor = d.compositor
        ∧ d.sceneChanged = d.update)
      ∧ (∀ (d : WOutputRenderWindowPrivate) (env : Backend), d.RenderReady →
        ∃ d1 calls, d.update.event env PostedEvent.doRender = .ok (d1, some calls)
          ∧ calls.filterMap Call.acquired
              = (d.outputs.filter OutputHelper.eligible).map OutputHelper.id) := by
  constructor
  · intro d
    have ho : d.update.outputs = d.outputs.map OutputHelper.update :=
      (scheduleDoRender_fields _).1
    refine ⟨?_, ho, ?_, ?_, ?_, ?_, ?_, ?_, rfl⟩
    · intro h hh
      rw [ho] at hh
      obtain ⟨x, -, rfl⟩ := List.mem_map.mp hh
      rfl
    all_goals
      unfold WOutputRenderWindowPrivate.update WOutputRenderWindowPrivate.scheduleDoRender
      cases hi : d.renderContextProxy.isSome <;>
        simp [WOutputRenderWindowPrivate.isInitialized, hi]
  · intro d env hv
    obtain ⟨hv1, -⟩ := request_initialized d RenderRequest.update hv
    have hv2 : d.update.RenderReady := hv1
    obtain ⟨d1, e, -⟩ := doRender_ok d.update env hv2
    refine ⟨d1, cycleCalls env d.update.rhi d.update.outputs,
      by simp [WOutputRenderWindowPrivate.event, e], ?_⟩
    rw [cycleCalls_filterMap env d.update.rhi Call.acquired _ _ rfl
      (fun h hh => helperCalls_acquired env d.update.rhi h _ (hv2.2 h hh))]
    have ho : d.update.outputs = d.outputs.map OutputHelper.update :=
      (scheduleDoRender_fields _).1
    rw [ho, List.filter_map, List.map_map]
    have h1 : (OutputHelper.needsRender ∘ OutputHelper.update) = OutputHelper.eligible := by
      funext h
      simp [OutputHelper.needsRender, OutputHelper.update, OutputHelper.eligible]
    have h2 : (OutputHelper.id ∘ OutputHelper.update) = OutputHelper.id := by
      funext h; rfl
    rw [h1, h2]

/-- C11, witnessed on the sample window. -/
theorem update_marks_dirty_and_defers_witness :
    sampleWindow.RenderReady
      ∧ ∃ d1 calls, sampleWindow.update.event grantingBackend PostedEvent.doRender
            = .ok (d1, some calls)
          ∧ calls.filterMap Call.acquired
              = (sampleWindow.outputs.filter OutputHelper.eligible).map OutputHelper.id :=
  ⟨by decide, update_marks_dirty_and_defers.2 sampleWindow grantingBackend (by decide)⟩

/-! ## No render before initialization -/

theorem helperCalls_render_mem (env : Backend) (rhi : Option QRhi) (h : OutputHelper)
    (out : WOutput) (ho : h.m_output.output = some out) (hr : env.rendersFor h = true) :
    Call.render h.id (frameParameters (flipY rhi (env.acquireRenderTarget h.id)) h.m_output out)
      ∈ helperCalls env rhi h := by
  simp only [Backend.rendersFor, Backend.grants, Bool.and_eq_true, Bool.not_eq_true'] at hr
  obtain ⟨hn, hA, hM⟩ := hr
  unfold helperCalls
  simp [hn, hA, hM, ho]

theorem cycleCalls_render_mem (env : Backend) (rhi : Option QRhi) (hs : List OutputHelper)
    (h : OutputHelper) (hh : h ∈ hs) (out : WOutput) (ho : h.m_output.output = some out)
    (hr : env.rendersFor h = true) :
    Call.render h.id (frameParameters (flipY rhi (env.acquireRenderTarget h.id)) h.m_output out)
      ∈ cycleCalls env rhi hs := by
  unfold cycleCalls
  exact List.mem_append_right _
    (List.mem_flatMap.mpr ⟨h, hh, helperCalls_render_mem env rhi h out ho hr⟩)

theorem doRender_calls_eq (d d1 : WOutputRenderWindowPrivate) (env : Backend)
    (calls : List Call) (hv : d.RenderReady) (e : d.doRender env = .ok (d1, calls)) :
    calls = cycleCalls env d.rhi d.outputs := by
  obtain ⟨d2, e2, -⟩ := doRender_ok d env hv
  rw [e2] at e
  simp only [Except.ok.injEq, Prod.mk.injEq] at e
  exact e.2.symm

/-- C17: the five members the proxy hands to the renderer for an output are
all assigned, whatever the proxy held before, from the attributes of that
output, its viewport and its render target (and the Y direction of the
backend) before the render call is made.  Every render call of a cycle carries
exactly these parameters, so two cycles that differ in the prior contents of
the proxy, in the other outputs or in what was rendered before pass the same
parameters for the output. -/
theorem frame_parameters_from_own_attributes :
    (∀ (p p2 : RenderContextProxy) (flip : Bool) (v : WOutputViewport) (out : WOutput),
      p.assign flip v out = p2.assign flip v out
        ∧ (p.assign flip v out).dpr = v.devicePixelRatio
        ∧ (p.assign flip v out).deviceRect = QRect.atOrigin out.size
        ∧ (p.assign flip v out).viewportRect = QRect.atOrigin out.size
        ∧ (p.assign flip v out).projectionMatrix = displayProjection flip v
        ∧ (p.assign flip v out).projectionMatrixWithNativeNDC = nativeProjection flip v)
      ∧ (∀ (d : WOutputRenderWindowPrivate) (env : Backend), d.RenderReady →
        ∃ d1 calls, d.doRender env = .ok (d1, calls)
          ∧ (∀ id frame, Call.render id frame ∈ calls →
              ∃ h ∈ d.outputs, ∃ out, h.id = id ∧ h.m_output.output = some out
                ∧ env.rendersFor h = true
                ∧ frame = frameParameters (flipY d.rhi (env.acquireRenderTarget id))
                    h.m_output out)
          ∧ (∀ h ∈ d.outputs, ∀ out, h.m_output.output = some out →
              env.rendersFor h = true →
              Call.render h.id
                  (frameParameters (flipY d.rhi (env.acquireRenderTarget h.id)) h.m_output out)
                ∈ calls))
      ∧ (∀ (d d2 d1 d3 : WOutputRenderWindowPrivate) (env env2 : Backend)
          (calls calls2 : List Call) (h : OutputHelper) (frame frame2 : RenderContextProxy),
          d.RenderReady → d2.RenderReady → d.rhi = d2.rhi →
          h ∈ d.outputs → h ∈ d2.outputs →
          (d.outputs.map OutputHelper.id).Nodup → (d2.outputs.map OutputHelper.id).Nodup →
          env.acquireRenderTarget h.id = env2.acquireRenderTarget h.id →
          d.doRender env = .ok (d1, calls) → d2.doRender env2 = .ok (d3, calls2) →
          Call.render h.id frame ∈ calls → Call.render h.id frame2 ∈ calls2 →
          frame = frame2) := by
  refine ⟨fun p p2 flip v out => ⟨rfl, rfl, rfl, rfl, rfl, rfl⟩, ?_, ?_⟩
  · intro d env hv
    obtain ⟨d1, e, -⟩ := doRender_ok d env hv
    refine ⟨d1, _, e, ?_, ?_⟩
    · intro id frame hc
      obtain ⟨h, hh, out, ho, hid, hr, hf⟩ :=
        cycleCalls_render env d.rhi d.outputs _ hv.2 id frame hc
      exact ⟨h, hh, out, hid, ho, hr, by rw [hf, hid]⟩
    · intro h hh out ho hr
      exact cycleCalls_render_mem env d.rhi d.outputs h hh out ho hr
  · intro d d2 d1 d3 env env2 calls calls2 h frame frame2 hv hv2 hrhi hh hh2 hn hn2 hacq
      e e2 hc hc2
    rw [doRender_calls_eq d d1 env calls hv e] at hc
    rw [doRender_calls_eq d2 d3 env2 calls2 hv2 e2] at hc2
    obtain ⟨x, hx, out, ho, hid, -, hf⟩ :=
      cycleCalls_render env d.rhi d.outputs _ hv.2 h.id frame hc
    obtain ⟨y, hy, out2, ho2, hid2, -, hf2⟩ :=
      cycleCalls_render env2 d2.rhi d2.outputs _ hv2.2 h.id frame2 hc2
    have hxh : x = h := List.inj_on_of_nodup_map hn hx hh hid
    have hyh : y = h := List.inj_on_of_nodup_map hn2 hy hh2 hid2
    subst hxh
    subst hyh
    rw [ho] at ho2
    cases ho2
    rw [hf, hf2, hrhi, hacq]

/-- C17, witnessed: two cycles on the sample window, the second with another
proxy and with the first output kept from rendering. -/
theorem frame_parameters_from_own_attributes_witness :
    sampleWindow.RenderReady
      ∧ ∀ (d1 d3 : WOutputRenderWindowPrivate) (calls calls2 : List Call)
          (frame frame2 : RenderContextProxy),
          sampleWindow.doRender grantingBackend = .ok (d1, calls) →
          staleProxyWindow.doRender bindFailsBackend = .ok (d3, calls2) →
          Call.render 2 frame ∈ calls → Call.render 2 frame2 ∈ calls2 → frame = frame2 :=
  ⟨by decide, fun d1 d3 calls calls2 frame frame2 =>
    frame_parameters_from_own_attributes.2.2 sampleWindow staleProxyWindow d1 d3
      grantingBackend bindFailsBackend calls calls2
      (sampleHelper 2 2 ⟨3840, 2160⟩) frame frame2 (by decide) (by decide) rfl
      (by simp [sampleWindow]) (by simp [sampleWindow, staleProxyWindow]) (by decide)
      (by decide) rfl⟩

/-! ## Detaching the last output -/

/-- C18: recomputing the shared ratio with no output attached changes
nothing, and detaching the only attached output succeeds and leaves the window
as it was but for the emptied list: the shared scene ratio keeps the value it
had before the detach. -/
theorem detach_last_keeps_sceneDPR :
    (∀ d : WOutputRenderWindowPrivate, d.outputs = [] → d.updateSceneDPR = .ok d)
      ∧ (∀ (d d1 : WOutputRenderWindowPrivate) (output : WOutputViewport),
        d.detach output = .ok d1 → d1.outputs = [] →
        d1.platformWindow = d.platformWindow ∧ d1.devicePixelRatio = d.devicePixelRatio)
      ∧ (∀ (d : WOutputRenderWindowPrivate) (h : OutputHelper) (output : WOutputViewport),
        d.outputs = [h] → h.m_output.id = output.id →
        d.detach output = .ok { d with outputs := [] }) := by
  refine ⟨updateSceneDPR_nil, ?_, ?_⟩
  · intro d d1 output e hnil
    unfold WOutputRenderWindowPrivate.detach at e
    cases e1 : removeHelper output.id d.outputs with
    | none => simp [e1] at e
    | some r =>
      obtain ⟨found, rest⟩ := r
      simp only [e1] at e
      have ho : d1.outputs = rest := (updateSceneDPR_inv _ d1 e).1
      rw [ho] at hnil
      rw [updateSceneDPR_nil ({ d with outputs := rest }) hnil] at e
      cases e
      exact ⟨rfl, rfl⟩
  · intro d h output ho hid
    unfold WOutputRenderWindowPrivate.detach
    simp only [ho, removeHelper, hid, if_true]
    exact updateSceneDPR_nil _ rfl

/-- C18, witnessed: detaching the only output of a window whose ratio is
two. -/
theorem detach_last_keeps_sceneDPR_witness :
    ∃ d1, ({ sampleWindow with outputs := [sampleHelper 2 2 ⟨3840, 2160⟩] }
        : WOutputRenderWindowPrivate).detach (sampleViewport 2 2 ⟨3840, 2160⟩) = .ok d1
      ∧ d1.outputs = [] ∧ d1.platformWindow = some 2 :=
  ⟨_, detach_last_keeps_sceneDPR.2.2 _ (sampleHelper 2 2 ⟨3840, 2160⟩)
    (sampleViewport 2 2 ⟨3840, 2160⟩) rfl rfl, rfl, rfl⟩

/-! ## The assertions of attach and detach -/

theorem mem_ids_iff_any (hs : List OutputHelper) (output : Nat) :
    output ∈ hs.map OutputHelper.id ↔ hs.any (fun h => h.m_output.id = output) = true := by
  constructor
  · intro hmem
    by_contra hne
    exact not_mem_ids_of_any_false hs output (by simpa using hne) hmem
  · intro hany
    by_contra hne
    rw [any_false_of_not_mem_ids hs output hne] at hany
    cases hany

theorem attach_succeeds (d : WOutputRenderWindowPrivate) (output : WOutputViewport)
    (hc : d.Coherent) (hfresh : output.id ∉ d.outputs.map OutputHelper.id)
    (hout : output.output.isSome = true) : ∃ d1, d.attach output = .ok d1 := by
  cases hi : d.isInitialized with
  | true => exact ⟨_, attach_initialized d output hc hi hfresh hout⟩
  | false =>
    have hany := any_false_of_not_mem_ids d.outputs output.id hfresh
    have hnone : output.output.isNone = false := by
      cases ho : output.output with
      | none => rw [ho] at hout; cases hout
      | some _ => rfl
    have hi1 : ({ d with outputs := d.outputs ++ [OutputHelper.create output] }
        : WOutputRenderWindowPrivate).isInitialized = false := hi
    unfold WOutputRenderWindowPrivate.attach
    simp only [hany, hnone, hi1, Bool.false_eq_true, if_false, Bool.not_false, if_true]
    exact ⟨_, rfl⟩

theorem detach_assertion_of_not_attached (d : WOutputRenderWindowPrivate)
    (output : WOutputViewport) (h : output.id ∉ d.outputs.map OutputHelper.id) :
    d.detach output = .error Abort.assertion := by
  have hsome := removeHelper_isSome output.id d.outputs
  rw [any_false_of_not_mem_ids d.outputs output.id h] at hsome
  unfold WOutputRenderWindowPrivate.detach
  cases e1 : removeHelper output.id d.outputs with
  | none => rfl
  | some r => rw [e1] at hsome; cases hsome

theorem detach_succeeds_of_platformWindow (d : WOutputRenderWindowPrivate)
    (output : WOutputViewport) (hc : d.Coherent) (hp : d.platformWindow.isSome = true)
    (hmem : output.id ∈ d.outputs.map OutputHelper.id) :
    ∃ d1, d.detach output = .ok d1 := by
  have hsome := removeHelper_isSome output.id d.outputs
  rw [(mem_ids_iff_any d.outputs output.id).mp hmem] at hsome
  obtain ⟨⟨found, rest⟩, e1⟩ := Option.isSome_iff_exists.mp hsome
  obtain ⟨hsub, -, -⟩ := removeHelper_some output.id d.outputs rest found e1
  unfold WOutputRenderWindowPrivate.detach
  simp only [e1]
  by_cases hnil : rest = []
  · exact ⟨_, updateSceneDPR_nil _ hnil⟩
  · exact ⟨_, updateSceneDPR_ok ({ d with outputs := rest }) hnil hp
      (fun h hh => hc.hasOutput h (hsub.subset hh))⟩

theorem maxDPRLoop_error :
    ∀ (hs : List OutputHelper) (m : ℚ) (e : Abort), maxDPRLoop hs m = .error e →
      e = Abort.nullPointer := by
  intro hs
  induction hs with
  | nil => intro m e h; simp [maxDPRLoop] at h
  | cons o os ih =>
    intro m e h
    unfold maxDPRLoop at h
    cases ho : o.m_output.output with
    | none =>
      simp only [ho, Except.error.injEq] at h
      exact h.symm
    | some out =>
      simp only [ho] at h
      exact ih _ e h

theorem updateSceneDPR_error (d : WOutputRenderWindowPrivate) (e : Abort)
    (h : d.updateSceneDPR = .error e) : e = Abort.nullPointer := by
  unfold WOutputRenderWindowPrivate.updateSceneDPR at h
  split at h
  · cases h
  · cases hm : maxDPRLoop d.outputs 0 with
    | error x =>
      simp only [hm, Except.error.injEq] at h
      subst h
      exact maxDPRLoop_error _ _ _ hm
    | ok r =>
      simp only [hm] at h
      unfold WOutputRenderWindowPrivate.setSceneDevicePixelRatio at h
      cases hp : d.platformWindow with
      | none =>
        simp only [hp, Except.error.injEq] at h
        exact h.symm
      | some w => simp [hp] at h

theorem attach_assertion_iff_violation (d : WOutputRenderWindowPrivate)
    (output : WOutputViewport) :
    d.attach output = .error Abort.assertion
      ↔ (output.id ∈ d.outputs.map OutputHelper.id ∨ output.output = none) := by
  constructor
  · intro e
    by_contra hne
    push_neg at hne
    have hany := any_false_of_not_mem_ids d.outputs output.id hne.1
    have hnone : output.output.isNone = false := by
      cases ho : output.output with
      | none => exact absurd ho hne.2
      | some _ => rfl
    unfold WOutputRenderWindowPrivate.attach at e
    simp only [hany, hnone, Bool.false_eq_true, if_false] at e
    split at e
    · cases e
    · split at e
      · rename_i x hx
        simp only [Except.error.injEq] at e
        subst e
        have := updateSceneDPR_error _ _ hx
        cases this
      · cases e
  · intro h
    unfold WOutputRenderWindowPrivate.attach
    rcases h with h | h
    · rw [(mem_ids_iff_any d.outputs output.id).mp h]
      rfl
    · cases hany : d.outputs.any (fun h => decide (h.m_output.id = output.id)) with
      | true => rfl
      | false => simp [h]

theorem detach_assertion_iff_not_attached (d : WOutputRenderWindowPrivate)
    (output : WOutputViewport) :
    d.detach output = .error Abort.assertion
      ↔ output.id ∉ d.outputs.map OutputHelper.id := by
  constructor
  · intro e hmem
    have hsome := removeHelper_isSome output.id d.outputs
    rw [(mem_ids_iff_any d.outputs output.id).mp hmem] at hsome
    obtain ⟨⟨found, rest⟩, e1⟩ := Option.isSome_iff_exists.mp hsome
    unfold WOutputRenderWindowPrivate.detach at e
    simp only [e1] at e
    have := updateSceneDPR_error _ _ e
    cases this
  · exact detach_assertion_of_not_attached d output

/-- C12: `attach` ends in a failed assertion exactly when the viewport is
already attached or has no output, and `detach` ends in a failed assertion
exactly when the viewport is not attached, on every window; in those cases
neither call returns. Outside them `attach` succeeds on every reachable
window, and `detach` succeeds on every reachable window that has its platform
window. -/
theorem attach_detach_assertions :
    (∀ (d : WOutputRenderWindowPrivate) (output : WOutputViewport),
      (d.attach output = .error Abort.assertion
          ↔ (output.id ∈ d.outputs.map OutputHelper.id ∨ output.output = none))
        ∧ (d.detach output = .error Abort.assertion
          ↔ output.id ∉ d.outputs.map OutputHelper.id))
      ∧ (∀ (d d1 : WOutputRenderWindowPrivate) (output : WOutputViewport),
        (output.id ∈ d.outputs.map OutputHelper.id ∨ output.output = none) →
        d.attach output ≠ .ok d1)
      ∧ (∀ (d d1 : WOutputRenderWindowPrivate) (output : WOutputViewport),
        output.id ∉ d.outputs.map OutputHelper.id → d.detach output ≠ .ok d1)
      ∧ (∀ (d : WOutputRenderWindowPrivate) (output : WOutputViewport), Reachable d →
        output.id ∉ d.outputs.map OutputHelper.id → output.output.isSome = true →
        ∃ d1, d.attach output = .ok d1)
      ∧ (∀ (d : WOutputRenderWindowPrivate) (output : WOutputViewport), Reachable d →
        output.id ∈ d.outputs.map OutputHelper.id → d.platformWindow.isSome = true →
        ∃ d1, d.detach output = .ok d1) := by
  refine ⟨fun d output => ⟨attach_assertion_iff_violation d output,
    detach_assertion_iff_not_attached d output⟩, ?_, ?_, ?_, ?_⟩
  · intro d d1 output h e
    rw [(attach_assertion_iff_violation d output).mpr h] at e
    cases e
  · intro d d1 output h e
    rw [(detach_assertion_iff_not_attached d output).mpr h] at e
    cases e
  · intro d output hr
    exact attach_succeeds d output hr.coherent
  · intro d output hr hmem hp
    exact detach_succeeds_of_platformWindow d output hr.coherent hp hmem

/-- C12, witnessed on the initialized sample window without outputs: attach
of viewport 1 succeeds, detach of it, not attached, ends in a failed
assertion and does not return; once attached, a second attach ends in a
failed assertion and detach succeeds. -/
theorem attach_detach_assertions_witness :
    Reachable emptyWindow
      ∧ (∃ d1, emptyWindow.attach (sampleViewport 1 1 ⟨1920, 1080⟩) = .ok d1)
      ∧ emptyWindow.detach (sampleViewport 1 1 ⟨1920, 1080⟩) = .error Abort.assertion
      ∧ (∀ d1, emptyWindow.detach (sampleViewport 1 1 ⟨1920, 1080⟩) ≠ .ok d1)
      ∧ sampleWindow.attach (sampleViewport 1 1 ⟨1920, 1080⟩) = .error Abort.assertion :=
  ⟨emptyWindow_reachable,
    attach_detach_assertions.2.2.2.1 emptyWindow (sampleViewport 1 1 ⟨1920, 1080⟩)
      emptyWindow_reachable (by simp [emptyWindow]) rfl,
    (attach_detach_assertions.1 emptyWindow (sampleViewport 1 1 ⟨1920, 1080⟩)).2.mpr
      (by simp [emptyWindow]),
    fun d1 => attach_detach_assertions.2.2.1 emptyWindow d1
      (sampleViewport 1 1 ⟨1920, 1080⟩) (by simp [emptyWindow]),
    (attach_detach_assertions.1 sampleWindow (sampleViewport 1 1 ⟨1920, 1080⟩)).1.mpr
      (Or.inl (by simp [sampleWindow, sampleHelper, sampleViewport, OutputHelper.id]))⟩

/-- Before initialization `detach` of an attached viewport does not get to
its end while another output stays attached: with viewports 1 and 2 attached
to the window as constructed, `detach` of viewport 1 passes its assertion,
takes the helper out and then dereferences the null platform window in
`updateSceneDPR`, which `attach` guards with `isInitialized()` and `detach`
does not. -/
theorem detach_before_init_null_platformWindow :
    ∃ d1 d2,
      WOutputRenderWindowPrivate.construct.attach (sampleViewport 1 1 ⟨1920, 1080⟩) = .ok d1
        ∧ d1.attach (sampleViewport 2 2 ⟨3840, 2160⟩) = .ok d2
        ∧ Reachable d2
        ∧ (sampleViewport 1 1 ⟨1920, 1080⟩).id ∈ d2.outputs.map OutputHelper.id
        ∧ d2.detach (sampleViewport 1 1 ⟨1920, 1080⟩) = .error Abort.nullPointer := by
  have e1 : WOutputRenderWindowPrivate.construct.attach (sampleViewport 1 1 ⟨1920, 1080⟩)
      = .ok { WOutputRenderWindowPrivate.construct with
              outputs := [OutputHelper.create (sampleViewport 1 1 ⟨1920, 1080⟩)] } := by
    rfl
  have e2 : ({ WOutputRenderWindowPrivate.construct with
        outputs := [OutputHelper.create (sampleViewport 1 1 ⟨1920, 1080⟩)] }
        : WOutputRenderWindowPrivate).attach (sampleViewport 2 2 ⟨3840, 2160⟩)
      = .ok { WOutputRenderWindowPrivate.construct with
              outputs := [OutputHelper.create (sampleViewport 1 1 ⟨1920, 1080⟩),
                OutputHelper.create (sampleViewport 2 2 ⟨3840, 2160⟩)] } := by
    rfl
  refine ⟨_, _, e1, e2, ?_, ?_, ?_⟩
  · exact Reachable.attach _ _ _ (Reachable.attach _ _ _ Reachable.construct e1) e2
  · simp [OutputHelper.id, OutputHelper.create, sampleViewport]
  · rfl

/-! ## The helper list follows the calls of attach and detach -/

theorem removeHelper_viewports (output : Nat) :
    ∀ (hs rest : List OutputHelper) (found : OutputHelper),
      removeHelper output hs = some (found, rest) →
      rest.map OutputHelper.m_output
        = (hs.map OutputHelper.m_output).eraseP (fun v => decide (v.id = output)) := by
  intro hs
  induction hs with
  | nil => intro rest found e; simp [removeHelper] at e
  | cons h tl ih =>
    intro rest found e
    unfold removeHelper at e
    by_cases hid : h.m_output.id = output
    · simp only [hid, if_true, Option.some.injEq, Prod.mk.injEq] at e
      obtain ⟨-, rfl⟩ := e
      simp [List.eraseP_cons, hid]
    · simp only [hid, if_false] at e
      cases e1 : removeHelper output tl with
      | none => simp [e1] at e
      | some r =>
        obtain ⟨f1, r1⟩ := r
        simp only [e1, Option.some.injEq, Prod.mk.injEq] at e
        obtain ⟨-, rfl⟩ := e
        simp [List.eraseP_cons, hid, ih r1 f1 e1]

theorem attach_viewports (d d1 : WOutputRenderWindowPrivate) (output : WOutputViewport)
    (e : d.attach output = .ok d1) :
    d1.outputs.map OutputHelper.m_output = d.outputs.map OutputHelper.m_output ++ [output] := by
  obtain ⟨-, -, hcase⟩ := attach_cases d d1 output e
  rcases hcase with ⟨-, rfl⟩ | ⟨-, d2, e2, rfl⟩
  · simp [OutputHelper.create]
  · rw [(scheduleDoRender_fields _).1]
    show (d2.outputs.map _).map _ = _
    rw [(updateSceneDPR_inv _ d2 e2).1, List.map_map]
    have hf : (OutputHelper.m_output ∘ fun h : OutputHelper =>
        if h.id = output.id then h.init else h) = OutputHelper.m_output := by
      funext h
      show (if h.id = output.id then h.init else h).m_output = h.m_output
      split <;> rfl
    rw [hf]
    simp [OutputHelper.create]

theorem detach_viewports (d d1 : WOutputRenderWindowPrivate) (output : WOutputViewport)
    (e : d.detach output = .ok d1) :
    d1.outputs.map OutputHelper.m_output
      = (d.outputs.map OutputHelper.m_output).eraseP (fun v => decide (v.id = output.id)) := by
  unfold WOutputRenderWindowPrivate.detach at e
  cases e1 : removeHelper output.id d.outputs with
  | none => simp [e1] at e
  | some r =>
    obtain ⟨found, rest⟩ := r
    simp only [e1] at e
    rw [(updateSceneDPR_inv _ d1 e).1]
    exact removeHelper_viewports output.id d.outputs rest found e1

theorem applyOps_viewports :
    ∀ (ops : List WindowOp) (d d1 : WOutputRenderWindowPrivate), Reachable d →
      d.applyOps ops = .ok d1 →
      Reachable d1
        ∧ d1.outputs.map OutputHelper.m_output
            = attachedAfter ops (d.outputs.map OutputHelper.m_output) := by
  intro ops
  induction ops with
  | nil =>
    intro d d1 hr e
    simp only [WOutputRenderWindowPrivate.applyOps, Except.ok.injEq] at e
    subst e
    exact ⟨hr, rfl⟩
  | cons op rest ih =>
    intro d d1 hr e
    cases e1 : d.apply op with
    | error x => simp [WOutputRenderWindowPrivate.applyOps, e1] at e
    | ok d2 =>
      simp only [WOutputRenderWindowPrivate.applyOps, e1] at e
      cases op with
      | attach output =>
        obtain ⟨hr1, hv⟩ := ih d2 d1 (Reachable.attach d d2 output hr e1) e
        exact ⟨hr1, by rw [hv, attach_viewports d d2 output e1]; rfl⟩
      | detach output =>
        obtain ⟨hr1, hv⟩ := ih d2 d1 (Reachable.detach d d2 output hr e1) e
        exact ⟨hr1, by rw [hv, detach_viewports d d2 output e1]; rfl⟩

theorem applyOps_valid_succeeds :
    ∀ (ops : List WindowOp) (d : WOutputRenderWindowPrivate), Reachable d →
      d.isInitialized = true → validOps ops (d.outputs.map OutputHelper.m_output) = true →
      ∃ d1, d.applyOps ops = .ok d1 := by
  intro ops
  induction ops with
  | nil => intro d _ _ _; exact ⟨d, rfl⟩
  | cons op rest ih =>
    intro d hr hi hv
    have hids : (d.outputs.map OutputHelper.m_output).map WOutputViewport.id
        = d.outputs.map OutputHelper.id := by
      rw [List.map_map]; rfl
    cases op with
    | attach output =>
      simp only [validOps, Bool.and_eq_true, decide_eq_true_eq, hids] at hv
      obtain ⟨⟨hfresh, hout⟩, hrest⟩ := hv
      obtain ⟨d2, e2, -, -, hi2⟩ := attach_initialized_fields d output hr.coherent hi hfresh hout
      obtain ⟨d1, e1⟩ := ih d2 (Reachable.attach d d2 output hr e2) hi2
        (by rw [attach_viewports d d2 output e2]; exact hrest)
      exact ⟨d1, by simp [WOutputRenderWindowPrivate.applyOps,
        WOutputRenderWindowPrivate.apply, e2, e1]⟩
    | detach output =>
      simp only [validOps, Bool.and_eq_true, decide_eq_true_eq, hids] at hv
      obtain ⟨hmem, hrest⟩ := hv
      obtain ⟨d2, e2⟩ := detach_succeeds d output hr.coherent hi hmem
      have hi2 : d2.isInitialized = true := by
        have e3 := e2
        unfold WOutputRenderWindowPrivate.detach at e3
        cases e4 : removeHelper output.id d.outputs with
        | none => simp [e4] at e3
        | some r =>
          obtain ⟨found, rest1⟩ := r
          simp only [e4] at e3
          have := (updateSceneDPR_inv _ d2 e3).2.1
          unfold WOutputRenderWindowPrivate.isInitialized at hi ⊢
          rw [this]
          exact hi
      obtain ⟨d1, e1⟩ := ih d2 (Reachable.detach d d2 output hr e2) hi2
        (by rw [detach_viewports d d2 output e2]; exact hrest)
      exact ⟨d1, by simp [WOutputRenderWindowPrivate.applyOps,
        WOutputRenderWindowPrivate.apply, e2, e1]⟩

/-- C13: after every sequence of calls of `attach` and `detach` that all
succeed, made on a reachable window, the helper list holds one helper for
each attached viewport and no other, without duplicates, in the order of
attachment: `attach` puts the helper of the viewport at the end, `detach`
takes out the helper of that viewport alone and keeps the order of the rest.
The render cycle goes through the helpers in that order: the render targets
it requests are those of the renderable, visible, dirty helpers, in list
order. On an initialized window every sequence of valid calls runs to its
end. -/
theorem helpers_follow_attach_order :
    (∀ (d d1 : WOutputRenderWindowPrivate) (output : WOutputViewport),
      d.attach output = .ok d1 →
      d1.outputs.map OutputHelper.m_output = d.outputs.map OutputHelper.m_output ++ [output])
      ∧ (∀ (d d1 : WOutputRenderWindowPrivate) (output : WOutputViewport),
        d.detach output = .ok d1 →
        d1.outputs.map OutputHelper.m_output
            = (d.outputs.map OutputHelper.m_output).eraseP
                (fun v => decide (v.id = output.id))
          ∧ d1.outputs.Sublist d.outputs)
      ∧ (∀ (ops : List WindowOp) (d d1 : WOutputRenderWindowPrivate), Reachable d →
        d.applyOps ops = .ok d1 →
        d1.outputs.map OutputHelper.m_output
            = attachedAfter ops (d.outputs.map OutputHelper.m_output)
          ∧ (d1.outputs.map OutputHelper.id).Nodup
          ∧ (d1.isInitialized = true → ∀ env : Backend,
              ∃ d2 calls, d1.doRender env = .ok (d2, calls)
                ∧ calls.filterMap Call.acquired
                    = (d1.outputs.filter OutputHelper.needsRender).map OutputHelper.id
                ∧ (calls.filterMap Call.acquired).Sublist
                    (d1.outputs.map OutputHelper.id)))
      ∧ (∀ (ops : List WindowOp) (d : WOutputRenderWindowPrivate), Reachable d →
        d.isInitialized = true →
        validOps ops (d.outputs.map OutputHelper.m_output) = true →
        ∃ d1, d.applyOps ops = .ok d1) := by
  refine ⟨attach_viewports, ?_, ?_, applyOps_valid_succeeds⟩
  · intro d d1 output e
    refine ⟨detach_viewports d d1 output e, ?_⟩
    unfold WOutputRenderWindowPrivate.detach at e
    cases e1 : removeHelper output.id d.outputs with
    | none => simp [e1] at e
    | some r =>
      obtain ⟨found, rest⟩ := r
      simp only [e1] at e
      rw [(updateSceneDPR_inv _ d1 e).1]
      exact (removeHelper_some output.id d.outputs rest found e1).1
  · intro ops d d1 hr e
    obtain ⟨hr1, hv⟩ := applyOps_viewports ops d d1 hr e
    refine ⟨hv, hr1.coherent.distinct, ?_⟩
    intro hi env
    have hrr := hr1.renderReady hi
    obtain ⟨d2, e2, -⟩ := doRender_ok d1 env hrr
    have hacq := cycleCalls_filterMap env d1.rhi Call.acquired _ _ rfl
      (fun h hh => helperCalls_acquired env d1.rhi h _ (hrr.2 h hh))
    refine ⟨d2, _, e2, hacq, ?_⟩
    rw [hacq]
    exact (List.filter_sublist _).map _

/-- C13, witnessed: attach viewports 1 and 2 to the initialized sample window
and detach viewport 1. -/
theorem helpers_follow_attach_order_witness :
    Reachable emptyWindow
      ∧ ∃ d1, emptyWindow.applyOps
            [WindowOp.attach (sampleViewport 1 1 ⟨1920, 1080⟩),
              WindowOp.attach (sampleViewport 2 2 ⟨3840, 2160⟩),
              WindowOp.detach (sampleViewport 1 1 ⟨1920, 1080⟩)] = .ok d1
          ∧ d1.outputs.map OutputHelper.id = [2] := by
  refine ⟨emptyWindow_reachable, _, rfl, ?_⟩
  have h := (helpers_follow_attach_order.2.2.1
    [WindowOp.attach (sampleViewport 1 1 ⟨1920, 1080⟩),
      WindowOp.attach (sampleViewport 2 2 ⟨3840, 2160⟩),
      WindowOp.detach (sampleViewport 1 1 ⟨1920, 1080⟩)] emptyWindow _
    emptyWindow_reachable rfl).1
  have h2 := congrArg (List.map WOutputViewport.id) h
  rw [List.map_map] at h2
  exact h2.trans (by simp [attachedAfter, emptyWindow, sampleViewport, List.eraseP_cons])

/-! ## The texture wrapper: which routine is selected, and when -/

theorem WTexturePrivate.call_fields (build : TextureBuild) (d d1 : WTexturePrivate)
    (r : Routine) (e : d.call build r = .ok d1) :
    d1.type = d.type ∧ d1.onWlrTextureChanged = d.onWlrTextureChanged
      ∧ d1.handle = d.handle ∧ d1.window = d.window
      ∧ (d.texture.isSome = true → d1.texture.isSome = true) := by
  obtain ⟨handle, type, texture, routine, window⟩ := d
  cases r <;> cases window <;> rcases handle with _ | ⟨w, h, _ | _ | _ | _⟩ <;>
    cases texture <;>
    simp [WTexturePrivate.call, WTexturePrivate.updateGLTexture,
      WTexturePrivate.updateVKTexture, WTexturePrivate.updateImage,
      wlr_gles2_texture_get_attribs, wlr_vk_texture_get_image_attribs,
      wlr_vk_texture_has_alpha, wlr_pixman_texture_get_image] at e <;>
    subst e <;> simp

theorem WTexturePrivate.call_reads (build : TextureBuild) (d : WTexturePrivate) (b : QWTexture)
    (r : Routine) (hh : d.handle = some b) (hr : d.onWlrTextureChanged = some r)
    (hb : d.reads b = true) (ht : d.texture.isSome = true) :
    ∃ d1, d.call build r = .ok d1 := by
  obtain ⟨t, ht1⟩ := Option.isSome_iff_exists.mp ht
  obtain ⟨width, height, impl⟩ := b
  cases r with
  | updateGLTexture =>
    cases impl <;>
      simp [WTexturePrivate.reads, hr, wlr_texture_is_gles2] at hb
    cases hw : d.window <;>
      simp [WTexturePrivate.call, WTexturePrivate.updateGLTexture, hw, hh, ht1,
        wlr_gles2_texture_get_attribs]
  | updateVKTexture =>
    cases impl <;>
      simp [WTexturePrivate.reads, hr, wlr_texture_is_vk] at hb
    cases hw : d.window <;>
      simp [WTexturePrivate.call, WTexturePrivate.updateVKTexture, hw, hh, ht1,
        wlr_vk_texture_get_image_attribs, wlr_vk_texture_has_alpha]
  | updateImage =>
    cases impl <;>
      simp [WTexturePrivate.reads, hr, wlr_texture_is_pixman] at hb
    simp [WTexturePrivate.call, WTexturePrivate.updateImage, hh, ht1,
      wlr_pixman_texture_get_image]

theorem setHandle_bound_fields (build : TextureBuild) (d d1 : WTexturePrivate)
    (x : Option QWTexture) (hx : d.handle ≠ none ∨ x = none)
    (e : WTexture.setHandle build d x = .ok d1) :
    d1.type = d.type ∧ d1.onWlrTextureChanged = d.onWlrTextureChanged
      ∧ d1.handle = x ∧ d1.window = d.window
      ∧ (d.texture.isSome = true → d1.texture.isSome = true) := by
  obtain ⟨handle, type, texture, routine, window⟩ := d
  cases x with
  | none =>
    simp only [WTexture.setHandle, Except.ok.injEq] at e
    subst e
    exact ⟨rfl, rfl, rfl, rfl, id⟩
  | some b =>
    cases handle with
    | none => simp at hx
    | some old =>
      cases routine with
      | none =>
        simp only [WTexture.setHandle, Option.isNone_some, Bool.false_eq_true, if_false,
          Except.ok.injEq] at e
        subst e
        exact ⟨rfl, rfl, rfl, rfl, id⟩
      | some r =>
        simp only [WTexture.setHandle, Option.isNone_some, Bool.false_eq_true,
          if_false] at e
        exact WTexturePrivate.call_fields build _ d1 r e

theorem setHandles_bound_fields (build : TextureBuild) :
    ∀ (handles : List (Option QWTexture)) (d d1 : WTexturePrivate), d.handle ≠ none →
      (∀ x ∈ handles, x ≠ none) → WTexture.setHandles build handles d = .ok d1 →
      d1.type = d.type ∧ d1.onWlrTextureChanged = d.onWlrTextureChanged
        ∧ d1.handle ≠ none := by
  intro handles
  induction handles with
  | nil =>
    intro d d1 hd _ e
    simp only [WTexture.setHandles, Except.ok.injEq] at e
    subst e
    exact ⟨rfl, rfl, hd⟩
  | cons x rest ih =>
    intro d d1 hd hx e
    cases e1 : WTexture.setHandle build d x with
    | error a => simp [WTexture.setHandles, e1] at e
    | ok d2 =>
      simp only [WTexture.setHandles, e1] at e
      obtain ⟨h1, h2, h3, -, -⟩ := setHandle_bound_fields build d d2 x (Or.inl hd) e1
      have hx0 : x ≠ none := hx x (List.mem_cons_self _ _)
      obtain ⟨k1, k2, k3⟩ := ih d2 d1 (by rw [h3]; exact hx0)
        (fun y hy => hx y (List.mem_cons_of_mem _ hy)) e
      exact ⟨k1.trans h1, k2.trans h2, k3⟩

theorem setHandle_reads_succeeds (build : TextureBuild) (d : WTexturePrivate) (b : QWTexture)
    (hi : d.Initialized) (hd : d.handle ≠ none) (hb : d.reads b = true) :
    ∃ d2, WTexture.setHandle build d (some b) = .ok d2 := by
  obtain ⟨handle, type, texture, routine, window⟩ := d
  cases handle with
  | none => exact absurd rfl hd
  | some old =>
    cases routine with
    | none => exact ⟨_, rfl⟩
    | some r =>
      simp only [WTexture.setHandle, Option.isNone_some, Bool.false_eq_true, if_false]
      exact WTexturePrivate.call_reads build _ b r rfl rfl hb (hi rfl)

theorem setHandles_reads_succeeds (build : TextureBuild) :
    ∀ (handles : List (Option QWTexture)) (d : WTexturePrivate), d.Initialized →
      d.handle ≠ none → (∀ x ∈ handles, ∃ b, x = some b ∧ d.reads b = true) →
      ∃ d1, WTexture.setHandles build handles d = .ok d1 := by
  intro handles
  induction handles with
  | nil => intro d _ _ _; exact ⟨d, rfl⟩
  | cons x rest ih =>
    intro d hi hd hx
    obtain ⟨b, rfl, hb⟩ := hx x (List.mem_cons_self _ _)
    obtain ⟨d2, e2⟩ := setHandle_reads_succeeds build d b hi hd hb
    obtain ⟨h1, h2, h3, -, h5⟩ := setHandle_bound_fields build d d2 (some b) (Or.inl hd) e2
    have hi2 : d2.Initialized := fun h => h5 (hi (by rw [← h2]; exact h))
    obtain ⟨d1, e1⟩ := ih d2 hi2 (by rw [h3]; simp)
      (fun y hy => by
        obtain ⟨c, hc, hcr⟩ := hx y (List.mem_cons_of_mem _ hy)
        exact ⟨c, hc, by simpa [WTexturePrivate.reads, h2] using hcr⟩)
    exact ⟨d1, by simp [WTexture.setHandles, e2, e1]⟩

theorem init_texture (build : TextureBuild) (d : WTexturePrivate) (b : QWTexture) :
    (d.init build b).texture = some (QSGPlainTexture.new.setOwnsTexture false)
      ∧ (d.init build b).handle = d.handle ∧ (d.init build b).window = d.window := by
  unfold WTexturePrivate.init
  simp only []
  split_ifs <;> exact ⟨rfl, rfl, rfl⟩

theorem setHandle_unbound_eq (build : TextureBuild) (d : WTexturePrivate) (b : QWTexture)
    (r : Routine) (hd : d.handle = none)
    (hr : (d.init build b).onWlrTextureChanged = some r) :
    WTexture.setHandle build d (some b)
      = WTexturePrivate.call build { d.init build b with handle := some b } r := by
  simp only [WTexture.setHandle, hd, Option.isNone_none, if_true]
  generalize d.init build b = d0 at hr ⊢
  obtain ⟨handle, type, texture, routine, window⟩ := d0
  cases hr
  rfl

theorem setHandle_unbound_init (build : TextureBuild) (d : WTexturePrivate) (b : QWTexture)
    (r : Routine) (hd : d.handle = none)
    (hr : (d.init build b).onWlrTextureChanged = some r)
    (hb : (d.init build b).reads b = true) :
    ∃ d1, WTexture.setHandle build d (some b) = .ok d1
      ∧ d1.type = (d.init build b).type ∧ d1.onWlrTextureChanged = some r := by
  have ht : (d.init build b).texture.isSome = true := by
    rw [(init_texture build d b).1]; rfl
  obtain ⟨d1, e1⟩ := WTexturePrivate.call_reads build
    { d.init build b with handle := some b } b r rfl hr
    (by simpa [WTexturePrivate.reads] using hb) ht
  obtain ⟨h1, h2, -, -, -⟩ := WTexturePrivate.call_fields build _ d1 r e1
  exact ⟨d1, (setHandle_unbound_eq build d b r hd hr).trans e1, h1, h2.trans hr⟩

/-- C14, as the specification words it, fails: a wrapper made without a
buffer is given a GL buffer, which selects the GL routine and the type
`GLTexture`; after `setHandle(nullptr)` and `setHandle` with a pixman buffer
the routine is the image routine and the type is `Image`. -/
theorem routine_reselected_after_unbind :
    ∃ d1 d3, WTexture.setHandle sampleBuild emptyTexture (some sampleGLBuffer) = .ok d1
      ∧ WTexture.setHandles sampleBuild [none, some samplePixmanBuffer] d1 = .ok d3
      ∧ WTexture.type d1 = .GLTexture
      ∧ d1.onWlrTextureChanged = some .updateGLTexture
      ∧ WTexture.type d3 = .Image
      ∧ d3.onWlrTextureChanged = some .updateImage := by
  refine ⟨_, _, rfl, rfl, rfl, rfl, rfl, rfl⟩

/-- C14, amended: the routine and the type are selected at every `setHandle`
with a buffer that finds no buffer bound, from the kind of that buffer (GL,
pixman, and Vulkan in a build with Vulkan), and that call succeeds; every
other call of `setHandle`, one that finds a buffer bound or one with
`nullptr`, leaves the routine and the type as they were. So they stay what
was selected over every sequence of calls with buffers, and such a sequence
runs to its end when the selected routine can read each buffer. -/
theorem routine_selected_at_bind_from_unbound (build : TextureBuild) :
    (∀ (d : WTexturePrivate) (b : QWTexture), d.handle = none →
        (wlr_texture_is_gles2 b = true →
          ∃ d1, WTexture.setHandle build d (some b) = .ok d1
            ∧ WTexture.type d1 = .GLTexture
            ∧ d1.onWlrTextureChanged = some .updateGLTexture)
        ∧ (wlr_texture_is_pixman b = true →
          ∃ d1, WTexture.setHandle build d (some b) = .ok d1
            ∧ WTexture.type d1 = .Image
            ∧ d1.onWlrTextureChanged = some .updateImage)
        ∧ (wlr_texture_is_vk b = true → build.vulkanRender = true →
          ∃ d1, WTexture.setHandle build d (some b) = .ok d1
            ∧ WTexture.type d1 = .VKTexture
            ∧ d1.onWlrTextureChanged = some .updateVKTexture))
      ∧ (∀ (d d1 : WTexturePrivate) (x : Option QWTexture), (d.handle ≠ none ∨ x = none) →
        WTexture.setHandle build d x = .ok d1 →
        WTexture.type d1 = WTexture.type d
          ∧ d1.onWlrTextureChanged = d.onWlrTextureChanged)
      ∧ (∀ (handles : List (Option QWTexture)) (d d1 : WTexturePrivate), d.handle ≠ none →
        (∀ x ∈ handles, x ≠ none) → WTexture.setHandles build handles d = .ok d1 →
        WTexture.type d1 = WTexture.type d
          ∧ d1.onWlrTextureChanged = d.onWlrTextureChanged)
      ∧ (∀ (handles : List (Option QWTexture)) (d : WTexturePrivate), d.Initialized →
        d.handle ≠ none → (∀ x ∈ handles, ∃ b, x = some b ∧ d.reads b = true) →
        ∃ d1, WTexture.setHandles build handles d = .ok d1) := by
  refine ⟨?_, ?_, ?_, setHandles_reads_succeeds build⟩
  · intro d b hd
    obtain ⟨width, height, impl⟩ := b
    refine ⟨?_, ?_, ?_⟩
    · intro hb
      cases impl <;> simp [wlr_texture_is_gles2] at hb
      exact setHandle_unbound_init build d _ .updateGLTexture hd
        (by simp [WTexturePrivate.init, wlr_texture_is_gles2])
        (by simp [WTexturePrivate.init, WTexturePrivate.reads, wlr_texture_is_gles2])
        |>.imp fun d1 h => ⟨h.1, h.2.1.trans
          (by simp [WTexturePrivate.init, wlr_texture_is_gles2]), h.2.2⟩
    · intro hb
      cases impl <;> simp [wlr_texture_is_pixman] at hb
      exact setHandle_unbound_init build d _ .updateImage hd
        (by simp [WTexturePrivate.init, wlr_texture_is_gles2, wlr_texture_is_pixman])
        (by simp [WTexturePrivate.init, WTexturePrivate.reads, wlr_texture_is_gles2,
          wlr_texture_is_pixman])
        |>.imp fun d1 h => ⟨h.1, h.2.1.trans
          (by simp [WTexturePrivate.init, wlr_texture_is_gles2, wlr_texture_is_pixman]),
          h.2.2⟩
    · intro hb hv
      cases impl <;> simp [wlr_texture_is_vk] at hb
      exact setHandle_unbound_init build d _ .updateVKTexture hd
        (by simp [WTexturePrivate.init, wlr_texture_is_gles2, wlr_texture_is_pixman,
          wlr_texture_is_vk, hv])
        (by simp [WTexturePrivate.init, WTexturePrivate.reads, wlr_texture_is_gles2,
          wlr_texture_is_pixman, wlr_texture_is_vk, hv])
        |>.imp fun d1 h => ⟨h.1, h.2.1.trans
          (by simp [WTexturePrivate.init, wlr_texture_is_gles2, wlr_texture_is_pixman,
            wlr_texture_is_vk, hv]), h.2.2⟩
  · intro d d1 x hx e
    obtain ⟨h1, h2, -⟩ := setHandle_bound_fields build d d1 x hx e
    exact ⟨h1, h2⟩
  · intro handles d d1 hd hx e
    obtain ⟨h1, h2, -⟩ := setHandles_bound_fields build handles d d1 hd hx e
    exact ⟨h1, h2⟩

/-- C14 amended, witnessed: the empty wrapper is given the sample GL buffer;
the wrapper holding it is given other GL buffers. -/
theorem routine_selected_at_bind_from_unbound_witness :
    (emptyTexture.handle = none ∧ wlr_texture_is_gles2 sampleGLBuffer = true
        ∧ ∃ d1, WTexture.setHandle sampleBuild emptyTexture (some sampleGLBuffer) = .ok d1
          ∧ WTexture.type d1 = .GLTexture
          ∧ d1.onWlrTextureChanged = some .updateGLTexture)
      ∧ (WTexture.setHandle sampleBuild boundTexture none
            = .ok { boundTexture with handle := none }
        ∧ WTexture.type { boundTexture with handle := none } = WTexture.type boundTexture)
      ∧ (WTexture.setHandles sampleBuild [some otherGLBuffer, some sampleGLBuffer]
            boundTexture = .ok boundTexture
        ∧ boundTexture.onWlrTextureChanged = boundTexture.onWlrTextureChanged)
      ∧ ∃ d1, WTexture.setHandles sampleBuild [some otherGLBuffer, some sampleGLBuffer]
          boundTexture = .ok d1 :=
  ⟨⟨rfl, rfl,
      ((routine_selected_at_bind_from_unbound sampleBuild).1 emptyTexture sampleGLBuffer
        rfl).1 rfl⟩,
    ⟨rfl, ((routine_selected_at_bind_from_unbound sampleBuild).2.1 boundTexture _ none
        (Or.inr rfl) rfl).1⟩,
    ⟨rfl, ((routine_selected_at_bind_from_unbound sampleBuild).2.2.1
        [some otherGLBuffer, some sampleGLBuffer] boundTexture boundTexture
        (by decide) (by decide) rfl).2⟩,
    (routine_selected_at_bind_from_unbound sampleBuild).2.2.2
      [some otherGLBuffer, some sampleGLBuffer] boundTexture (fun _ => rfl) (by decide)
      (by
        intro x hx
        simp only [List.mem_cons, List.mem_singleton, List.not_mem_nil, or_false] at hx
        rcases hx with rfl | rfl
        · exact ⟨_, rfl, rfl⟩
        · exact ⟨_, rfl, rfl⟩)⟩

/-! ## The texture wrapper: what a call of `setHandle` derives -/

/-- C15, as the specification words it, fails: a wrapper that no window has
asked for its texture is given a GL buffer of 64 by 48 pixels with alpha and
the native texture 7. The call returns, the buffer is bound, and the
scene-graph texture is the one `init` made: no native texture, no size, no
alpha. And a wrapper that holds a GL buffer and is given a pixman buffer
keeps the GL routine, which cannot read that buffer: the call does not
return. -/
theorem setHandle_without_window_derives_nothing :
    (∃ d1 t, WTexture.setHandle sampleBuild emptyTexture (some sampleGLBuffer) = .ok d1
      ∧ d1.handle = some sampleGLBuffer
      ∧ d1.texture = some t
      ∧ t.texture = none
      ∧ t.textureSize = ⟨-1, -1⟩
      ∧ sampleGLBuffer.size = ⟨64, 48⟩
      ∧ t.hasAlphaChannel = false
      ∧ wlr_gles2_texture_get_attribs sampleGLBuffer
          = .ok { target := GL_TEXTURE_EXTERNAL_OES, tex := 7, has_alpha := true })
      ∧ wlr_texture_is_pixman samplePixmanBuffer = true
      ∧ WTexture.setHandle sampleBuild windowedTexture (some samplePixmanBuffer)
          = .error Abort.assertion := by
  refine ⟨⟨_, _, rfl, rfl, rfl, rfl, rfl, ?_, rfl, rfl⟩, rfl, rfl⟩
  decide

/-- C15, amended: a call of `setHandle` with a GL, Vulkan or pixman buffer
derives the scene-graph texture from that buffer when the routine in use is
the one of the kind of the buffer (it always is when the call finds no
buffer bound) and, for a GL or Vulkan buffer, a window has asked for the
texture before. Then the call returns and the native texture, the size and
the alpha flag (for GL also the external flag) are those of the new buffer;
for a pixman buffer the image, the size and the alpha flag are those of the
converted image of the new buffer. While no window has asked, a GL buffer is
bound and the texture is left as it was, or as `init` made it, and the next
`getSGTexture` with a window derives it from the buffer. -/
theorem setHandle_rederives_for_window (build : TextureBuild) (d : WTexturePrivate)
    (b : QWTexture) (hi : d.Initialized) :
    (∀ attribs, b.impl = .gles2 attribs →
        (d.handle = none ∨ d.onWlrTextureChanged = some .updateGLTexture) →
        (d.window.isSome = true →
          ∃ d1, WTexture.setHandle build d (some b) = .ok d1 ∧ d1.handle = some b
            ∧ d1.texture = some
                { texture := some
                    { nativeObject := attribs.tex, nativeLayout := 0, nativeFormat := 0,
                      pixelSize := b.size,
                      externalOES := decide (attribs.target = GL_TEXTURE_EXTERNAL_OES) }
                  image := none, textureSize := b.size,
                  hasAlphaChannel := attribs.has_alpha, ownsTexture := false })
        ∧ (d.window = none →
          ∃ d1, WTexture.setHandle build d (some b) = .ok d1 ∧ d1.handle = some b
            ∧ d1.texture = (if d.handle.isNone
                then some (QSGPlainTexture.new.setOwnsTexture false) else d.texture)
            ∧ ∀ w : Nat, ∃ d2, WTexture.getSGTexture build d1 (some w) = .ok d2
                ∧ d2.handle = some b
                ∧ d2.texture = some
                    { texture := some
                        { nativeObject := attribs.tex, nativeLayout := 0, nativeFormat := 0,
                          pixelSize := b.size,
                          externalOES := decide (attribs.target = GL_TEXTURE_EXTERNAL_OES) }
                      image := none, textureSize := b.size,
                      hasAlphaChannel := attribs.has_alpha, ownsTexture := false }))
      ∧ (∀ attribs alpha, b.impl = .vk attribs alpha →
        ((d.handle = none ∧ build.vulkanRender = true)
          ∨ d.onWlrTextureChanged = some .updateVKTexture) →
        d.window.isSome = true →
        ∃ d1 t, WTexture.setHandle build d (some b) = .ok d1 ∧ d1.handle = some b
          ∧ d1.texture = some t
          ∧ t.texture = some
              { nativeObject := attribs.image, nativeLayout := attribs.layout,
                nativeFormat := attribs.format, pixelSize := b.size, externalOES := false }
          ∧ t.textureSize = b.size
          ∧ t.hasAlphaChannel = alpha)
      ∧ (∀ image, b.impl = .pixman image →
        (d.handle = none ∨ d.onWlrTextureChanged = some .updateImage) →
        ∃ d1 t, WTexture.setHandle build d (some b) = .ok d1 ∧ d1.handle = some b
          ∧ d1.texture = some t
          ∧ t.image = some (build.fromPixmanImage image)
          ∧ t.textureSize = (build.fromPixmanImage image).size
          ∧ t.hasAlphaChannel = (build.fromPixmanImage image).hasAlphaChannel) := by
  obtain ⟨handle, type, texture, routine, window⟩ := d
  obtain ⟨width, height, impl⟩ := b
  refine ⟨?_, ?_, ?_⟩
  · intro attribs himpl hsel
    simp only at himpl
    subst himpl
    refine ⟨?_, ?_⟩
    · intro hw
      cases window with
      | none => simp at hw
      | some w =>
        cases handle with
        | none =>
          simp [WTexture.setHandle, WTexturePrivate.init, wlr_texture_is_gles2,
            WTexturePrivate.call, WTexturePrivate.updateGLTexture,
            wlr_gles2_texture_get_attribs, QSGPlainTexture.setTextureFromNativeTexture,
            QSGPlainTexture.setHasAlphaChannel, QSGPlainTexture.setTextureSize,
            QSGPlainTexture.setOwnsTexture, QSGPlainTexture.new]
        | some old =>
          simp only [reduceCtorEq, false_or] at hsel
          subst hsel
          cases texture with
          | none => simp [WTexturePrivate.Initialized] at hi
          | some t0 =>
            simp [WTexture.setHandle, WTexturePrivate.call, WTexturePrivate.updateGLTexture,
              wlr_gles2_texture_get_attribs, QSGPlainTexture.setTextureFromNativeTexture,
              QSGPlainTexture.setHasAlphaChannel, QSGPlainTexture.setTextureSize,
              QSGPlainTexture.setOwnsTexture]
    · intro hw
      simp only at hw
      subst hw
      cases handle with
      | none =>
        simp [WTexture.setHandle, WTexturePrivate.init, wlr_texture_is_gles2,
          WTexturePrivate.call, WTexturePrivate.updateGLTexture, WTexture.getSGTexture,
          wlr_gles2_texture_get_attribs, QSGPlainTexture.setTextureFromNativeTexture,
          QSGPlainTexture.setHasAlphaChannel, QSGPlainTexture.setTextureSize,
          QSGPlainTexture.setOwnsTexture, QSGPlainTexture.new]
      | some old =>
        simp only [reduceCtorEq, false_or] at hsel
        subst hsel
        cases texture with
        | none => simp [WTexturePrivate.Initialized] at hi
        | some t0 =>
          simp [WTexture.setHandle, WTexturePrivate.call, WTexturePrivate.updateGLTexture,
            WTexture.getSGTexture,
            wlr_gles2_texture_get_attribs, QSGPlainTexture.setTextureFromNativeTexture,
            QSGPlainTexture.setHasAlphaChannel, QSGPlainTexture.setTextureSize,
            QSGPlainTexture.setOwnsTexture]
  · intro attribs alpha himpl hsel hw
    simp only at himpl
    subst himpl
    cases window with
    | none => simp at hw
    | some w =>
      cases handle with
      | none =>
        simp only [true_and, reduceCtorEq, false_or, or_false] at hsel
        rcases hsel with hv | hsel
        · simp [WTexture.setHandle, WTexturePrivate.init, wlr_texture_is_gles2,
            wlr_texture_is_pixman, wlr_texture_is_vk, hv,
            WTexturePrivate.call, WTexturePrivate.updateVKTexture,
            wlr_vk_texture_get_image_attribs, wlr_vk_texture_has_alpha,
            QSGPlainTexture.setTextureFromNativeTexture,
            QSGPlainTexture.setHasAlphaChannel, QSGPlainTexture.setTextureSize,
            QSGPlainTexture.setOwnsTexture, QSGPlainTexture.new]
        · subst hsel
          by_cases hv : build.vulkanRender = true <;>
          simp [WTexture.setHandle, WTexturePrivate.init, wlr_texture_is_gles2,
            wlr_texture_is_pixman, wlr_texture_is_vk, hv,
            WTexturePrivate.call, WTexturePrivate.updateVKTexture,
            wlr_vk_texture_get_image_attribs, wlr_vk_texture_has_alpha,
            QSGPlainTexture.setTextureFromNativeTexture,
            QSGPlainTexture.setHasAlphaChannel, QSGPlainTexture.setTextureSize,
            QSGPlainTexture.setOwnsTexture, QSGPlainTexture.new]
      | some old =>
        simp only [reduceCtorEq, false_and, false_or] at hsel
        subst hsel
        cases texture with
        | none => simp [WTexturePrivate.Initialized] at hi
        | some t0 =>
          simp [WTexture.setHandle, WTexturePrivate.call, WTexturePrivate.updateVKTexture,
            wlr_vk_texture_get_image_attribs, wlr_vk_texture_has_alpha,
            QSGPlainTexture.setTextureFromNativeTexture,
            QSGPlainTexture.setHasAlphaChannel, QSGPlainTexture.setTextureSize]
  · intro image himpl hsel
    simp only at himpl
    subst himpl
    cases handle with
    | none =>
      simp [WTexture.setHandle, WTexturePrivate.init, wlr_texture_is_gles2,
        wlr_texture_is_pixman, WTexturePrivate.call, WTexturePrivate.updateImage,
        wlr_pixman_texture_get_image, QSGPlainTexture.setImage,
        QSGPlainTexture.setOwnsTexture, QSGPlainTexture.new]
    | some old =>
      simp only [reduceCtorEq, false_or] at hsel
      subst hsel
      cases texture with
      | none => simp [WTexturePrivate.Initialized] at hi
      | some t0 =>
        simp [WTexture.setHandle, WTexturePrivate.call, WTexturePrivate.updateImage,
          wlr_pixman_texture_get_image, QSGPlainTexture.setImage]

/-- C15 amended, witnessed: the wrapper that window 1 has asked for its
texture is given the second GL buffer; the empty wrapper is given the pixman
buffer; the empty wrapper with a window is given the Vulkan buffer. -/
theorem setHandle_rederives_for_window_witness :
    (windowedTexture.Initialized ∧ windowedTexture.window.isSome = true
        ∧ ∃ d1, WTexture.setHandle sampleBuild windowedTexture (some otherGLBuffer) = .ok d1
          ∧ d1.handle = some otherGLBuffer
          ∧ d1.texture = some
              { texture := some
                  { nativeObject := 9, nativeLayout := 0, nativeFormat := 0,
                    pixelSize := ⟨128, 96⟩, externalOES := false }
                image := none, textureSize := ⟨128, 96⟩, hasAlphaChannel := false,
                ownsTexture := false })
      ∧ (∃ d1 t, WTexture.setHandle sampleBuild emptyTexture (some samplePixmanBuffer) = .ok d1
          ∧ d1.handle = some samplePixmanBuffer
          ∧ d1.texture = some t
          ∧ t.image = some { data := 5, size := ⟨32, 32⟩, hasAlphaChannel := true }
          ∧ t.textureSize = ⟨32, 32⟩
          ∧ t.hasAlphaChannel = true)
      ∧ ∃ d1 t, WTexture.setHandle sampleBuild { emptyTexture with window := some 1 }
            (some sampleVKBuffer) = .ok d1
          ∧ d1.handle = some sampleVKBuffer
          ∧ d1.texture = some t
          ∧ t.texture = some
              { nativeObject := 11, nativeLayout := 5, nativeFormat := 44,
                pixelSize := ⟨16, 16⟩, externalOES := false }
          ∧ t.textureSize = ⟨16, 16⟩
          ∧ t.hasAlphaChannel = true :=
  ⟨⟨fun _ => rfl, rfl,
      ((setHandle_rederives_for_window sampleBuild windowedTexture otherGLBuffer
        (fun _ => rfl)).1 _ rfl (Or.inr rfl)).1 rfl⟩,
    (setHandle_rederives_for_window sampleBuild emptyTexture samplePixmanBuffer
      (fun h => by cases h)).2.2 5 rfl (Or.inl rfl),
    (setHandle_rederives_for_window sampleBuild { emptyTexture with window := some 1 }
      sampleVKBuffer (fun h => by cases h)).2.1 _ true rfl (Or.inl ⟨rfl, rfl⟩) rfl⟩

/-! ## The size limits of an XWayland surface item -/

/-- C19: after `onSurfaceCommit` the minimum size is the minimum size of the
surface when that is valid and (0, 0) otherwise, and each signal is emitted
exactly when the stored value changes. The maximum size is normalised the
other way round: a valid maximum size of the surface is replaced by
(`INT_MAX`, `INT_MAX`) and one that is not valid is stored as it is, so the
stored maximum is the one of the interface only when the surface reports
(`INT_MAX`, `INT_MAX`) itself. A surface with the limits 100 by 50 and 800
by 600 gets the maximum (`INT_MAX`, `INT_MAX`); a surface without a maximum
size gets (-1, -1). -/
theorem onSurfaceCommit_limits :
    (∀ (d : WXWaylandSurfaceItemPrivate) (surfaceMin surfaceMax : QSize),
        WXWaylandSurfaceItem.minimumSize
            (WXWaylandSurfaceItem.onSurfaceCommit d surfaceMin surfaceMax).1
          = (normalisedLimits surfaceMin surfaceMax).1
        ∧ WXWaylandSurfaceItem.maximumSize
            (WXWaylandSurfaceItem.onSurfaceCommit d surfaceMin surfaceMax).1
          = (if surfaceMax.isValid then ⟨INT_MAX, INT_MAX⟩ else surfaceMax)
        ∧ (WXWaylandSurfaceItem.maximumSize
              (WXWaylandSurfaceItem.onSurfaceCommit d surfaceMin surfaceMax).1
            = (normalisedLimits surfaceMin surfaceMax).2
          ↔ surfaceMax = ⟨INT_MAX, INT_MAX⟩)
        ∧ (SizeSignal.minimumSizeChanged
              ∈ (WXWaylandSurfaceItem.onSurfaceCommit d surfaceMin surfaceMax).2
          ↔ (WXWaylandSurfaceItem.onSurfaceCommit d surfaceMin surfaceMax).1.minimumSize
              ≠ d.minimumSize)
        ∧ (SizeSignal.maximumSizeChanged
              ∈ (WXWaylandSurfaceItem.onSurfaceCommit d surfaceMin surfaceMax).2
          ↔ (WXWaylandSurfaceItem.onSurfaceCommit d surfaceMin surfaceMax).1.maximumSize
              ≠ d.maximumSize)
        ∧ (WXWaylandSurfaceItem.onSurfaceCommit d surfaceMin surfaceMax).2.Sublist
            [SizeSignal.minimumSizeChanged, SizeSignal.maximumSizeChanged])
      ∧ (WXWaylandSurfaceItem.onSurfaceCommit ⟨⟨-1, -1⟩, ⟨-1, -1⟩⟩ ⟨100, 50⟩ ⟨800, 600⟩
          = (⟨⟨100, 50⟩, ⟨2147483647, 2147483647⟩⟩,
              [SizeSignal.minimumSizeChanged, SizeSignal.maximumSizeChanged])
        ∧ normalisedLimits ⟨100, 50⟩ ⟨800, 600⟩ = (⟨100, 50⟩, ⟨800, 600⟩))
      ∧ (WXWaylandSurfaceItem.onSurfaceCommit ⟨⟨0, 0⟩, ⟨800, 600⟩⟩ ⟨-1, -1⟩ ⟨-1, -1⟩
          = (⟨⟨0, 0⟩, ⟨-1, -1⟩⟩, [SizeSignal.maximumSizeChanged])
        ∧ normalisedLimits ⟨-1, -1⟩ ⟨-1, -1⟩
          = (⟨0, 0⟩, ⟨2147483647, 2147483647⟩)) := by
  refine ⟨?_, ⟨by decide, by decide⟩, ⟨by decide, by decide⟩⟩
  intro d surfaceMin surfaceMax
  obtain ⟨dmin, dmax⟩ := d
  have hvalid : (⟨INT_MAX, INT_MAX⟩ : QSize).isValid = true := by decide
  refine ⟨?_, ?_, ?_, ?_, ?_, ?_⟩
  · unfold WXWaylandSurfaceItem.onSurfaceCommit WXWaylandSurfaceItem.minimumSize
      normalisedLimits
    cases hmin : surfaceMin.isValid <;> cases hmax : surfaceMax.isValid <;>
      simp only [] <;> split_ifs <;> simp_all
  · unfold WXWaylandSurfaceItem.onSurfaceCommit WXWaylandSurfaceItem.maximumSize
    cases hmin : surfaceMin.isValid <;> cases hmax : surfaceMax.isValid <;>
      simp only [] <;> split_ifs <;> simp_all
  · unfold WXWaylandSurfaceItem.onSurfaceCommit WXWaylandSurfaceItem.maximumSize
      normalisedLimits
    cases hmin : surfaceMin.isValid <;> cases hmax : surfaceMax.isValid <;>
      simp only [] <;> split_ifs <;> simp_all <;> exact eq_comm
  · unfold WXWaylandSurfaceItem.onSurfaceCommit
    cases hmin : surfaceMin.isValid <;> cases hmax : surfaceMax.isValid <;>
      simp only [] <;> split_ifs <;> simp_all <;> exact fun h => by simp_all
  · unfold WXWaylandSurfaceItem.onSurfaceCommit
    cases hmin : surfaceMin.isValid <;> cases hmax : surfaceMax.isValid <;>
      simp only [] <;> split_ifs <;> simp_all <;> exact fun h => by simp_all
  · unfold WXWaylandSurfaceItem.onSurfaceCommit
    cases hmin : surfaceMin.isValid <;> cases hmax : surfaceMax.isValid <;>
      simp only [] <;> split_ifs <;> simp

end Waylib
